import Mathlib

/-!
# Fuel-dispensing terminal: Modbus master and fueling-session controller

A shallow embedding of the RS485/Modbus part and of the normal-mode session
controller of `src/main.c`.

Conventions of the embedding.

* C integers are `Nat`; a reduction `% 2^w` is written wherever the C type can wrap
  (`uint16_t expectedBytes = quantity * 2`, the `(uint8_t)` cast of a received byte,
  differences of `millis()` values).
* The UART is the record `Rs485`: the level of the direction pin, the bytes waiting in
  the receive buffer and a log of what the program did to the line.  The bytes the
  remote device sends in answer to a request, and that arrive before the 100 ms
  time-outs of `rs485ReadBytes` expire, are an argument `answer` of each exchange;
  a read that wants more bytes than arrive times out.
* A C function that returns `bool` and logs a different message on each `return false`
  returns an `MbExit` here, one constructor per return site.
* Fixed buffers have their C capacity.  A store past the end of a buffer, or a load of
  an element that was never stored, leaves defined C behaviour: the model stops with
  `MbExit.undefinedBehaviour` and says nothing about what happens next.
* A `float` is identified by the C expression that produced it (`CFloat`): the literal
  `0.0f`, or the binary32 quotient `x / 100.0f` of an unsigned integer `x`.  The quotient
  is not computed: how binary32 rounds it, and how `"%.2f"` prints it, are outside the
  embedding.
-/

namespace FuelTerminal

/-! ## Constants (src/main.c, lines 148-183) -/

def MB_SLAVE_ADDR : Nat := 1
def MB_FC_READ_HOLDING : Nat := 0x03
def MB_FC_WRITE_SINGLE_REG : Nat := 0x06

def REG_CONTROL_CMD : Nat := 0
def REG_STATUS_FLAGS : Nat := 1

def STATUS_SESSION_ACTIVE_BIT : Nat := 1 <<< 1

def METER_POLL_INTERVAL_MS : Nat := 300
def FUEL_SUMMARY_DISPLAY_MS : Nat := 3000

/-- Difference of two `unsigned long` values of `millis()`, as C computes it (32 bits). -/
def msSince (now start : Nat) : Nat := (now + 2 ^ 32 - start % 2 ^ 32) % 2 ^ 32

/-- Every element is a byte. -/
def IsBytes (bs : List Nat) : Prop := ∀ b ∈ bs, b < 256

instance (bs : List Nat) : Decidable (IsBytes bs) := by
  unfold IsBytes; infer_instance

/-! ## CRC (modbusCRC16, lines 1151-1166) -/

/-- The body of the inner `for` loop of `modbusCRC16`: one shift of the register. -/
def crcShift (crc : Nat) : Nat :=
  if crc &&& 0x0001 ≠ 0 then (crc >>> 1) ^^^ 0xA001 else crc >>> 1

/-- The body of the outer loop: `crc ^= data[pos]` followed by the eight shifts. -/
def crcByte (crc b : Nat) : Nat :=
  crcShift (crcShift (crcShift (crcShift (crcShift (crcShift (crcShift (crcShift (crc ^^^ b))))))))

/-- The function `modbusCRC16(data, length)`: the register starts at `0xFFFF` and absorbs
`data[0] .. data[length-1]` in order. -/
def modbusCRC16 (data : List Nat) (length : Nat) : Nat :=
  (data.take length).foldl crcByte 0xFFFF

/-- The comparison both receive paths make (lines 1209-1211 and 1291-1293) on a frame
whose last two bytes are the CRC field: `recvCrc = lo | hi << 8` against
`modbusCRC16` of everything before the field. -/
def crcFieldOk (frame : List Nat) : Bool :=
  let n := frame.length - 2
  let recvCrc := frame.getD n 0 ||| (frame.getD (n + 1) 0 <<< 8)
  let calcCrc := modbusCRC16 frame n
  decide (recvCrc = calcCrc)

/-! ## The RS485 line -/

/-- What the program does to the line, in order. -/
inductive BusOp
  | setTx
  | setRx
  | write (bytes : List Nat)
  | flush
  deriving DecidableEq, Repr

/-- The UART and the transceiver direction pin. -/
structure Rs485 where
  /-- level of `RS485_REDE_PIN`: `true` is HIGH (driver enabled) -/
  rede : Bool
  /-- bytes waiting in the receive buffer -/
  rxBuf : List Nat
  /-- the operations performed so far, oldest first -/
  ops : List BusOp
  deriving DecidableEq, Repr

def rs485SetTx (bus : Rs485) : Rs485 :=
  { bus with rede := true, ops := bus.ops ++ [BusOp.setTx] }

def rs485SetRx (bus : Rs485) : Rs485 :=
  { bus with rede := false, ops := bus.ops ++ [BusOp.setRx] }

/-- Lines 1196-1201 (and 1246-1251): discard what is in the receive buffer, enable the
driver, write the eight bytes, wait for them to leave, go back to receive.  The
answer `resp` of the remote device is in the receive buffer afterwards. -/
def sendRequest (frame resp : List Nat) (bus : Rs485) : Rs485 :=
  let bus := { bus with rxBuf := [] }
  let bus := rs485SetTx bus
  let bus := { bus with ops := bus.ops ++ [BusOp.write frame] }
  let bus := { bus with ops := bus.ops ++ [BusOp.flush] }
  let bus := rs485SetRx bus
  { bus with rxBuf := resp }

/-- How a call of `rs485ReadBytes` ends. -/
inductive ReadEnd
  | filled (buf : List Nat)
  | timedOut
  | overrun
  deriving DecidableEq, Repr

/-- The call `rs485ReadBytes(buf, len, 100)` into a buffer of `cap` elements.  Each byte that
arrives is stored as `(uint8_t)RS485Serial.read()` at the next index; with `len` bytes
stored the call returns `true`, with fewer arriving it returns `false`.  A store at an
index `>= cap` is an overrun. -/
def rs485ReadBytes (cap len : Nat) (bus : Rs485) : ReadEnd × Rs485 :=
  if len ≤ bus.rxBuf.length then
    if len ≤ cap then
      (ReadEnd.filled ((bus.rxBuf.take len).map (· % 256)),
        { bus with rxBuf := bus.rxBuf.drop len })
    else (ReadEnd.overrun, { bus with rxBuf := bus.rxBuf.drop (cap + 1) })
  else
    if bus.rxBuf.length ≤ cap then (ReadEnd.timedOut, { bus with rxBuf := [] })
    else (ReadEnd.overrun, { bus with rxBuf := bus.rxBuf.drop (cap + 1) })

/-! ## Register client -/

/-- The return site through which a Modbus call leaves.  The C functions return `true`
at `ok` and `false` at every other site; `undefinedBehaviour` is not a return. -/
inductive MbExit
  /-- The site `return true`. -/
  | ok
  /-- The site `if (quantity == 0) return false;`. -/
  | zeroQuantity
  /-- Logs "modbusWriteSingleRegister: timeout". -/
  | timeout
  /-- Logs "modbusReadHolding: timeout header". -/
  | timeoutHeader
  /-- Logs "modbusReadHolding: timeout data+crc". -/
  | timeoutData
  /-- Logs "CRC hatasi" (either function). -/
  | crcError
  /-- Logs "modbusWriteSingleRegister: addr/fn hatali". -/
  | addrFn
  /-- Logs "modbusReadHolding: slave addr farkli". -/
  | slaveAddr
  /-- Logs "modbusReadHolding: fn kodu". -/
  | fnCode
  /-- Logs "modbusReadHolding: byteCount farkli". -/
  | byteCount
  /-- Logs "modbusWriteSingleRegister: echo farkli". -/
  | echo
  /-- a store or load outside what a fixed buffer holds -/
  | undefinedBehaviour
  deriving DecidableEq, Repr

/-- The `bool` the C function returns. -/
def MbExit.toBool : MbExit → Bool
  | MbExit.ok => true
  | _ => false

/-- The eight request bytes both client functions build (lines 1185-1194 and
1235-1244): address, function code, two 16-bit fields high byte first, CRC low byte
first. -/
def requestFrame (slaveAddr fc hiLo1 hiLo2 : Nat) : List Nat :=
  let frame6 := [slaveAddr, fc, (hiLo1 >>> 8) &&& 0xFF, hiLo1 &&& 0xFF,
                 (hiLo2 >>> 8) &&& 0xFF, hiLo2 &&& 0xFF]
  let crc := modbusCRC16 frame6 6
  frame6 ++ [crc &&& 0xFF, (crc >>> 8) &&& 0xFF]

/-- The function `modbusWriteSingleRegister(slaveAddr, regAddr, value)` (lines 1183-1229). -/
def modbusWriteSingleRegister (slaveAddr regAddr value : Nat) (answer : List Nat)
    (bus : Rs485) : MbExit × Rs485 :=
  let frame := requestFrame slaveAddr MB_FC_WRITE_SINGLE_REG regAddr value
  let bus := sendRequest frame answer bus
  match rs485ReadBytes 8 8 bus with
  | (ReadEnd.timedOut, bus) => (MbExit.timeout, bus)
  | (ReadEnd.overrun, bus) => (MbExit.undefinedBehaviour, bus)
  | (ReadEnd.filled resp, bus) =>
    let recvCrc := resp.getD 6 0 ||| (resp.getD 7 0 <<< 8)
    let calcCrc := modbusCRC16 resp 6
    if recvCrc ≠ calcCrc then (MbExit.crcError, bus)
    else if resp.getD 0 0 ≠ slaveAddr ∨ resp.getD 1 0 ≠ MB_FC_WRITE_SINGLE_REG then
      (MbExit.addrFn, bus)
    else
      let regEcho := (resp.getD 2 0 <<< 8) ||| resp.getD 3 0
      let valEcho := (resp.getD 4 0 <<< 8) ||| resp.getD 5 0
      if regEcho ≠ regAddr ∨ valEcho ≠ value then (MbExit.echo, bus)
      else (MbExit.ok, bus)

/-- The decoding loop of lines 1298-1302 with `n` iterations left and the loop
variable at `i`: `outRegs[i] = (buf2[2i] << 8) | buf2[2i+1]`.  `buf2` holds the bytes
that were stored in it; `outRegs` is the caller's array with its capacity.  `none` as
soon as an iteration touches an element outside either. -/
def decodeRegisters (buf2 : List Nat) : Nat → Nat → List Nat → Option (List Nat)
  | 0, _, outRegs => some outRegs
  | n + 1, i, outRegs =>
    match buf2.get? (2 * i), buf2.get? (2 * i + 1) with
    | some hi, some lo =>
      if i < outRegs.length then
        decodeRegisters buf2 n (i + 1) (outRegs.set i (((hi <<< 8) ||| lo) % 65536))
      else none
    | _, _ => none

/-- The function `modbusReadHoldingRegisters(slaveAddr, startAddr, quantity, outRegs)`
(lines 1231-1305).  Returns the exit, the caller's array and the line. -/
def modbusReadHoldingRegisters (slaveAddr startAddr quantity : Nat) (outRegs : List Nat)
    (answer : List Nat) (bus : Rs485) : MbExit × List Nat × Rs485 :=
  if quantity = 0 then (MbExit.zeroQuantity, outRegs, bus)
  else
    let frame := requestFrame slaveAddr MB_FC_READ_HOLDING startAddr quantity
    let bus := sendRequest frame answer bus
    match rs485ReadBytes 3 3 bus with
    | (ReadEnd.timedOut, bus) => (MbExit.timeoutHeader, outRegs, bus)
    | (ReadEnd.overrun, bus) => (MbExit.undefinedBehaviour, outRegs, bus)
    | (ReadEnd.filled hdr, bus) =>
      if hdr.getD 0 0 ≠ slaveAddr then (MbExit.slaveAddr, outRegs, bus)
      else if hdr.getD 1 0 ≠ MB_FC_READ_HOLDING then (MbExit.fnCode, outRegs, bus)
      else
        let byteCount := hdr.getD 2 0
        let expectedBytes := (quantity * 2) % 65536
        if byteCount ≠ expectedBytes then (MbExit.byteCount, outRegs, bus)
        else
          let remain := byteCount + 2
          match rs485ReadBytes 64 remain bus with
          | (ReadEnd.timedOut, bus) => (MbExit.timeoutData, outRegs, bus)
          | (ReadEnd.overrun, bus) => (MbExit.undefinedBehaviour, outRegs, bus)
          | (ReadEnd.filled buf2, bus) =>
            let full := hdr ++ buf2
            let fullLen := 3 + remain
            let recvCrc := buf2.getD (remain - 2) 0 ||| (buf2.getD (remain - 1) 0 <<< 8)
            let calcCrc := modbusCRC16 full (fullLen - 2)
            if recvCrc ≠ calcCrc then (MbExit.crcError, outRegs, bus)
            else
              match decodeRegisters buf2 quantity 0 outRegs with
              | none => (MbExit.undefinedBehaviour, outRegs, bus)
              | some regs => (MbExit.ok, regs, bus)

/-- The checks of the read path (lines 1253-1296) stated on the bytes that arrive for a
request of `q` registers from slave `a`: header and data with CRC arrive, the header
carries the address, function code 0x03 and byte count `2q`, and the CRC field of the
`3 + 2q + 2` bytes matches. -/
def PassesReadChecks (a q : Nat) (answer : List Nat) : Prop :=
  3 + 2 * q + 2 ≤ answer.length
  ∧ answer.getD 0 0 = a
  ∧ answer.getD 1 0 = MB_FC_READ_HOLDING
  ∧ answer.getD 2 0 = 2 * q
  ∧ crcFieldOk (answer.take (3 + 2 * q + 2)) = true

instance (a q : Nat) (answer : List Nat) : Decidable (PassesReadChecks a q answer) := by
  unfold PassesReadChecks; infer_instance

/-! ## Meter access (lines 1307-1328) -/

/-- The record `struct MeterData` (line 165). -/
structure MeterData where
  statusFlags : Nat
  sessionVolCl : Nat
  totalVolCl : Nat
  flowRateClm : Nat
  deriving DecidableEq, Repr

/-- The function `meterStartSession()`: writes 1 to the control register of slave 1. -/
def meterStartSession (answer : List Nat) (bus : Rs485) : MbExit × Rs485 :=
  modbusWriteSingleRegister MB_SLAVE_ADDR REG_CONTROL_CMD 1 answer bus

/-- The function `meterRead(out)`: `regs` is the local `uint16_t regs[6]`; `out` is
written only after the read returned `true`. -/
def meterRead (out : MeterData) (answer : List Nat) (bus : Rs485) : Bool × MeterData × Rs485 :=
  match modbusReadHoldingRegisters MB_SLAVE_ADDR REG_STATUS_FLAGS 6 (List.replicate 6 0)
      answer bus with
  | (MbExit.ok, regs, bus) =>
    let svH := regs.getD 1 0
    let svL := regs.getD 2 0
    let tvH := regs.getD 3 0
    let tvL := regs.getD 4 0
    (true,
     { statusFlags := regs.getD 0 0
       sessionVolCl := ((svH <<< 16) ||| svL) % 2 ^ 32
       totalVolCl := ((tvH <<< 16) ||| tvL) % 2 ^ 32
       flowRateClm := regs.getD 5 0 },
     bus)
  | (_, _, bus) => (false, out, bus)

/-! ## Screens, configuration and controller state -/

/-- The enumeration `enum ScreenState` (line 126). -/
inductive ScreenState
  | SCR_SETUP_MENU
  | SCR_WIFI_SETTINGS
  | SCR_PHONE_API
  | SCR_ADMIN_CARD
  | SCR_DRIVER_MENU
  | SCR_DRIVER_CARD
  | SCR_DRIVER_LIST
  | SCR_TEXT_INPUT
  | SCR_FACTORY_RESET_CONFIRM
  | SCR_MESSAGE
  | SCR_IDLE
  | SCR_FUELING
  | SCR_FUEL_SUMMARY
  deriving DecidableEq, Repr

open ScreenState

/-- The record `struct InfoMessage` (line 381). -/
structure InfoMessage where
  title : String
  line1 : String
  line2 : String
  returnScreen : ScreenState
  startMs : Nat
  timeoutMs : Nat
  deriving DecidableEq, Repr

/-- The record `struct AdminCardConfig`. -/
structure AdminCardConfig where
  uidHex : String
  isSet : Bool
  deriving DecidableEq, Repr

/-- The record `struct DriverCard`. -/
structure DriverCard where
  uidHex : String
  plate : String
  deriving DecidableEq, Repr

def MAX_DRIVERS : Nat := 20

/-- The record `struct DriverCardList`: the array `items[MAX_DRIVERS]` and the number of entries in
use. -/
structure DriverCardList where
  items : List DriverCard
  count : Nat
  deriving DecidableEq, Repr

/-- The parts of `struct AppConfig` the normal mode reads. -/
structure AppConfig where
  adminCard : AdminCardConfig
  drivers : DriverCardList
  deriving DecidableEq, Repr

/-- A value of the C type `float` in the controller, identified by the expression that
produced it.  The program has two such expressions: the literal `0.0f` (lines 177 and
3655) and the division of an unsigned integer by the binary32 constant `100.0f` (lines
3579 and 3661).  The result of the division is the binary32 value IEEE 754 gives for it;
the embedding keeps the operand and does not compute the rounded quotient.  Values
built differently are kept apart, so statements say which expression a variable holds,
never that two floats differ. -/
inductive CFloat
  /-- the literal `0.0f` -/
  | zero
  /-- the binary32 value of `x / 100.0f` for the unsigned integer `x` -/
  | div100 (x : Nat)
  deriving DecidableEq, Repr

/-- What the program puts on the display, one entry per call of a draw function. -/
inductive Drawn
  /-- A call of `drawFuelingScreen(md)`. -/
  | fuelingScreen (plate : String) (md : MeterData)
  /-- A call of `drawFuelSummaryScreen()`, which shows the plate and `g_lastSessionLiters` -/
  | fuelSummaryScreen (plate : String) (liters : CFloat)
  /-- A call of `drawIdleScreen()`. -/
  | idleScreen
  /-- A call of `showInfoMessage(title, line1, line2, ..)`. -/
  | infoMessage (title line1 line2 : String)
  /-- the draw function of a set-up screen -/
  | setupScreen (scr : ScreenState)
  deriving DecidableEq, Repr

/-- The global variables of the normal mode, the line and the display log. -/
structure Terminal where
  currentScreen : ScreenState
  g_lastMeter : MeterData
  g_sessionActive : Bool
  g_activeDriverUid : String
  g_activeDriverPlate : String
  g_lastSessionLiters : CFloat
  g_lastMeterPollMs : Nat
  g_fuelSummaryStartMs : Nat
  infoMsg : InfoMessage
  config : AppConfig
  bus : Rs485
  drawn : List Drawn
  deriving DecidableEq

/-- The function `findDriverIndexByUid(uidHex)`: the first `i < count` with
`items[i].uidHex == uidHex`, or `-1`. -/
def findDriverIndexByUid (config : AppConfig) (uidHex : String) : Int :=
  match (List.range config.drivers.count).find?
      (fun i => decide ((config.drivers.items.getD i ⟨"", ""⟩).uidHex = uidHex)) with
  | some i => (i : Int)
  | none => -1

/-- The function `showInfoMessage(title, line1, line2, retScreenState, durationMs)` (line 1333);
`now` is the value of `millis()`. -/
def showInfoMessage (title line1 line2 : String) (retScreenState : ScreenState)
    (durationMs now : Nat) (t : Terminal) : Terminal :=
  { t with
    drawn := t.drawn ++ [Drawn.infoMessage title line1 line2]
    infoMsg := { title := title, line1 := line1, line2 := line2,
                 returnScreen := retScreenState, startMs := now, timeoutMs := durationMs }
    currentScreen := SCR_MESSAGE }

def drawFuelingScreen (md : MeterData) (t : Terminal) : Terminal :=
  { t with drawn := t.drawn ++ [Drawn.fuelingScreen t.g_activeDriverPlate md] }

def drawFuelSummaryScreen (t : Terminal) : Terminal :=
  { t with
    drawn := t.drawn ++ [Drawn.fuelSummaryScreen t.g_activeDriverPlate t.g_lastSessionLiters] }

def drawIdleScreen (t : Terminal) : Terminal :=
  { t with drawn := t.drawn ++ [Drawn.idleScreen] }

/-! ## Session controller (lines 3552-3671) -/

/-- The function `handleTouchOnFuelSummary()`; `now` is the value of `millis()`. -/
def handleTouchOnFuelSummary (now : Nat) (t : Terminal) : Terminal :=
  if msSince now t.g_fuelSummaryStartMs ≥ FUEL_SUMMARY_DISPLAY_MS then
    drawIdleScreen { t with currentScreen := SCR_IDLE }
  else t

/-- The function `handleMeterPolling()`.  `now` is the value of `millis()` at line 3568,
`closeMs` its value at line 3593, `answer` what the meter sends back if a read is
issued. -/
def handleMeterPolling (now closeMs : Nat) (answer : List Nat) (t : Terminal) : Terminal :=
  if t.currentScreen ≠ SCR_FUELING then t
  else if msSince now t.g_lastMeterPollMs < METER_POLL_INTERVAL_MS then t
  else
    let t := { t with g_lastMeterPollMs := now }
    match meterRead ⟨0, 0, 0, 0⟩ answer t.bus with
    | (false, _, bus) => { t with bus := bus }
    | (true, md, bus) =>
      let t := { t with bus := bus, g_lastMeter := md }
      let sessionLiters : CFloat := CFloat.div100 md.sessionVolCl
      let t := { t with g_lastSessionLiters := sessionLiters }
      let t := drawFuelingScreen md t
      let active := decide (md.statusFlags &&& STATUS_SESSION_ACTIVE_BIT ≠ 0)
      if t.g_sessionActive && !active then
        let t := { t with g_sessionActive := false }
        let t := { t with currentScreen := SCR_FUEL_SUMMARY }
        let t := { t with g_fuelSummaryStartMs := closeMs }
        drawFuelSummaryScreen t
      else
        { t with g_sessionActive := active }

/-- The function `handleRfidInNormalMode()`.  `card` is the UID read from a newly
presented card (`none` when no card is present or its serial cannot be read), `now` the value of
`millis()` when a message is shown, `startAnswer` and `seedAnswer` what the meter
sends back to the start write and to the first read. -/
def handleRfidInNormalMode (card : Option String) (now : Nat)
    (startAnswer seedAnswer : List Nat) (t : Terminal) : Terminal :=
  match card with
  | none => t
  | some uidHex =>
    let isAdmin := t.config.adminCard.isSet && decide (uidHex = t.config.adminCard.uidHex)
    if isAdmin then
      showInfoMessage "Yonetici" "Admin kart okundu" "Ayarlar aciliyor" SCR_SETUP_MENU 1500 now t
    else if t.currentScreen = SCR_IDLE ∨ t.currentScreen = SCR_FUEL_SUMMARY then
      let idx := findDriverIndexByUid t.config uidHex
      if idx < 0 then
        showInfoMessage "Sofor Kart" "Kart tanimli degil" "" SCR_IDLE 1500 now t
      else
        let t := { t with g_activeDriverUid := uidHex }
        let t := { t with
          g_activeDriverPlate := (t.config.drivers.items.getD idx.toNat ⟨"", ""⟩).plate }
        match meterStartSession startAnswer t.bus with
        | (MbExit.ok, bus) =>
          let t := { t with bus := bus }
          let t := { t with g_sessionActive := true }
          let t := { t with g_lastMeterPollMs := 0 }
          let t := { t with g_lastSessionLiters := CFloat.zero }
          let t :=
            match meterRead ⟨0, 0, 0, 0⟩ seedAnswer t.bus with
            | (true, md, bus) =>
              { t with bus := bus, g_lastMeter := md,
                       g_lastSessionLiters := CFloat.div100 md.sessionVolCl }
            | (false, _, bus) =>
              { t with bus := bus, g_lastMeter := ⟨0, 0, 0, 0⟩ }
          let t := { t with currentScreen := SCR_FUELING }
          drawFuelingScreen t.g_lastMeter t
        | (_, bus) =>
          showInfoMessage "RS485" "Dolum baslatilamadi" "Baglanti hatasi" SCR_IDLE 1500 now
            { t with bus := bus }
    else t

/-- What one pass of `loop()` receives from outside. -/
structure LoopInput where
  /-- value of `millis()` while the screen handlers run -/
  now : Nat
  /-- value of `millis()` at line 3593, after the exchange of the poll -/
  closeMs : Nat
  /-- what the meter sends back to the poll's read -/
  pollAnswer : List Nat
  /-- the card the reader sees after the screen handlers -/
  card : Option String
  /-- value of `millis()` when the card handler shows a message -/
  rfidMs : Nat
  /-- what the meter sends back to the start write -/
  startAnswer : List Nat
  /-- what the meter sends back to the first read of a session -/
  seedAnswer : List Nat
  deriving DecidableEq, Repr

/-- One pass of `loop()` (lines 633-732) without touch input: the screen's handler, then
the card reader on the three normal-mode screens.  The set-up screens only react to
touch, `handleTouchOnIdle` and `handleTouchOnFueling` are empty, and the Wi-Fi/NTP
housekeeping and the top bar refresh do not touch the state modelled here. -/
def loop (inp : LoopInput) (t : Terminal) : Terminal :=
  let t :=
    match t.currentScreen with
    | SCR_FUELING => handleMeterPolling inp.now inp.closeMs inp.pollAnswer t
    | SCR_FUEL_SUMMARY => handleTouchOnFuelSummary inp.now t
    | SCR_MESSAGE =>
      if msSince inp.now t.infoMsg.startMs ≥ t.infoMsg.timeoutMs then
        let ret := t.infoMsg.returnScreen
        let t := { t with currentScreen := ret }
        if ret = SCR_IDLE then drawIdleScreen t
        else if ret = SCR_FUEL_SUMMARY then drawFuelSummaryScreen t
        else if ret = SCR_SETUP_MENU ∨ ret = SCR_WIFI_SETTINGS ∨ ret = SCR_PHONE_API
            ∨ ret = SCR_ADMIN_CARD ∨ ret = SCR_DRIVER_MENU ∨ ret = SCR_DRIVER_CARD
            ∨ ret = SCR_DRIVER_LIST then
          { t with drawn := t.drawn ++ [Drawn.setupScreen ret] }
        else t
      else t
    | _ => t
  if t.currentScreen = SCR_IDLE ∨ t.currentScreen = SCR_FUELING
      ∨ t.currentScreen = SCR_FUEL_SUMMARY then
    handleRfidInNormalMode inp.card inp.rfidMs inp.startAnswer inp.seedAnswer t
  else t

/-- The passes of `loop()` for a list of inputs, in order. -/
def run (inps : List LoopInput) (t : Terminal) : Terminal :=
  inps.foldl (fun t inp => loop inp t) t

/-- How often the summary screen was drawn: each is one end-of-session event. -/
def closedEvents (t : Terminal) : Nat :=
  (t.drawn.filter (fun d => match d with
    | Drawn.fuelSummaryScreen _ _ => true
    | _ => false)).length

/-- The function `initRs485()` (line 1133): the direction pin goes to receive. -/
def initRs485 : Rs485 :=
  rs485SetRx { rede := false, rxBuf := [], ops := [] }

/-- The state in which `setup()` leaves the terminal when the stored configuration
`config` is complete and the Wi-Fi connection came up (line 588): idle screen drawn,
every global at its initial value. -/
def idleTerminal (config : AppConfig) : Terminal :=
  { currentScreen := SCR_IDLE
    g_lastMeter := ⟨0, 0, 0, 0⟩
    g_sessionActive := false
    g_activeDriverUid := ""
    g_activeDriverPlate := ""
    g_lastSessionLiters := CFloat.zero
    g_lastMeterPollMs := 0
    g_fuelSummaryStartMs := 0
    infoMsg := ⟨"", "", "", SCR_SETUP_MENU, 0, 0⟩
    config := config
    bus := initRs485
    drawn := [Drawn.idleScreen] }

/-- What the poll of `handleMeterPolling` for input `p` observes from state `t`: `none`
when no read is due yet or the read fails, otherwise whether the session-active bit of
the status word is set. -/
def pollReports (t : Terminal) (p : LoopInput) : Option Bool :=
  if msSince p.now t.g_lastMeterPollMs < METER_POLL_INTERVAL_MS then none
  else
    match meterRead ⟨0, 0, 0, 0⟩ p.pollAnswer t.bus with
    | (true, md, _) => some (decide (md.statusFlags &&& STATUS_SESSION_ACTIVE_BIT ≠ 0))
    | (false, _, _) => none

/-- A frame with bit `pos % 8` of byte `pos / 8` inverted. -/
def flipBit (frame : List Nat) (pos : Nat) : List Nat :=
  frame.set (pos / 8) (frame.getD (pos / 8) 0 ^^^ (1 <<< (pos % 8)))

/-- The state `t` is one in which `handleRfidInNormalMode` has just started a session:
a card was presented on the idle or the summary screen, the start write succeeded and
the fueling screen came up. -/
def SessionStarted (t : Terminal) : Prop :=
  ∃ (t0 : Terminal) (uidHex : String) (now : Nat) (startAnswer seedAnswer : List Nat),
    (t0.currentScreen = SCR_IDLE ∨ t0.currentScreen = SCR_FUEL_SUMMARY)
    ∧ t = handleRfidInNormalMode (some uidHex) now startAnswer seedAnswer t0
    ∧ t.currentScreen = SCR_FUELING

/-! ## Data of the scenario of the specification -/

/-- A configuration with which the terminal enters the normal mode
(`isNormalModeConfigComplete`, line 908): the administrator card `AD000001` is set and
one driver card is registered, with plate "34 ABC 123". -/
def scenarioConfig : AppConfig :=
  { adminCard := { uidHex := "AD000001", isSet := true }
    drivers := { items := [{ uidHex := "04A1B2C3", plate := "34 ABC 123" }], count := 1 } }

/-- A pass of `loop()` at 100 ms in which the driver card is read, the meter echoes the
start write `01 06 00 00 00 01 48 0A` and answers the first read with `seedAnswer`. -/
def cardPass (seedAnswer : List Nat) : LoopInput :=
  { now := 100, closeMs := 100, pollAnswer := [], card := some "04A1B2C3", rfidMs := 100
    startAnswer := [1, 6, 0, 0, 0, 1, 72, 10], seedAnswer := seedAnswer }

/-- A pass of `loop()` at `now` with no card at the reader, in which the meter answers a
poll with `answer`. -/
def pollPass (now : Nat) (answer : List Nat) : LoopInput :=
  { now := now, closeMs := now + 40, pollAnswer := answer, card := none, rfidMs := now + 40
    startAnswer := [], seedAnswer := [] }

/-- Poll answer: status 0x0002 (session active), session volume 0, flow 0. -/
def answerActive0 : List Nat :=
  [1, 3, 12, 0, 2, 0, 0, 0, 0, 0, 0, 0, 0, 0, 0, 152, 200]

/-- Poll answer: status 0x0002 (session active), session volume 520 cl, flow 500. -/
def answerActive520 : List Nat :=
  [1, 3, 12, 0, 2, 0, 0, 2, 8, 0, 0, 2, 8, 1, 244, 16, 188]

/-- Poll answer: status 0x0002 (session active), session volume 1175 cl, flow 500. -/
def answerActive1175 : List Nat :=
  [1, 3, 12, 0, 2, 0, 0, 4, 151, 0, 0, 4, 151, 1, 244, 207, 57]

/-- Poll answer: status 0 (session-active bit clear), session volume 1175 cl, flow 0. -/
def answerDone1175 : List Nat :=
  [1, 3, 12, 0, 0, 0, 0, 4, 151, 0, 0, 4, 151, 0, 0, 196, 150]

/-- Poll answer: status 0 (session-active bit clear), every register 0. -/
def answerDone0 : List Nat :=
  [1, 3, 12, 0, 0, 0, 0, 0, 0, 0, 0, 0, 0, 0, 0, 147, 112]

/-! ## Reference CRC-16/MODBUS, after the words of the specification -/

/-- One right shift of the reference register: the bit shifted out is `crc % 2`, and
`0xA001` is XORed in exactly when that bit was 1. -/
def referenceShift (crc : Nat) : Nat :=
  if crc % 2 = 1 then (crc / 2) ^^^ 0xA001 else crc / 2

/-- One byte of the reference: the byte is XORed into the low 8 bits of the register
(the high bits stay), then the register is shifted 8 times. -/
def referenceAbsorb (crc byte : Nat) : Nat :=
  referenceShift^[8] (256 * (crc / 256) + ((crc % 256) ^^^ byte))

/-- The reference register after the bytes, in order, from the value `crc`. -/
def referenceFrom (crc : Nat) : List Nat → Nat
  | [] => crc
  | byte :: rest => referenceFrom (referenceAbsorb crc byte) rest

/-- Reference CRC-16/MODBUS of a byte sequence: start from `0xFFFF`. -/
def referenceCRC16 (bytes : List Nat) : Nat :=
  referenceFrom 0xFFFF bytes

/-! ## Notions used to state the controller properties -/

/-- The controller is idle in the sense of the specification: the idle screen is up, or a
message is up that gives way to the idle screen when its time has run out. -/
def IsIdle (t : Terminal) : Prop :=
  t.currentScreen = SCR_IDLE
  ∨ (t.currentScreen = SCR_MESSAGE ∧ t.infoMsg.returnScreen = SCR_IDLE)

instance (t : Terminal) : Decidable (IsIdle t) := by
  unfold IsIdle; infer_instance

/-- The card `uidHex` is the configured administrator card (line 3626). -/
def IsAdminCard (config : AppConfig) (uidHex : String) : Prop :=
  config.adminCard.isSet = true ∧ uidHex = config.adminCard.uidHex

instance (config : AppConfig) (uidHex : String) : Decidable (IsAdminCard config uidHex) := by
  unfold IsAdminCard; infer_instance

/-- The card `uidHex` matches no entry in use of the driver table. -/
def NotInDriverTable (config : AppConfig) (uidHex : String) : Prop :=
  ∀ i, i < config.drivers.count → (config.drivers.items.getD i ⟨"", ""⟩).uidHex ≠ uidHex

/-- The entry `i` is the first entry in use of the driver table with the card `uidHex`. -/
def FirstDriverEntry (config : AppConfig) (uidHex : String) (i : Nat) : Prop :=
  i < config.drivers.count
  ∧ (config.drivers.items.getD i ⟨"", ""⟩).uidHex = uidHex
  ∧ ∀ j, j < i → (config.drivers.items.getD j ⟨"", ""⟩).uidHex ≠ uidHex

instance (config : AppConfig) (uidHex : String) :
    Decidable (NotInDriverTable config uidHex) := by
  unfold NotInDriverTable; infer_instance

instance (config : AppConfig) (uidHex : String) (i : Nat) :
    Decidable (FirstDriverEntry config uidHex i) := by
  unfold FirstDriverEntry; infer_instance

/-- How many times the start request (write 1 to the control register of slave 1) was
put on the wire. -/
def startWrites (bus : Rs485) : Nat :=
  (bus.ops.filter (fun op =>
    decide (op = BusOp.write
      (requestFrame MB_SLAVE_ADDR MB_FC_WRITE_SINGLE_REG REG_CONTROL_CMD 1)))).length

/-! ## Driver table update (configAddOrUpdateDriver, lines 867-892) -/

/-- The array `items` with `items[idx] = d`.  The list holds the leading entries of the
array; the entries after it are default-constructed (empty strings), as `getD` reads
them. -/
def setItem (items : List DriverCard) (idx : Nat) (d : DriverCard) : List DriverCard :=
  if idx < items.length then items.set idx d
  else items ++ List.replicate (idx - items.length) ⟨"", ""⟩ ++ [d]

/-- The function `configAddOrUpdateDriver(uidHex, plate, save)`: the entry in use with
this card gets the plate; otherwise, if the table is not full, a new entry is appended.
Returns the `bool` and the configuration.  The write to persistent storage under `save`
is outside the embedding. -/
def configAddOrUpdateDriver (config : AppConfig) (uidHex plate : String) : Bool × AppConfig :=
  match (List.range config.drivers.count).find?
      (fun i => decide ((config.drivers.items.getD i ⟨"", ""⟩).uidHex = uidHex)) with
  | some i =>
    (true, { config with drivers := { config.drivers with
      items := setItem config.drivers.items i
        { config.drivers.items.getD i ⟨"", ""⟩ with plate := plate } } })
  | none =>
    if config.drivers.count ≥ MAX_DRIVERS then (false, config)
    else
      let idx := config.drivers.count
      (true, { config with drivers :=
        { items := setItem config.drivers.items idx { uidHex := uidHex, plate := plate }
          count := config.drivers.count + 1 } })

/-! ## Reachable states -/

/-- The state in which `setup()` leaves the terminal when the configuration is
incomplete or the Wi-Fi connection failed (lines 605 and 623): set-up menu drawn, every
global at its initial value. -/
def setupMenuTerminal (config : AppConfig) : Terminal :=
  { idleTerminal config with
    currentScreen := SCR_SETUP_MENU
    drawn := [Drawn.setupScreen SCR_SETUP_MENU] }

/-- The screens of the set-up mode, whose handlers react to touch. -/
def isSetupScreen : ScreenState → Bool
  | SCR_SETUP_MENU => true
  | SCR_WIFI_SETTINGS => true
  | SCR_PHONE_API => true
  | SCR_ADMIN_CARD => true
  | SCR_DRIVER_MENU => true
  | SCR_DRIVER_CARD => true
  | SCR_DRIVER_LIST => true
  | SCR_TEXT_INPUT => true
  | SCR_FACTORY_RESET_CONFIRM => true
  | _ => false

/-- What a touch or a card on a set-up screen may do, as far as the controller is
concerned: anything that does not put up the fueling screen nor a message that returns
to it.  (The set-up handlers assign `currentScreen` only set-up screens, the keyboard
and `SCR_MESSAGE`, and call `showInfoMessage` and `kbStart` only with set-up screens and
`SCR_IDLE` as the screen to return to.) -/
def SetupStep (t t' : Terminal) : Prop :=
  isSetupScreen t.currentScreen = true
  ∧ t'.currentScreen ≠ SCR_FUELING
  ∧ t'.infoMsg.returnScreen ≠ SCR_FUELING

/-- The states the terminal can be in: after `setup()`, after a pass of `loop()` with any
input, after anything a set-up screen does. -/
inductive Reachable : Terminal → Prop
  | bootIdle (config : AppConfig) : Reachable (idleTerminal config)
  | bootSetup (config : AppConfig) : Reachable (setupMenuTerminal config)
  | pass (inp : LoopInput) (t : Terminal) : Reachable t → Reachable (loop inp t)
  | touch (t t' : Terminal) : Reachable t → SetupStep t t' → Reachable t'

/-! # Theorems -/

/-! ## Arithmetic of the bit operations -/

theorem and_ff_eq_mod (x : Nat) : x &&& 0xFF = x % 256 :=
  Nat.and_pow_two_sub_one_eq_mod x 8

theorem and_one_eq_mod (x : Nat) : x &&& 0x0001 = x % 2 :=
  Nat.and_pow_two_sub_one_eq_mod x 1

theorem shr8_eq_div (x : Nat) : x >>> 8 = x / 256 :=
  Nat.shiftRight_eq_div_pow x 8

theorem shr1_eq_div (x : Nat) : x >>> 1 = x / 2 :=
  Nat.shiftRight_eq_div_pow x 1

theorem shl8_eq_mul (x : Nat) : x <<< 8 = 256 * x := by
  rw [Nat.shiftLeft_eq, Nat.mul_comm]

theorem shl8_or_eq_add (hi lo : Nat) (h : lo < 256) : (hi <<< 8) ||| lo = 256 * hi + lo := by
  rw [shl8_eq_mul]
  exact (Nat.mul_add_lt_is_or (i := 8) h hi).symm

theorem or_shl8_eq_add (lo hi : Nat) (h : lo < 256) : lo ||| (hi <<< 8) = 256 * hi + lo := by
  rw [Nat.lor_comm]
  exact shl8_or_eq_add hi lo h

theorem xor_0xA001_ge (z : Nat) (h : z < 32768) : 32768 ≤ z ^^^ 0xA001 := by
  have h1 : (z ^^^ 0xA001).testBit 15 = true := by
    rw [Nat.testBit_xor, Nat.testBit_lt_two_pow (i := 15) h]
    decide
  exact Nat.testBit_implies_ge h1

theorem crcShift_lt (crc : Nat) (h : crc < 65536) : crcShift crc < 65536 := by
  unfold crcShift
  rw [shr1_eq_div]
  split
  · exact Nat.xor_lt_two_pow (n := 16) (by omega) (by decide)
  · omega

theorem crcShift_inj (x y : Nat) (hx : x < 65536) (hy : y < 65536)
    (h : crcShift x = crcShift y) : x = y := by
  unfold crcShift at h
  rw [and_one_eq_mod, and_one_eq_mod, shr1_eq_div, shr1_eq_div] at h
  have gx := xor_0xA001_ge (x / 2) (by omega)
  have gy := xor_0xA001_ge (y / 2) (by omega)
  split at h <;> split at h
  · have := Nat.xor_left_injective h
    omega
  · omega
  · omega
  · omega

theorem crcByte_lt (crc b : Nat) (hc : crc < 65536) (hb : b < 256) : crcByte crc b < 65536 := by
  unfold crcByte
  have h0 : crc ^^^ b < 65536 := Nat.xor_lt_two_pow (n := 16) hc (by omega)
  exact crcShift_lt _ (crcShift_lt _ (crcShift_lt _ (crcShift_lt _ (crcShift_lt _
    (crcShift_lt _ (crcShift_lt _ (crcShift_lt _ h0)))))))

theorem crcByte_inj (x y b c : Nat) (hx : x < 65536) (hy : y < 65536) (hb : b < 256) (hc : c < 256)
    (h : crcByte x b = crcByte y c) : x ^^^ b = y ^^^ c := by
  unfold crcByte at h
  have hxb : x ^^^ b < 65536 := Nat.xor_lt_two_pow (n := 16) hx (by omega)
  have hyc : y ^^^ c < 65536 := Nat.xor_lt_two_pow (n := 16) hy (by omega)
  have l1 := fun z (hz : z < 65536) => crcShift_lt z hz
  have i1 := crcShift_inj
  apply i1 _ _ hxb hyc
  apply i1 _ _ (l1 _ hxb) (l1 _ hyc)
  apply i1 _ _ (l1 _ (l1 _ hxb)) (l1 _ (l1 _ hyc))
  apply i1 _ _ (l1 _ (l1 _ (l1 _ hxb))) (l1 _ (l1 _ (l1 _ hyc)))
  apply i1 _ _ (l1 _ (l1 _ (l1 _ (l1 _ hxb)))) (l1 _ (l1 _ (l1 _ (l1 _ hyc))))
  apply i1 _ _ (l1 _ (l1 _ (l1 _ (l1 _ (l1 _ hxb))))) (l1 _ (l1 _ (l1 _ (l1 _ (l1 _ hyc)))))
  apply i1 _ _ (l1 _ (l1 _ (l1 _ (l1 _ (l1 _ (l1 _ hxb)))))) (l1 _ (l1 _ (l1 _ (l1 _ (l1 _ (l1 _ hyc))))))
  apply i1 _ _ (l1 _ (l1 _ (l1 _ (l1 _ (l1 _ (l1 _ (l1 _ hxb))))))) (l1 _ (l1 _ (l1 _ (l1 _ (l1 _ (l1 _ (l1 _ hyc)))))))
  exact h

theorem foldl_crcByte_lt (bs : List Nat) (hb : IsBytes bs) (c : Nat) (hc : c < 65536) :
    bs.foldl crcByte c < 65536 := by
  induction bs generalizing c with
  | nil => simpa using hc
  | cons b bs ih =>
    rw [List.foldl_cons]
    exact ih (fun x hx => hb x (List.mem_cons_of_mem _ hx)) _
      (crcByte_lt c b hc (hb b (List.mem_cons_self _ _)))

theorem isBytes_take (bs : List Nat) (n : Nat) (hb : IsBytes bs) : IsBytes (bs.take n) :=
  fun x hx => hb x (List.mem_of_mem_take hx)

theorem modbusCRC16_lt (data : List Nat) (n : Nat) (hb : IsBytes data) :
    modbusCRC16 data n < 65536 :=
  foldl_crcByte_lt _ (isBytes_take data n hb) _ (by decide)


theorem recombine_crc (c : Nat) (h : c < 65536) :
    (c &&& 0xFF) ||| (((c >>> 8) &&& 0xFF) <<< 8) = c := by
  rw [and_ff_eq_mod, and_ff_eq_mod, shr8_eq_div, or_shl8_eq_add _ _ (by omega)]
  omega

theorem list_length_eight (R : List Nat) (h : R.length = 8) :
    ∃ r0 r1 r2 r3 r4 r5 r6 r7, R = [r0, r1, r2, r3, r4, r5, r6, r7] := by
  match R, h with
  | [r0, r1, r2, r3, r4, r5, r6, r7], _ => exact ⟨r0, r1, r2, r3, r4, r5, r6, r7, rfl⟩

theorem modbusCRC16_six (r0 r1 r2 r3 r4 r5 : Nat) (rest : List Nat) :
    modbusCRC16 ([r0, r1, r2, r3, r4, r5] ++ rest) 6 = modbusCRC16 [r0, r1, r2, r3, r4, r5] 6 := by
  simp [modbusCRC16]

/-! ## The write exchange -/

/-- The line after a write exchange: receive mode, one request on the wire. -/
theorem write_bus (a r v : Nat) (answer : List Nat) (bus : Rs485) :
    (modbusWriteSingleRegister a r v answer bus).2.rede = false
    ∧ (modbusWriteSingleRegister a r v answer bus).2.ops
        = bus.ops ++ [BusOp.setTx, BusOp.write (requestFrame a MB_FC_WRITE_SINGLE_REG r v),
            BusOp.flush, BusOp.setRx] := by
  simp only [modbusWriteSingleRegister, sendRequest, rs485SetTx, rs485SetRx, rs485ReadBytes]
  constructor <;> (split_ifs <;> simp) <;> (split_ifs <;> simp)

/-- The exit of a write exchange whose answer has at least eight bytes. -/
theorem write_exit_of_eight (a r v r0 r1 r2 r3 r4 r5 r6 r7 : Nat) (more : List Nat)
    (hb : IsBytes [r0, r1, r2, r3, r4, r5, r6, r7]) (bus : Rs485) :
    (modbusWriteSingleRegister a r v ([r0, r1, r2, r3, r4, r5, r6, r7] ++ more) bus).1 =
      if r6 ||| (r7 <<< 8) ≠ modbusCRC16 [r0, r1, r2, r3, r4, r5] 6 then MbExit.crcError
      else if r0 ≠ a ∨ r1 ≠ MB_FC_WRITE_SINGLE_REG then MbExit.addrFn
      else if (r2 <<< 8) ||| r3 ≠ r ∨ (r4 <<< 8) ||| r5 ≠ v then MbExit.echo
      else MbExit.ok := by
  have h0 : r0 % 256 = r0 := Nat.mod_eq_of_lt (hb r0 (by simp))
  have h1 : r1 % 256 = r1 := Nat.mod_eq_of_lt (hb r1 (by simp))
  have h2 : r2 % 256 = r2 := Nat.mod_eq_of_lt (hb r2 (by simp))
  have h3 : r3 % 256 = r3 := Nat.mod_eq_of_lt (hb r3 (by simp))
  have h4 : r4 % 256 = r4 := Nat.mod_eq_of_lt (hb r4 (by simp))
  have h5 : r5 % 256 = r5 := Nat.mod_eq_of_lt (hb r5 (by simp))
  have h6 : r6 % 256 = r6 := Nat.mod_eq_of_lt (hb r6 (by simp))
  have h7 : r7 % 256 = r7 := Nat.mod_eq_of_lt (hb r7 (by simp))
  have hc := modbusCRC16_six r0 r1 r2 r3 r4 r5 [r6, r7]
  simp only [List.cons_append, List.nil_append] at hc
  simp only [modbusWriteSingleRegister, sendRequest, rs485SetTx, rs485SetRx, rs485ReadBytes]
  simp [h0, h1, h2, h3, h4, h5, h6, h7, hc]
  split_ifs <;> simp_all

/-- The request frame, byte by byte. -/
theorem requestFrame_eq (a fc x y : Nat) :
    requestFrame a fc x y =
      [a, fc, x / 256 % 256, x % 256, y / 256 % 256, y % 256,
       modbusCRC16 [a, fc, x / 256 % 256, x % 256, y / 256 % 256, y % 256] 6 % 256,
       modbusCRC16 [a, fc, x / 256 % 256, x % 256, y / 256 % 256, y % 256] 6 / 256 % 256] := by
  simp [requestFrame, and_ff_eq_mod, shr8_eq_div]

/-- C1. For every slave address, register and value and every eight bytes received in
time as the answer, `modbusWriteSingleRegister` transmits exactly one request frame
and returns success if and only if the eight bytes are identical to that frame, CRC
bytes included. -/
theorem C1_write_success_iff_echo (a r v : Nat) (hr : r < 65536) (hv : v < 65536)
    (R more : List Nat) (hlen : R.length = 8) (hb : IsBytes R) (bus : Rs485) :
    (modbusWriteSingleRegister a r v (R ++ more) bus).2.ops
        = bus.ops ++ [BusOp.setTx, BusOp.write (requestFrame a MB_FC_WRITE_SINGLE_REG r v),
            BusOp.flush, BusOp.setRx]
    ∧ ((modbusWriteSingleRegister a r v (R ++ more) bus).1 = MbExit.ok
        ↔ R = requestFrame a MB_FC_WRITE_SINGLE_REG r v) := by
  refine ⟨(write_bus a r v _ bus).2, ?_⟩
  obtain ⟨r0, r1, r2, r3, r4, r5, r6, r7, rfl⟩ := list_length_eight R hlen
  have h2 : r2 < 256 := hb r2 (by simp)
  have h3 : r3 < 256 := hb r3 (by simp)
  have h4 : r4 < 256 := hb r4 (by simp)
  have h5 : r5 < 256 := hb r5 (by simp)
  have h6 : r6 < 256 := hb r6 (by simp)
  have h7 : r7 < 256 := hb r7 (by simp)
  have hcrc : modbusCRC16 [r0, r1, r2, r3, r4, r5] 6 < 65536 :=
    modbusCRC16_lt _ _ (fun x hx => hb x (by simp at hx ⊢; tauto))
  rw [write_exit_of_eight a r v r0 r1 r2 r3 r4 r5 r6 r7 more hb bus, requestFrame_eq,
    or_shl8_eq_add r6 r7 h6, shl8_or_eq_add r2 r3 h3, shl8_or_eq_add r4 r5 h5]
  constructor
  · intro h
    split_ifs at h with c1 c2 c3
    have e0 : r0 = a := by tauto
    have e1 : r1 = MB_FC_WRITE_SINGLE_REG := by tauto
    have e2 : 256 * r2 + r3 = r := by tauto
    have e3 : 256 * r4 + r5 = v := by tauto
    have e4 : 256 * r7 + r6 = modbusCRC16 [r0, r1, r2, r3, r4, r5] 6 := by tauto
    have f2 : r / 256 % 256 = r2 := by omega
    have f3 : r % 256 = r3 := by omega
    have f4 : v / 256 % 256 = r4 := by omega
    have f5 : v % 256 = r5 := by omega
    rw [f2, f3, f4, f5, ← e0, ← e1, ← e4]
    have f6 : (256 * r7 + r6) % 256 = r6 := by omega
    have f7 : (256 * r7 + r6) / 256 % 256 = r7 := by omega
    rw [f6, f7]
  · intro h
    simp only [List.cons.injEq, and_true] at h
    obtain ⟨e0, e1, e2, e3, e4, e5, e6, e7⟩ := h
    have g : modbusCRC16 [r0, r1, r2, r3, r4, r5] 6
        = modbusCRC16 [a, MB_FC_WRITE_SINGLE_REG, r / 256 % 256, r % 256, v / 256 % 256, v % 256] 6 := by
      rw [← e0, ← e1, ← e2, ← e3, ← e4, ← e5]
    rw [← g] at e6 e7
    have c1 : 256 * r7 + r6 = modbusCRC16 [r0, r1, r2, r3, r4, r5] 6 := by omega
    have c2 : 256 * r2 + r3 = r := by omega
    have c3 : 256 * r4 + r5 = v := by omega
    simp [c1, c2, c3, e0, e1]

set_option maxRecDepth 10000 in
/-- C1, at slave 1, register 0, value 1 and the echo `01 06 00 00 00 01 48 0A`. -/
theorem C1_write_success_iff_echo_witness :
    (modbusWriteSingleRegister 1 0 1 ([1, 6, 0, 0, 0, 1, 72, 10] ++ []) ⟨false, [], []⟩).1
      = MbExit.ok :=
  (C1_write_success_iff_echo 1 0 1 (by decide) (by decide) [1, 6, 0, 0, 0, 1, 72, 10] [] rfl
    (by decide) ⟨false, [], []⟩).2.2 (by decide)


/-- The check of `crcFieldOk` on eight bytes is the check of the write path. -/
theorem crcFieldOk_eight (r0 r1 r2 r3 r4 r5 r6 r7 : Nat) :
    crcFieldOk [r0, r1, r2, r3, r4, r5, r6, r7] = true
      ↔ r6 ||| (r7 <<< 8) = modbusCRC16 [r0, r1, r2, r3, r4, r5] 6 := by
  have hc := modbusCRC16_six r0 r1 r2 r3 r4 r5 [r6, r7]
  simp only [List.cons_append, List.nil_append] at hc
  simp [crcFieldOk, hc]

set_option maxRecDepth 10000 in
/-- C2 as stated fails: the answer `01 06 00 00 00 02 48 0A` to the request
(1, 0, 1) echoes the value 2 instead of 1, and the call leaves through the CRC
failure, not through the echo failure. -/
theorem C2_echo_mismatch_counterexample :
    256 * [1, 6, 0, 0, 0, 2, 72, 10].getD 4 0 + [1, 6, 0, 0, 0, 2, 72, 10].getD 5 0 ≠ 1
    ∧ (modbusWriteSingleRegister 1 0 1 [1, 6, 0, 0, 0, 2, 72, 10] ⟨false, [], []⟩).1
        = MbExit.crcError
    ∧ (modbusWriteSingleRegister 1 0 1 [1, 6, 0, 0, 0, 2, 72, 10] ⟨false, [], []⟩).1
        ≠ MbExit.echo := by
  decide

/-- C2, amended. For every request and every eight-byte answer whose echoed register
(bytes 2..3, big-endian) or echoed value (bytes 4..5) differs from the request,
`modbusWriteSingleRegister` never returns success, and it leaves through the echo
failure exactly when the checks made before it pass: the CRC field matches and the
address and function bytes are those of the request.  Otherwise it leaves through the
CRC failure when the CRC field does not match, and through the address/function failure
when the CRC field matches and the address or the function byte is not that of the
request. -/
theorem C2_echo_mismatch (a r v : Nat) (R more : List Nat) (hlen : R.length = 8)
    (hb : IsBytes R) (bus : Rs485)
    (hecho : 256 * R.getD 2 0 + R.getD 3 0 ≠ r ∨ 256 * R.getD 4 0 + R.getD 5 0 ≠ v) :
    (modbusWriteSingleRegister a r v (R ++ more) bus).1 ≠ MbExit.ok
    ∧ ((modbusWriteSingleRegister a r v (R ++ more) bus).1 = MbExit.echo
        ↔ (crcFieldOk R = true ∧ R.getD 0 0 = a ∧ R.getD 1 0 = MB_FC_WRITE_SINGLE_REG))
    ∧ (crcFieldOk R = false →
        (modbusWriteSingleRegister a r v (R ++ more) bus).1 = MbExit.crcError)
    ∧ (crcFieldOk R = true →
        (R.getD 0 0 ≠ a ∨ R.getD 1 0 ≠ MB_FC_WRITE_SINGLE_REG) →
        (modbusWriteSingleRegister a r v (R ++ more) bus).1 = MbExit.addrFn) := by
  obtain ⟨r0, r1, r2, r3, r4, r5, r6, r7, rfl⟩ := list_length_eight R hlen
  have h3 : r3 < 256 := hb r3 (by simp)
  have h5 : r5 < 256 := hb r5 (by simp)
  have hcf : crcFieldOk [r0, r1, r2, r3, r4, r5, r6, r7] = false
      ↔ ¬ (r6 ||| (r7 <<< 8) = modbusCRC16 [r0, r1, r2, r3, r4, r5] 6) := by
    rw [← crcFieldOk_eight r0 r1 r2 r3 r4 r5 r6 r7]
    simp
  rw [write_exit_of_eight a r v r0 r1 r2 r3 r4 r5 r6 r7 more hb bus, hcf, crcFieldOk_eight,
    shl8_or_eq_add r2 r3 h3, shl8_or_eq_add r4 r5 h5]
  simp only [List.getD_cons_zero, List.getD_cons_succ] at hecho ⊢
  split_ifs with c1 c2
  all_goals simp_all
  all_goals tauto

set_option maxRecDepth 10000 in
/-- C2 (amended), at the request (1, 0, 1) and an answer that echoes the value 2 with
a CRC that is right for what it carries. -/
theorem C2_echo_mismatch_witness :
    (modbusWriteSingleRegister 1 0 1 ([1, 6, 0, 0, 0, 2, 8, 11] ++ []) ⟨false, [], []⟩).1
      = MbExit.echo :=
  (C2_echo_mismatch 1 0 1 [1, 6, 0, 0, 0, 2, 8, 11] [] rfl (by decide) ⟨false, [], []⟩
    (by decide)).2.1.2 (by decide)


/-! ## The read exchange -/

/-- The exit of a read exchange from the three header bytes, as far as the header
decides it. -/
theorem read_exit_header (a s q : Nat) (outRegs : List Nat) (h0 h1 h2 : Nat)
    (rest : List Nat) (hh0 : h0 < 256) (hh1 : h1 < 256) (hh2 : h2 < 256) (bus : Rs485) :
    (q = 0 → (modbusReadHoldingRegisters a s q outRegs (h0 :: h1 :: h2 :: rest) bus).1
        = MbExit.zeroQuantity)
    ∧ (q ≠ 0 → h0 ≠ a →
        (modbusReadHoldingRegisters a s q outRegs (h0 :: h1 :: h2 :: rest) bus).1
          = MbExit.slaveAddr)
    ∧ (q ≠ 0 → h0 = a → h1 ≠ MB_FC_READ_HOLDING →
        (modbusReadHoldingRegisters a s q outRegs (h0 :: h1 :: h2 :: rest) bus).1
          = MbExit.fnCode)
    ∧ (q ≠ 0 → h0 = a → h1 = MB_FC_READ_HOLDING → h2 ≠ (q * 2) % 65536 →
        (modbusReadHoldingRegisters a s q outRegs (h0 :: h1 :: h2 :: rest) bus).1
          = MbExit.byteCount) := by
  have e0 : h0 % 256 = h0 := Nat.mod_eq_of_lt hh0
  have e1 : h1 % 256 = h1 := Nat.mod_eq_of_lt hh1
  have e2 : h2 % 256 = h2 := Nat.mod_eq_of_lt hh2
  refine ⟨?_, ?_, ?_, ?_⟩
  · intro hq
    simp [modbusReadHoldingRegisters, hq]
  · intro hq ha
    simp [modbusReadHoldingRegisters, hq, sendRequest, rs485SetTx, rs485SetRx, rs485ReadBytes,
      e0, ha]
  · intro hq ha hf
    subst ha
    simp [modbusReadHoldingRegisters, hq, sendRequest, rs485SetTx, rs485SetRx, rs485ReadBytes,
      e0, e1, hf]
  · intro hq ha hf hbc
    subst ha
    have e3 : MB_FC_READ_HOLDING % 256 = MB_FC_READ_HOLDING := hf ▸ e1
    simp [modbusReadHoldingRegisters, hq, sendRequest, rs485SetTx, rs485SetRx, rs485ReadBytes,
      e0, e2, e3, hf, hbc]

set_option maxRecDepth 10000 in
/-- C3 as stated fails: to a request for 6 registers from slave 1 the header
`02 03 00` has a byte count other than 12, and the call leaves through the
slave-address failure, not through the byte-count failure. -/
theorem C3_byte_count_counterexample :
    (0 : Nat) ≠ 6 * 2
    ∧ (modbusReadHoldingRegisters 1 1 6 (List.replicate 6 0) [2, 3, 0] ⟨false, [], []⟩).1
        = MbExit.slaveAddr
    ∧ (modbusReadHoldingRegisters 1 1 6 (List.replicate 6 0) [2, 3, 0] ⟨false, [], []⟩).1
        ≠ MbExit.byteCount := by
  decide

/-- C3, amended. For every register count below 32768 (where `count*2` fits the 16-bit
`expectedBytes`) and every response header whose byte count differs from `count*2`,
`modbusReadHoldingRegisters` never returns success: it leaves through one of the four
failures decided by the header, and through the byte-count failure whenever the count
is not zero and the header carries the requested address and function code 0x03. -/
theorem C3_byte_count_mismatch (a s q : Nat) (hq : q < 32768) (outRegs : List Nat)
    (h0 h1 h2 : Nat) (rest : List Nat) (hh0 : h0 < 256) (hh1 : h1 < 256) (hh2 : h2 < 256)
    (bus : Rs485) (hbc : h2 ≠ q * 2) :
    ((modbusReadHoldingRegisters a s q outRegs (h0 :: h1 :: h2 :: rest) bus).1
        = MbExit.zeroQuantity
      ∨ (modbusReadHoldingRegisters a s q outRegs (h0 :: h1 :: h2 :: rest) bus).1
        = MbExit.slaveAddr
      ∨ (modbusReadHoldingRegisters a s q outRegs (h0 :: h1 :: h2 :: rest) bus).1
        = MbExit.fnCode
      ∨ (modbusReadHoldingRegisters a s q outRegs (h0 :: h1 :: h2 :: rest) bus).1
        = MbExit.byteCount)
    ∧ (q ≠ 0 → h0 = a → h1 = MB_FC_READ_HOLDING →
        (modbusReadHoldingRegisters a s q outRegs (h0 :: h1 :: h2 :: rest) bus).1
          = MbExit.byteCount) := by
  obtain ⟨z, sa, fn, bc⟩ := read_exit_header a s q outRegs h0 h1 h2 rest hh0 hh1 hh2 bus
  have hbc2 : h2 ≠ (q * 2) % 65536 := by omega
  refine ⟨?_, fun hq0 ha hf => bc hq0 ha hf hbc2⟩
  by_cases hq0 : q = 0
  · exact Or.inl (z hq0)
  · by_cases ha : h0 = a
    · by_cases hf : h1 = MB_FC_READ_HOLDING
      · exact Or.inr (Or.inr (Or.inr (bc hq0 ha hf hbc2)))
      · exact Or.inr (Or.inr (Or.inl (fn hq0 ha hf)))
    · exact Or.inr (Or.inl (sa hq0 ha))

/-- C3 (amended), at a request for 6 registers from slave 1 answered by the header
`01 03 0A`. -/
theorem C3_byte_count_mismatch_witness :
    (modbusReadHoldingRegisters 1 1 6 (List.replicate 6 0) (1 :: 3 :: 10 :: []) ⟨false, [], []⟩).1
      = MbExit.byteCount :=
  (C3_byte_count_mismatch 1 1 6 (by decide) (List.replicate 6 0) 1 3 10 [] (by decide)
    (by decide) (by decide) ⟨false, [], []⟩ (by decide)).2 (by decide) rfl rfl


theorem map_mod_of_isBytes (bs : List Nat) (hb : IsBytes bs) : bs.map (· % 256) = bs := by
  induction bs with
  | nil => rfl
  | cons b bs ih =>
    rw [List.map_cons, ih (fun x hx => hb x (List.mem_cons_of_mem _ hx)),
      Nat.mod_eq_of_lt (hb b (List.mem_cons_self _ _))]

/-- A read of `len` bytes into a buffer that holds them, when they arrive. -/
theorem rs485ReadBytes_filled (cap len : Nat) (bus : Rs485) (pre post : List Nat)
    (hcap : len ≤ cap) (hrx : bus.rxBuf = pre ++ post) (hlen : pre.length = len)
    (hb : IsBytes pre) :
    rs485ReadBytes cap len bus = (ReadEnd.filled pre, { bus with rxBuf := post }) := by
  unfold rs485ReadBytes
  have h1 : len ≤ bus.rxBuf.length := by rw [hrx, List.length_append]; omega
  rw [if_pos h1, if_pos hcap, hrx, ← hlen, List.take_left, List.drop_left,
    map_mod_of_isBytes pre hb]

theorem modbusCRC16_append (xs ys : List Nat) :
    modbusCRC16 (xs ++ ys) xs.length = modbusCRC16 xs xs.length := by
  simp [modbusCRC16]

/-- The decoding loop on a buffer that holds the register bytes and an array that has
room: it ends, fills entries `i .. i+n-1` big-endian and leaves the others alone. -/
theorem decodeRegisters_spec (buf2 : List Nat) (hb : IsBytes buf2) (n : Nat) :
    ∀ (i : Nat) (regs : List Nat), 2 * (i + n) ≤ buf2.length → i + n ≤ regs.length →
      ∃ out, decodeRegisters buf2 n i regs = some out
        ∧ out.length = regs.length
        ∧ (∀ j, i ≤ j → j < i + n →
            out.getD j 0 = buf2.getD (2 * j) 0 * 256 + buf2.getD (2 * j + 1) 0)
        ∧ (∀ j, j < i → out.getD j 0 = regs.getD j 0)
        ∧ (∀ j, i + n ≤ j → out.getD j 0 = regs.getD j 0) := by
  induction n with
  | zero =>
    intro i regs _ _
    exact ⟨regs, rfl, rfl, fun j h1 h2 => by omega, fun _ _ => rfl, fun _ _ => rfl⟩
  | succ n ih =>
    intro i regs h1 h2
    have g0 : 2 * i < buf2.length := by omega
    have g1 : 2 * i + 1 < buf2.length := by omega
    have hlo : buf2[2 * i + 1] < 256 := hb _ (List.getElem_mem _)
    have hhi : buf2[2 * i] < 256 := hb _ (List.getElem_mem _)
    have hv : ((buf2[2 * i] <<< 8) ||| buf2[2 * i + 1]) % 65536
        = buf2[2 * i] * 256 + buf2[2 * i + 1] := by
      rw [shl8_or_eq_add _ _ hlo]; omega
    have hi : i < regs.length := by omega
    obtain ⟨out, e, l, a, b, c⟩ := ih (i + 1) (regs.set i (buf2[2 * i] * 256 + buf2[2 * i + 1]))
      (by omega) (by rw [List.length_set]; omega)
    refine ⟨out, ?_, ?_, ?_, ?_, ?_⟩
    · simp only [decodeRegisters, List.get?_eq_getElem?, List.getElem?_eq_getElem g0,
        List.getElem?_eq_getElem g1, if_pos hi, hv]
      exact e
    · rw [l, List.length_set]
    · intro j hj1 hj2
      by_cases hji : j = i
      · subst hji
        rw [b j (by omega), List.getD_eq_getElem?_getD, List.getD_eq_getElem?_getD,
          List.getD_eq_getElem?_getD, List.getElem?_set_self hi,
          List.getElem?_eq_getElem g0, List.getElem?_eq_getElem g1]
        rfl
      · exact a j (by omega) (by omega)
    · intro j hj
      rw [b j (by omega), List.getD_eq_getElem?_getD, List.getD_eq_getElem?_getD,
        List.getElem?_set_ne (by omega)]
    · intro j hj
      rw [c j (by omega), List.getD_eq_getElem?_getD, List.getD_eq_getElem?_getD,
        List.getElem?_set_ne (by omega)]


/-- The result of a read exchange on a well-formed answer: the decoding loop ran on the
data bytes followed by the CRC field. -/
theorem read_wellformed (a s q : Nat) (ha : a < 256) (hq1 : 1 ≤ q) (hq31 : q ≤ 31)
    (d : List Nat) (hd : d.length = 2 * q) (hbd : IsBytes d)
    (crcLo crcHi : Nat) (hlo : crcLo < 256) (hhi : crcHi < 256)
    (hcrc : crcLo + 256 * crcHi
      = modbusCRC16 ([a, MB_FC_READ_HOLDING, 2 * q] ++ d) (3 + 2 * q))
    (more outRegs : List Nat) (bus : Rs485) :
    modbusReadHoldingRegisters a s q outRegs
        ([a, MB_FC_READ_HOLDING, 2 * q] ++ d ++ [crcLo, crcHi] ++ more) bus
      = match decodeRegisters (d ++ [crcLo, crcHi]) q 0 outRegs with
        | none => (MbExit.undefinedBehaviour, outRegs,
            { (sendRequest (requestFrame a MB_FC_READ_HOLDING s q) [] bus) with rxBuf := more })
        | some regs => (MbExit.ok, regs,
            { (sendRequest (requestFrame a MB_FC_READ_HOLDING s q) [] bus) with rxBuf := more }) := by
  have hq0 : q ≠ 0 := by omega
  have hbh : IsBytes [a, MB_FC_READ_HOLDING, 2 * q] := by
    intro x hx
    simp only [List.mem_cons, List.mem_singleton, List.not_mem_nil, or_false] at hx
    rcases hx with rfl | rfl | rfl
    · exact ha
    · decide
    · omega
  have hb2 : IsBytes (d ++ [crcLo, crcHi]) := by
    intro x hx
    simp only [List.mem_append, List.mem_cons, List.mem_singleton, List.not_mem_nil,
      or_false] at hx
    rcases hx with hx | rfl | rfl
    · exact hbd x hx
    · exact hlo
    · exact hhi
  have r1 := rs485ReadBytes_filled 3 3
    (sendRequest (requestFrame a MB_FC_READ_HOLDING s q)
      ([a, MB_FC_READ_HOLDING, 2 * q] ++ d ++ [crcLo, crcHi] ++ more) bus)
    [a, MB_FC_READ_HOLDING, 2 * q] (d ++ [crcLo, crcHi] ++ more) (le_refl _)
    (by simp [sendRequest, rs485SetRx, rs485SetTx]) rfl hbh
  have r2 := rs485ReadBytes_filled 64 (2 * q + 2)
    { (sendRequest (requestFrame a MB_FC_READ_HOLDING s q)
      ([a, MB_FC_READ_HOLDING, 2 * q] ++ d ++ [crcLo, crcHi] ++ more) bus) with
      rxBuf := d ++ [crcLo, crcHi] ++ more }
    (d ++ [crcLo, crcHi]) more (by omega) rfl (by simp [hd]) hb2
  have hexp : (q * 2) % 65536 = 2 * q := by omega
  have hrecv : (d ++ [crcLo, crcHi]).getD (2 * q + 2 - 2) 0
      ||| ((d ++ [crcLo, crcHi]).getD (2 * q + 2 - 1) 0 <<< 8) = crcLo + 256 * crcHi := by
    have i1 : 2 * q + 2 - 2 = d.length := by omega
    have i2 : 2 * q + 2 - 1 = d.length + 1 := by omega
    rw [i1, i2, List.getD_eq_getElem?_getD, List.getD_eq_getElem?_getD,
      List.getElem?_append_right (le_refl _), List.getElem?_append_right (by omega)]
    simp only [Nat.sub_self, Nat.add_sub_cancel_left, List.getElem?_cons_zero,
      List.getElem?_cons_succ, Option.getD_some]
    rw [or_shl8_eq_add _ _ hlo]; omega
  have hcalc : modbusCRC16 ([a, MB_FC_READ_HOLDING, 2 * q] ++ (d ++ [crcLo, crcHi]))
      (3 + (2 * q + 2) - 2) = crcLo + 256 * crcHi := by
    have i1 : 3 + (2 * q + 2) - 2 = ([a, MB_FC_READ_HOLDING, 2 * q] ++ d).length := by
      simp [hd]; omega
    rw [hcrc, ← List.append_assoc, i1, modbusCRC16_append]
    congr 1
    simp [hd]; omega
  unfold modbusReadHoldingRegisters
  simp only [if_neg hq0, r1, List.getD_cons_zero, List.getD_cons_succ, ne_eq, not_true_eq_false,
    if_false, hexp, r2, hrecv, hcalc]
  cases decodeRegisters (d ++ [crcLo, crcHi]) q 0 outRegs <;>
    simp [sendRequest, rs485SetRx, rs485SetTx]

/-- C4. For every slave address, start register and count `1 <= q <= 31`, and
every answer `[a, 0x03, 2q, d0 .. d(2q-1), crcLo, crcHi]` whose CRC field is
`modbusCRC16` of the `3 + 2q` bytes before it, `modbusReadHoldingRegisters` succeeds
and output register `i < q` is `d(2i)*256 + d(2i+1)`; the caller's array keeps its
length and its entries from `q` on. -/
theorem C4_read_decodes_big_endian (a s q : Nat) (ha : a < 256) (hq1 : 1 ≤ q) (hq31 : q ≤ 31)
    (d : List Nat) (hd : d.length = 2 * q) (hbd : IsBytes d)
    (crcLo crcHi : Nat) (hlo : crcLo < 256) (hhi : crcHi < 256)
    (hcrc : crcLo + 256 * crcHi
      = modbusCRC16 ([a, MB_FC_READ_HOLDING, 2 * q] ++ d) (3 + 2 * q))
    (more outRegs : List Nat) (hcap : q ≤ outRegs.length) (bus : Rs485) :
    (modbusReadHoldingRegisters a s q outRegs
        ([a, MB_FC_READ_HOLDING, 2 * q] ++ d ++ [crcLo, crcHi] ++ more) bus).1 = MbExit.ok
    ∧ (modbusReadHoldingRegisters a s q outRegs
        ([a, MB_FC_READ_HOLDING, 2 * q] ++ d ++ [crcLo, crcHi] ++ more) bus).2.1.length
        = outRegs.length
    ∧ (∀ i, i < q →
        (modbusReadHoldingRegisters a s q outRegs
          ([a, MB_FC_READ_HOLDING, 2 * q] ++ d ++ [crcLo, crcHi] ++ more) bus).2.1.getD i 0
          = d.getD (2 * i) 0 * 256 + d.getD (2 * i + 1) 0)
    ∧ (∀ i, q ≤ i →
        (modbusReadHoldingRegisters a s q outRegs
          ([a, MB_FC_READ_HOLDING, 2 * q] ++ d ++ [crcLo, crcHi] ++ more) bus).2.1.getD i 0
          = outRegs.getD i 0) := by
  have hb2 : IsBytes (d ++ [crcLo, crcHi]) := by
    intro x hx
    simp only [List.mem_append, List.mem_cons, List.mem_singleton, List.not_mem_nil,
      or_false] at hx
    rcases hx with hx | rfl | rfl
    · exact hbd x hx
    · exact hlo
    · exact hhi
  obtain ⟨out, e, l, f, _, k⟩ := decodeRegisters_spec (d ++ [crcLo, crcHi]) hb2 q 0 outRegs
    (by simp [hd]) (by omega)
  rw [read_wellformed a s q ha hq1 hq31 d hd hbd crcLo crcHi hlo hhi hcrc more outRegs bus, e]
  refine ⟨rfl, l, ?_, fun i hi => k i (by omega)⟩
  intro i hi
  have g := f i (by omega) (by omega)
  have i1 : 2 * i < d.length := by omega
  have i2 : 2 * i + 1 < d.length := by omega
  simp only [List.getD_eq_getElem?_getD, List.getElem?_append_left i1,
    List.getElem?_append_left i2] at g ⊢
  exact g


set_option maxRecDepth 10000 in
/-- C4, at the poll of slave 1 for 6 registers answered with status 2, session
volume 520, total volume 0 and flow rate 500. -/
theorem C4_read_decodes_big_endian_witness :
    (modbusReadHoldingRegisters 1 1 6 (List.replicate 6 0)
        ([1, MB_FC_READ_HOLDING, 2 * 6] ++ [0, 2, 0, 0, 2, 8, 0, 0, 0, 0, 1, 244]
          ++ [144, 198] ++ []) ⟨false, [], []⟩).1 = MbExit.ok :=
  (C4_read_decodes_big_endian 1 1 6 (by decide) (by decide) (by decide)
    [0, 2, 0, 0, 2, 8, 0, 0, 0, 0, 1, 244] rfl (by decide) 144 198 (by decide) (by decide)
    (by decide) [] (List.replicate 6 0) (by decide) ⟨false, [], []⟩).1

/-- Every exit other than success hands the caller's array back as it was. -/
theorem read_failure_keeps_regs (a s q : Nat) (outRegs answer : List Nat) (bus : Rs485)
    (h : (modbusReadHoldingRegisters a s q outRegs answer bus).1 ≠ MbExit.ok) :
    (modbusReadHoldingRegisters a s q outRegs answer bus).2.1 = outRegs := by
  unfold modbusReadHoldingRegisters at h ⊢
  by_cases hq : q = 0
  · simp [hq]
  · simp only [if_neg hq] at h ⊢
    generalize rs485ReadBytes 3 3 _ = r1 at h ⊢
    obtain ⟨e1, b1⟩ := r1
    cases e1 with
    | timedOut => rfl
    | overrun => rfl
    | filled hdr =>
      simp only at h ⊢
      split_ifs at h ⊢ with c1 c2 c3
      · rfl
      · rfl
      · rfl
      · generalize rs485ReadBytes 64 _ b1 = r2 at h ⊢
        obtain ⟨e2, b2⟩ := r2
        cases e2 with
        | timedOut => rfl
        | overrun => rfl
        | filled buf2 =>
          simp only at h ⊢
          split_ifs at h ⊢ with c4
          · rfl
          · cases hdec : decodeRegisters buf2 q 0 outRegs with
            | none => simp [hdec]
            | some regs => simp [hdec] at h

/-- The read exchange once the header has passed its three checks. -/
theorem read_body (a s q : Nat) (outRegs : List Nat) (h0 h1 h2 : Nat) (rest : List Nat)
    (hh0 : h0 < 256) (hh1 : h1 < 256) (hh2 : h2 < 256) (bus : Rs485)
    (hq : q ≠ 0) (ha : h0 = a) (hf : h1 = MB_FC_READ_HOLDING) (hbc : h2 = (q * 2) % 65536) :
    modbusReadHoldingRegisters a s q outRegs (h0 :: h1 :: h2 :: rest) bus =
      match rs485ReadBytes 64 (h2 + 2)
          { (sendRequest (requestFrame a MB_FC_READ_HOLDING s q) [] bus) with rxBuf := rest } with
      | (ReadEnd.timedOut, bus) => (MbExit.timeoutData, outRegs, bus)
      | (ReadEnd.overrun, bus) => (MbExit.undefinedBehaviour, outRegs, bus)
      | (ReadEnd.filled buf2, bus) =>
        if buf2.getD h2 0 ||| (buf2.getD (h2 + 1) 0 <<< 8)
            ≠ modbusCRC16 ([h0, h1, h2] ++ buf2) (3 + h2) then
          (MbExit.crcError, outRegs, bus)
        else
          match decodeRegisters buf2 q 0 outRegs with
          | none => (MbExit.undefinedBehaviour, outRegs, bus)
          | some regs => (MbExit.ok, regs, bus) := by
  subst ha
  subst hf
  have hbh : IsBytes [h0, MB_FC_READ_HOLDING, h2] := by
    intro x hx
    simp only [List.mem_cons, List.mem_singleton, List.not_mem_nil, or_false] at hx
    rcases hx with rfl | rfl | rfl <;> assumption
  have r1 := rs485ReadBytes_filled 3 3
    (sendRequest (requestFrame h0 MB_FC_READ_HOLDING s q)
      (h0 :: MB_FC_READ_HOLDING :: h2 :: rest) bus)
    [h0, MB_FC_READ_HOLDING, h2] rest (le_refl _)
    (by simp [sendRequest, rs485SetRx, rs485SetTx]) rfl hbh
  have i1 : 3 + (h2 + 2) - 2 = 3 + h2 := by omega
  have i2 : h2 + 2 - 2 = h2 := by omega
  have i3 : h2 + 2 - 1 = h2 + 1 := by omega
  unfold modbusReadHoldingRegisters
  simp only [if_neg hq, r1, List.getD_cons_zero, List.getD_cons_succ, ne_eq, ← hbc,
    not_true_eq_false, if_false, i1, i2, i3]
  rfl


/-- A decoding loop that ends normally stayed inside the buffer. -/
theorem decodeRegisters_some_bound (buf2 : List Nat) (n : Nat) :
    ∀ (i : Nat) (regs out : List Nat), decodeRegisters buf2 n i regs = some out → n ≠ 0 →
      2 * (i + n) ≤ buf2.length := by
  induction n with
  | zero => intro i regs out _ h; exact absurd rfl h
  | succ n ih =>
    intro i regs out h _
    simp only [decodeRegisters] at h
    split at h
    · rename_i hi lo e1 e2
      have g1 : 2 * i + 1 < buf2.length := by
        rw [List.get?_eq_getElem?] at e2
        exact (List.getElem?_eq_some_iff.mp e2).1
      split_ifs at h with c
      by_cases hn : n = 0
      · subst hn; omega
      · have := ih (i + 1) _ out h hn
        omega
    · exact absurd h (by simp)

/-- With fewer than three bytes arriving, a read for at least one register times out on
the header. -/
theorem read_short_header (a s q : Nat) (outRegs answer : List Nat) (bus : Rs485)
    (hq : q ≠ 0) (hlen : answer.length < 3) :
    (modbusReadHoldingRegisters a s q outRegs answer bus).1 = MbExit.timeoutHeader := by
  have h1 : ¬ (3 ≤ answer.length) := by omega
  have h2 : answer.length ≤ 3 := by omega
  simp [modbusReadHoldingRegisters, hq, sendRequest, rs485SetTx, rs485SetRx, rs485ReadBytes,
    h1, h2]

/-- Header, length and CRC comparison as the code makes them give `PassesReadChecks`. -/
theorem passes_of_checks (q h0 h1 h2 : Nat) (rest : List Nat)
    (hf : h1 = MB_FC_READ_HOLDING) (hbc : h2 = 2 * q) (hlen : h2 + 2 ≤ rest.length)
    (hcrc : (rest.take (h2 + 2)).getD h2 0 ||| ((rest.take (h2 + 2)).getD (h2 + 1) 0 <<< 8)
      = modbusCRC16 ([h0, h1, h2] ++ rest.take (h2 + 2)) (3 + h2)) :
    PassesReadChecks h0 q (h0 :: h1 :: h2 :: rest) := by
  subst hbc
  refine ⟨by simp only [List.length_cons]; omega, rfl, hf, rfl, ?_⟩
  have e : (h0 :: h1 :: (2 * q) :: rest).take (3 + 2 * q + 2)
      = [h0, h1, 2 * q] ++ rest.take (2 * q + 2) := by
    have : 3 + 2 * q + 2 = (2 * q + 2) + 1 + 1 + 1 := by omega
    rw [this]; rfl
  have l : ([h0, h1, 2 * q] ++ rest.take (2 * q + 2)).length - 2 = 3 + 2 * q := by
    simp only [List.length_append, List.length_cons, List.length_nil, List.length_take]
    omega
  have g1 : ([h0, h1, 2 * q] ++ rest.take (2 * q + 2)).getD (3 + 2 * q) 0
      = (rest.take (2 * q + 2)).getD (2 * q) 0 := by
    rw [List.getD_eq_getElem?_getD, List.getD_eq_getElem?_getD,
      List.getElem?_append_right (by simp)]
    congr 2
    simp
  have g2 : ([h0, h1, 2 * q] ++ rest.take (2 * q + 2)).getD (3 + 2 * q + 1) 0
      = (rest.take (2 * q + 2)).getD (2 * q + 1) 0 := by
    rw [List.getD_eq_getElem?_getD, List.getD_eq_getElem?_getD,
      List.getElem?_append_right (by simp; omega)]
    congr 2
    simp; omega
  rw [e]
  simp only [crcFieldOk, l, g1, g2, decide_eq_true_eq]
  exact hcrc

/-- A read exchange that returns success was answered by bytes that pass every check,
for a count between 1 and 31. -/
theorem read_ok_passes (a s q : Nat) (outRegs answer : List Nat) (bus : Rs485)
    (hb : IsBytes answer)
    (h : (modbusReadHoldingRegisters a s q outRegs answer bus).1 = MbExit.ok) :
    PassesReadChecks a q answer ∧ 1 ≤ q ∧ q ≤ 31 := by
  have hq : q ≠ 0 := by
    intro hq
    simp [modbusReadHoldingRegisters, hq] at h
  match answer, hb, h with
  | [], _, h => rw [read_short_header a s q outRegs _ bus hq (by simp)] at h; cases h
  | [_], _, h => rw [read_short_header a s q outRegs _ bus hq (by simp)] at h; cases h
  | [_, _], _, h => rw [read_short_header a s q outRegs _ bus hq (by simp)] at h; cases h
  | h0 :: h1 :: h2 :: rest, hb, h =>
    have hh0 : h0 < 256 := hb h0 (by simp)
    have hh1 : h1 < 256 := hb h1 (by simp)
    have hh2 : h2 < 256 := hb h2 (by simp)
    have hbr : IsBytes rest := fun x hx => hb x (by simp [hx])
    obtain ⟨_, sa, fn, bc⟩ := read_exit_header a s q outRegs h0 h1 h2 rest hh0 hh1 hh2 bus
    have ha : h0 = a := by
      by_contra c; rw [sa hq c] at h; cases h
    have hf : h1 = MB_FC_READ_HOLDING := by
      by_contra c; rw [fn hq ha c] at h; cases h
    have hbc : h2 = (q * 2) % 65536 := by
      by_contra c; rw [bc hq ha hf c] at h; cases h
    rw [read_body a s q outRegs h0 h1 h2 rest hh0 hh1 hh2 bus hq ha hf hbc] at h
    unfold rs485ReadBytes at h
    simp only at h
    split_ifs at h with c1 c2 c3
    · rw [map_mod_of_isBytes _ (isBytes_take rest _ hbr)] at h
      simp only at h
      split_ifs at h with c4
      cases hdec : decodeRegisters (rest.take (h2 + 2)) q 0 outRegs with
      | none => rw [hdec] at h; cases h
      | some regs =>
        have b := decodeRegisters_some_bound _ q 0 outRegs regs hdec hq
        rw [List.length_take] at b
        have hq31 : q ≤ 31 := by omega
        have hbc2 : h2 = 2 * q := by omega
        subst ha
        exact ⟨passes_of_checks q h0 h1 h2 rest hf hbc2 c1 (not_not.mp c4), by omega, hq31⟩


/-- For a count of at most 31 registers, a rejected answer ends the read exchange at one
of its `return false` sites: no buffer is overrun on the way. -/
theorem read_rejected_defined (a s q : Nat) (outRegs answer : List Nat) (bus : Rs485)
    (hb : IsBytes answer) (hq31 : q ≤ 31) (hrej : ¬ PassesReadChecks a q answer) :
    (modbusReadHoldingRegisters a s q outRegs answer bus).1 ≠ MbExit.undefinedBehaviour := by
  by_cases hq : q = 0
  · simp [modbusReadHoldingRegisters, hq]
  · match answer, hb, hrej with
    | [], _, _ => rw [read_short_header a s q outRegs _ bus hq (by simp)]; simp
    | [_], _, _ => rw [read_short_header a s q outRegs _ bus hq (by simp)]; simp
    | [_, _], _, _ => rw [read_short_header a s q outRegs _ bus hq (by simp)]; simp
    | h0 :: h1 :: h2 :: rest, hb, hrej =>
      have hh0 : h0 < 256 := hb h0 (by simp)
      have hh1 : h1 < 256 := hb h1 (by simp)
      have hh2 : h2 < 256 := hb h2 (by simp)
      have hbr : IsBytes rest := fun x hx => hb x (by simp [hx])
      obtain ⟨_, sa, fn, bc⟩ := read_exit_header a s q outRegs h0 h1 h2 rest hh0 hh1 hh2 bus
      by_cases ha : h0 = a
      · by_cases hf : h1 = MB_FC_READ_HOLDING
        · by_cases hbc : h2 = (q * 2) % 65536
          · rw [read_body a s q outRegs h0 h1 h2 rest hh0 hh1 hh2 bus hq ha hf hbc]
            have hbc2 : h2 = 2 * q := by omega
            unfold rs485ReadBytes
            simp only
            split_ifs with c1 c2 c3
            · rw [map_mod_of_isBytes _ (isBytes_take rest _ hbr)]
              simp only
              split_ifs with c4
              · simp
              · subst ha
                exact absurd (passes_of_checks q h0 h1 h2 rest hf hbc2 c1 (not_not.mp c4)) hrej
            · omega
            · simp
            · omega
          · rw [bc hq ha hf hbc]; simp
        · rw [fn hq ha hf]; simp
      · rw [sa hq ha]; simp

/-- The function `meterRead` returns `true` exactly when its read exchange succeeds, and otherwise
hands `out` back as it was. -/
theorem meterRead_failure (out : MeterData) (answer : List Nat) (bus : Rs485)
    (h : (modbusReadHoldingRegisters MB_SLAVE_ADDR REG_STATUS_FLAGS 6 (List.replicate 6 0)
      answer bus).1 ≠ MbExit.ok) :
    (meterRead out answer bus).1 = false ∧ (meterRead out answer bus).2.1 = out := by
  unfold meterRead
  generalize modbusReadHoldingRegisters MB_SLAVE_ADDR REG_STATUS_FLAGS 6 (List.replicate 6 0)
    answer bus = r at h ⊢
  obtain ⟨e, regs, b⟩ := r
  cases e <;> simp_all

/-- C5. Every answer to a read request that fails a check of the read path (too few
bytes for the header or for data and CRC, wrong slave address, function code or byte
count, CRC mismatch) makes `modbusReadHoldingRegisters` return failure (never
success) with the caller's registers as they were, through a `return false` site
whenever the count is at most 31; and it makes `meterRead` return failure with the caller's `MeterData` as it
was. -/
theorem C5_rejected_response_discarded (a s q : Nat) (outRegs answer : List Nat)
    (bus : Rs485) (out : MeterData) (hb : IsBytes answer) :
    (¬ PassesReadChecks a q answer →
      (modbusReadHoldingRegisters a s q outRegs answer bus).1 ≠ MbExit.ok
      ∧ (modbusReadHoldingRegisters a s q outRegs answer bus).2.1 = outRegs
      ∧ (q ≤ 31 →
          (modbusReadHoldingRegisters a s q outRegs answer bus).1 ≠ MbExit.undefinedBehaviour))
    ∧ (¬ PassesReadChecks MB_SLAVE_ADDR 6 answer →
      (meterRead out answer bus).1 = false ∧ (meterRead out answer bus).2.1 = out) := by
  have key : ∀ a s q outRegs, ¬ PassesReadChecks a q answer →
      (modbusReadHoldingRegisters a s q outRegs answer bus).1 ≠ MbExit.ok :=
    fun a s q outRegs hrej hok => hrej (read_ok_passes a s q outRegs answer bus hb hok).1
  exact ⟨fun hrej => ⟨key a s q outRegs hrej,
      read_failure_keeps_regs a s q outRegs answer bus (key a s q outRegs hrej),
      fun hq31 => read_rejected_defined a s q outRegs answer bus hb hq31 hrej⟩,
    fun hrej => meterRead_failure out answer bus (key _ _ _ _ hrej)⟩

set_option maxRecDepth 10000 in
/-- C5, at a poll answer whose last data byte was corrupted (`F4` became `F5`) and a
reading that held other values before. -/
theorem C5_rejected_response_discarded_witness :
    (meterRead ⟨2, 520, 0, 500⟩
        [1, 3, 12, 0, 2, 0, 0, 2, 8, 0, 0, 0, 0, 1, 245, 144, 198] ⟨false, [], []⟩).1 = false
    ∧ (meterRead ⟨2, 520, 0, 500⟩
        [1, 3, 12, 0, 2, 0, 0, 2, 8, 0, 0, 0, 0, 1, 245, 144, 198] ⟨false, [], []⟩).2.1
      = ⟨2, 520, 0, 500⟩ :=
  (C5_rejected_response_discarded 1 1 6 (List.replicate 6 0)
    [1, 3, 12, 0, 2, 0, 0, 2, 8, 0, 0, 0, 0, 1, 245, 144, 198] ⟨false, [], []⟩
    ⟨2, 520, 0, 500⟩ (by decide)).2 (by decide)



/-! ## The session controller -/

theorem closedEvents_append_fueling (ds : List Drawn) (plate : String) (md : MeterData) :
    ((ds ++ [Drawn.fuelingScreen plate md]).filter (fun d => match d with
      | Drawn.fuelSummaryScreen _ _ => true
      | _ => false)).length
    = (ds.filter (fun d => match d with
      | Drawn.fuelSummaryScreen _ _ => true
      | _ => false)).length := by
  simp

/-- A pass of the poll handler on the fueling screen, by what the poll observes. -/
theorem handleMeterPolling_fueling (now closeMs : Nat) (answer : List Nat) (t : Terminal)
    (p : LoopInput) (hnow : p.now = now) (hans : p.pollAnswer = answer)
    (hs : t.currentScreen = SCR_FUELING) (ha : t.g_sessionActive = true) :
    (pollReports t p = some false →
      (handleMeterPolling now closeMs answer t).currentScreen = SCR_FUEL_SUMMARY
      ∧ closedEvents (handleMeterPolling now closeMs answer t) = closedEvents t + 1)
    ∧ (pollReports t p ≠ some false →
      (handleMeterPolling now closeMs answer t).currentScreen = SCR_FUELING
      ∧ (handleMeterPolling now closeMs answer t).g_sessionActive = true
      ∧ closedEvents (handleMeterPolling now closeMs answer t) = closedEvents t) := by
  subst hnow
  subst hans
  unfold handleMeterPolling pollReports
  simp only [hs, ne_eq, not_true_eq_false, if_false]
  by_cases hdue : msSince p.now t.g_lastMeterPollMs < METER_POLL_INTERVAL_MS
  · simp [hdue, hs, ha]
  · simp only [hdue, if_false]
    rcases hm : meterRead ⟨0, 0, 0, 0⟩ p.pollAnswer t.bus with ⟨ok, md, bus⟩
    cases ok
    · simp [hs, ha, closedEvents]
    · by_cases hbit : md.statusFlags &&& STATUS_SESSION_ACTIVE_BIT = 0
      · simp [hbit, ha, drawFuelingScreen, drawFuelSummaryScreen, closedEvents]
      · simp [hbit, ha, hs, drawFuelingScreen, closedEvents]

/-- With no card at the reader a pass of `loop()` is the handler of the screen. -/
theorem loop_no_card_fueling (p : LoopInput) (t : Terminal) (hc : p.card = none)
    (hs : t.currentScreen = SCR_FUELING) :
    loop p t = handleMeterPolling p.now p.closeMs p.pollAnswer t := by
  unfold loop
  simp only [hs, hc, handleRfidInNormalMode]
  split_ifs <;> rfl

/-- With no card at the reader, a pass of `loop()` on the summary or idle screen stays
on those screens and draws no summary. -/
theorem loop_no_card_rest (p : LoopInput) (t : Terminal) (hc : p.card = none)
    (hs : t.currentScreen = SCR_FUEL_SUMMARY ∨ t.currentScreen = SCR_IDLE) :
    ((loop p t).currentScreen = SCR_FUEL_SUMMARY ∨ (loop p t).currentScreen = SCR_IDLE)
    ∧ closedEvents (loop p t) = closedEvents t := by
  unfold loop
  rcases hs with hs | hs
  · simp only [hs, hc, handleRfidInNormalMode, handleTouchOnFuelSummary]
    split_ifs <;> simp_all [drawIdleScreen, closedEvents]
  · simp only [hs, hc, handleRfidInNormalMode]
    simp [hs]

/-- The same over any number of passes. -/
theorem run_no_card_rest (ps : List LoopInput) :
    ∀ (t : Terminal), (∀ x ∈ ps, x.card = none) →
      (t.currentScreen = SCR_FUEL_SUMMARY ∨ t.currentScreen = SCR_IDLE) →
      ((run ps t).currentScreen = SCR_FUEL_SUMMARY ∨ (run ps t).currentScreen = SCR_IDLE)
      ∧ closedEvents (run ps t) = closedEvents t := by
  induction ps with
  | nil => intro t _ hs; exact ⟨hs, rfl⟩
  | cons p ps ih =>
    intro t hc hs
    have h1 := loop_no_card_rest p t (hc p (List.mem_cons_self _ _)) hs
    have h2 := ih (loop p t) (fun x hx => hc x (List.mem_cons_of_mem _ hx)) h1.1
    exact ⟨h2.1, h2.2.trans h1.2⟩

/-- A pass of `loop()` on the fueling screen with no card at the reader and the
remembered flag set. -/
theorem loop_fueling (p : LoopInput) (t : Terminal) (hc : p.card = none)
    (hs : t.currentScreen = SCR_FUELING) (ha : t.g_sessionActive = true) :
    (pollReports t p = some false →
      (loop p t).currentScreen = SCR_FUEL_SUMMARY
      ∧ closedEvents (loop p t) = closedEvents t + 1)
    ∧ (pollReports t p ≠ some false →
      (loop p t).currentScreen = SCR_FUELING
      ∧ (loop p t).g_sessionActive = true
      ∧ closedEvents (loop p t) = closedEvents t) := by
  rw [loop_no_card_fueling p t hc hs]
  exact handleMeterPolling_fueling p.now p.closeMs p.pollAnswer t p rfl rfl hs ha

/-- A session that has just been started shows the fueling screen with the remembered
flag set. -/
theorem sessionStarted_flag (t : Terminal) (h : SessionStarted t) :
    t.currentScreen = SCR_FUELING ∧ t.g_sessionActive = true := by
  obtain ⟨t0, uid, now, sa, seed, h0, rfl, h1⟩ := h
  refine ⟨h1, ?_⟩
  have hne : t0.currentScreen ≠ SCR_FUELING := by
    rcases h0 with h0 | h0 <;> rw [h0] <;> decide
  unfold handleRfidInNormalMode at h1 ⊢
  simp only at h1 ⊢
  split_ifs at h1 ⊢ with c1 c2
  · simp [showInfoMessage] at h1
  · simp [showInfoMessage] at h1
  · rcases hm : meterStartSession sa t0.bus with ⟨e, b⟩
    rw [hm] at h1
    cases e <;> simp_all [showInfoMessage, drawFuelingScreen]
    all_goals (split <;> rfl)


theorem run_cons (p : LoopInput) (ps : List LoopInput) (t : Terminal) :
    run (p :: ps) t = run ps (loop p t) := rfl

/-- While the fueling screen is still up after passes without a card, no poll so far
reported the session-active bit clear, the remembered flag is still set and no summary
was drawn. -/
theorem run_still_fueling (ps : List LoopInput) :
    ∀ (t : Terminal), (∀ x ∈ ps, x.card = none) → t.currentScreen = SCR_FUELING →
      t.g_sessionActive = true → (run ps t).currentScreen = SCR_FUELING →
      (run ps t).g_sessionActive = true
      ∧ closedEvents (run ps t) = closedEvents t
      ∧ ∀ (k : Nat) (hk : k < ps.length),
          pollReports (run (ps.take k) t) ps[k] ≠ some false := by
  induction ps with
  | nil =>
    intro t _ _ ha _
    exact ⟨ha, rfl, fun k hk => absurd hk (Nat.not_lt_zero k)⟩
  | cons p ps ih =>
    intro t hc hs ha hf
    have hcp : p.card = none := hc p (List.mem_cons_self _ _)
    have hcps : ∀ x ∈ ps, x.card = none := fun x hx => hc x (List.mem_cons_of_mem _ hx)
    obtain ⟨l1, l2⟩ := loop_fueling p t hcp hs ha
    have hp : pollReports t p ≠ some false := by
      intro hfalse
      have h1 := (l1 hfalse).1
      have h2 := (run_no_card_rest ps (loop p t) hcps (Or.inl h1)).1
      rw [run_cons] at hf
      rcases h2 with h2 | h2 <;> rw [h2] at hf <;> cases hf
    obtain ⟨s1, a1, c1⟩ := l2 hp
    rw [run_cons] at hf ⊢
    obtain ⟨a2, c2, r2⟩ := ih (loop p t) hcps s1 a1 hf
    refine ⟨a2, c2.trans c1, ?_⟩
    intro k hk
    cases k with
    | zero => exact hp
    | succ k => exact r2 k (by simpa using hk)

/-- Passes without a card whose polls are all due, succeed and report the session-active
bit set keep the fueling screen up and draw no summary, at every point on the way. -/
theorem run_set_polls (ps : List LoopInput) :
    ∀ (t : Terminal), t.currentScreen = SCR_FUELING → t.g_sessionActive = true →
      (∀ (k : Nat) (hk : k < ps.length),
        ps[k].card = none ∧ pollReports (run (ps.take k) t) ps[k] = some true) →
      ∀ k, k ≤ ps.length →
        (run (ps.take k) t).currentScreen = SCR_FUELING
        ∧ (run (ps.take k) t).g_sessionActive = true
        ∧ closedEvents (run (ps.take k) t) = closedEvents t := by
  induction ps with
  | nil =>
    intro t hs ha _ k _
    rw [List.take_nil]
    exact ⟨hs, ha, rfl⟩
  | cons p ps ih =>
    intro t hs ha hall k hk
    cases k with
    | zero => exact ⟨hs, ha, rfl⟩
    | succ k =>
      obtain ⟨hcp, hrep⟩ := hall 0 (Nat.zero_lt_succ _)
      have hrep' : pollReports t p ≠ some false := by
        have : pollReports t p = some true := hrep
        rw [this]; decide
      obtain ⟨s1, a1, c1⟩ := (loop_fueling p t hcp hs ha).2 hrep'
      have hall' : ∀ (j : Nat) (hj : j < ps.length),
          ps[j].card = none ∧ pollReports (run (ps.take j) (loop p t)) ps[j] = some true :=
        fun j hj => hall (j + 1) (Nat.succ_lt_succ hj)
      obtain ⟨s2, a2, c2⟩ := ih (loop p t) s1 a1 hall' k (Nat.le_of_succ_le_succ hk)
      exact ⟨s2, a2, c2.trans c1⟩


set_option maxRecDepth 100000 in
/-- C6 as stated fails: a session is started, the first read of the session already
reports the session-active bit clear, and the first poll, which reports it clear too,
makes the transition to the summary screen although no earlier poll reported the bit
set. -/
theorem C6_falling_edge_counterexample :
    (loop (cardPass answerDone0) (idleTerminal scenarioConfig)).currentScreen = SCR_FUELING
    ∧ (loop (cardPass answerDone0) (idleTerminal scenarioConfig)).g_lastMeter.statusFlags
        &&& STATUS_SESSION_ACTIVE_BIT = 0
    ∧ pollReports (loop (cardPass answerDone0) (idleTerminal scenarioConfig))
        (pollPass 400 answerDone0) = some false
    ∧ (loop (pollPass 400 answerDone0)
        (loop (cardPass answerDone0) (idleTerminal scenarioConfig))).currentScreen
        = SCR_FUEL_SUMMARY := by
  decide

/-- C6, amended. For every sequence of passes of `loop()` after a session start with no
card at the reader, the controller leaves the fueling screen for the summary screen at
a pass only if that pass's poll is due, succeeds and reports the session-active bit
clear while the remembered flag `g_sessionActive` is set; the flag was set by the
session start and no poll since the start has reported the bit clear (every earlier
successful poll, if there was one, reported it set). -/
theorem C6_close_only_on_clear_poll (t : Terminal) (hs : SessionStarted t)
    (ps : List LoopInput) (hps : ∀ x ∈ ps, x.card = none)
    (p : LoopInput) (hp : p.card = none)
    (hf : (run ps t).currentScreen = SCR_FUELING)
    (hclose : (loop p (run ps t)).currentScreen = SCR_FUEL_SUMMARY) :
    pollReports (run ps t) p = some false
    ∧ (run ps t).g_sessionActive = true
    ∧ ∀ (k : Nat) (hk : k < ps.length),
        pollReports (run (ps.take k) t) ps[k] ≠ some false := by
  obtain ⟨s0, a0⟩ := sessionStarted_flag t hs
  obtain ⟨a1, _, r1⟩ := run_still_fueling ps t hps s0 a0 hf
  refine ⟨?_, a1, r1⟩
  by_contra hne
  have h := ((loop_fueling p (run ps t) hp hf a1).2 hne).1
  rw [h] at hclose
  cases hclose

set_option maxRecDepth 100000 in
/-- C6 (amended), on the scenario of the specification: three polls report the bit set,
the pass at 1300 ms makes the transition, and its poll reports the bit clear. -/
theorem C6_close_only_on_clear_poll_witness :
    pollReports
      (run [pollPass 400 answerActive0, pollPass 700 answerActive520,
          pollPass 1000 answerActive1175]
        (handleRfidInNormalMode (some "04A1B2C3") 100 [1, 6, 0, 0, 0, 1, 72, 10]
          answerActive0 (idleTerminal scenarioConfig)))
      (pollPass 1300 answerDone1175) = some false :=
  (C6_close_only_on_clear_poll
    (handleRfidInNormalMode (some "04A1B2C3") 100 [1, 6, 0, 0, 0, 1, 72, 10]
      answerActive0 (idleTerminal scenarioConfig))
    ⟨idleTerminal scenarioConfig, "04A1B2C3", 100, [1, 6, 0, 0, 0, 1, 72, 10], answerActive0,
      Or.inl rfl, rfl, by decide⟩
    [pollPass 400 answerActive0, pollPass 700 answerActive520, pollPass 1000 answerActive1175]
    (by decide) (pollPass 1300 answerDone1175) rfl (by decide) (by decide)).1

set_option maxRecDepth 100000 in
/-- C7 as stated fails: after a successful start, four polls that all report the
session-active bit clear produce a closed event, at the first of them, and the
controller enters the summary state. -/
theorem C7_clear_first_poll_counterexample :
    (loop (cardPass answerDone0) (idleTerminal scenarioConfig)).currentScreen = SCR_FUELING
    ∧ closedEvents (loop (cardPass answerDone0) (idleTerminal scenarioConfig)) = 0
    ∧ pollReports (loop (cardPass answerDone0) (idleTerminal scenarioConfig))
        (pollPass 400 answerDone0) = some false
    ∧ (loop (pollPass 400 answerDone0)
        (loop (cardPass answerDone0) (idleTerminal scenarioConfig))).currentScreen
        = SCR_FUEL_SUMMARY
    ∧ closedEvents (run [pollPass 400 answerDone0, pollPass 700 answerDone0,
          pollPass 1000 answerDone0, pollPass 1300 answerDone0]
        (loop (cardPass answerDone0) (idleTerminal scenarioConfig))) = 1 := by
  decide

/-- C7, amended. After a successful session start, if the first poll that is due and
succeeds finds the session-active bit clear, the detector fires on that poll: the
controller enters the summary state there and exactly one closed event is produced,
whatever the later passes without a card bring (such as the rest of `[0,0,0,0]`). -/
theorem C7_clear_first_poll_closes_once (t : Terminal) (hs : SessionStarted t)
    (p : LoopInput) (hp : p.card = none) (hclr : pollReports t p = some false)
    (later : List LoopInput) (hlater : ∀ x ∈ later, x.card = none) :
    (loop p t).currentScreen = SCR_FUEL_SUMMARY
    ∧ closedEvents (loop p t) = closedEvents t + 1
    ∧ closedEvents (run later (loop p t)) = closedEvents t + 1 := by
  obtain ⟨s0, a0⟩ := sessionStarted_flag t hs
  obtain ⟨s1, c1⟩ := (loop_fueling p t hp s0 a0).1 hclr
  exact ⟨s1, c1, (run_no_card_rest later (loop p t) hlater (Or.inl s1)).2.trans c1⟩

set_option maxRecDepth 100000 in
/-- C7 (amended), on a session whose polls all find the bit clear. -/
theorem C7_clear_first_poll_closes_once_witness :
    closedEvents (run [pollPass 700 answerDone0, pollPass 1000 answerDone0,
        pollPass 1300 answerDone0]
      (loop (pollPass 400 answerDone0)
        (handleRfidInNormalMode (some "04A1B2C3") 100 [1, 6, 0, 0, 0, 1, 72, 10]
          answerDone0 (idleTerminal scenarioConfig))))
    = closedEvents (handleRfidInNormalMode (some "04A1B2C3") 100 [1, 6, 0, 0, 0, 1, 72, 10]
          answerDone0 (idleTerminal scenarioConfig)) + 1 :=
  (C7_clear_first_poll_closes_once
    (handleRfidInNormalMode (some "04A1B2C3") 100 [1, 6, 0, 0, 0, 1, 72, 10]
      answerDone0 (idleTerminal scenarioConfig))
    ⟨idleTerminal scenarioConfig, "04A1B2C3", 100, [1, 6, 0, 0, 0, 1, 72, 10], answerDone0,
      Or.inl rfl, rfl, by decide⟩
    (pollPass 400 answerDone0) rfl (by decide)
    [pollPass 700 answerDone0, pollPass 1000 answerDone0, pollPass 1300 answerDone0]
    (by decide)).2.2

/-- C8. After a successful session start, passes whose polls are due, succeed and
report the session-active bit set (`[1,1,1]`, more generally any number of them)
followed by one whose poll reports it clear produce exactly one closed event: the
fueling screen stays up and no summary is drawn at any of the set polls, the clear poll
brings up the summary screen and draws it once, and no later pass without a card draws
it again. -/
theorem C8_one_close_at_falling_edge (t : Terminal) (hs : SessionStarted t)
    (sets : List LoopInput) (clr : LoopInput) (later : List LoopInput)
    (hsets : ∀ (k : Nat) (hk : k < sets.length),
      sets[k].card = none ∧ pollReports (run (sets.take k) t) sets[k] = some true)
    (hc : clr.card = none) (hclr : pollReports (run sets t) clr = some false)
    (hlater : ∀ x ∈ later, x.card = none) :
    (∀ k, k ≤ sets.length →
      (run (sets.take k) t).currentScreen = SCR_FUELING
      ∧ closedEvents (run (sets.take k) t) = closedEvents t)
    ∧ (loop clr (run sets t)).currentScreen = SCR_FUEL_SUMMARY
    ∧ closedEvents (loop clr (run sets t)) = closedEvents t + 1
    ∧ closedEvents (run later (loop clr (run sets t))) = closedEvents t + 1 := by
  obtain ⟨s0, a0⟩ := sessionStarted_flag t hs
  have hall := run_set_polls sets t s0 a0 hsets
  obtain ⟨s1, a1, c1⟩ := hall sets.length (le_refl _)
  rw [List.take_length] at s1 a1 c1
  obtain ⟨s2, c2⟩ := (loop_fueling clr (run sets t) hc s1 a1).1 hclr
  refine ⟨fun k hk => ⟨(hall k hk).1, (hall k hk).2.2⟩, s2, c2.trans (by rw [c1]), ?_⟩
  rw [(run_no_card_rest later _ hlater (Or.inl s2)).2, c2, c1]

set_option maxRecDepth 100000 in
/-- C8, on the scenario of the specification: polls `[1,1,1,0]` with session volumes
0, 520 and 1175 cl, followed by passes during and after the summary window. -/
theorem C8_one_close_at_falling_edge_witness :
    closedEvents (run [pollPass 1600 answerDone1175, pollPass 4400 answerDone1175,
        pollPass 4700 answerActive0]
      (loop (pollPass 1300 answerDone1175)
        (run [pollPass 400 answerActive0, pollPass 700 answerActive520,
            pollPass 1000 answerActive1175]
          (handleRfidInNormalMode (some "04A1B2C3") 100 [1, 6, 0, 0, 0, 1, 72, 10]
            answerActive0 (idleTerminal scenarioConfig)))))
    = closedEvents (handleRfidInNormalMode (some "04A1B2C3") 100 [1, 6, 0, 0, 0, 1, 72, 10]
          answerActive0 (idleTerminal scenarioConfig)) + 1 :=
  (C8_one_close_at_falling_edge
    (handleRfidInNormalMode (some "04A1B2C3") 100 [1, 6, 0, 0, 0, 1, 72, 10]
      answerActive0 (idleTerminal scenarioConfig))
    ⟨idleTerminal scenarioConfig, "04A1B2C3", 100, [1, 6, 0, 0, 0, 1, 72, 10], answerActive0,
      Or.inl rfl, rfl, by decide⟩
    [pollPass 400 answerActive0, pollPass 700 answerActive520, pollPass 1000 answerActive1175]
    (pollPass 1300 answerDone1175)
    [pollPass 1600 answerDone1175, pollPass 4400 answerDone1175, pollPass 4700 answerActive0]
    (by decide) rfl (by decide) (by decide)).2.2.2


/-! ## CRC round trip and error detection -/

theorem foldl_crcByte_inj (bs : List Nat) (hb : IsBytes bs) :
    ∀ (x y : Nat), x < 65536 → y < 65536 → bs.foldl crcByte x = bs.foldl crcByte y → x = y := by
  induction bs with
  | nil => intro x y _ _ h; exact h
  | cons b bs ih =>
    intro x y hx hy h
    have hbb : b < 256 := hb b (List.mem_cons_self _ _)
    have h1 := ih (fun z hz => hb z (List.mem_cons_of_mem _ hz)) _ _
      (crcByte_lt x b hx hbb) (crcByte_lt y b hy hbb) h
    exact Nat.xor_left_injective (crcByte_inj x y b b hx hy hbb hbb h1)

/-- Replacing one byte of the input by a different byte changes the CRC. -/
theorem modbusCRC16_set_ne (B : List Nat) (hb : IsBytes B) (j : Nat) (hj : j < B.length)
    (b : Nat) (hbb : b < 256) (hne : b ≠ B[j]) :
    modbusCRC16 (B.set j b) (B.set j b).length ≠ modbusCRC16 B B.length := by
  have e1 : B.set j b = B.take j ++ b :: B.drop (j + 1) := List.set_eq_take_cons_drop b hj
  have e2 : B = B.take j ++ B[j] :: B.drop (j + 1) := by
    rw [← List.drop_eq_getElem_cons hj, List.take_append_drop]
  have hpre : IsBytes (B.take j) := isBytes_take B j hb
  have hpost : IsBytes (B.drop (j + 1)) := fun x hx => hb x (List.mem_of_mem_drop hx)
  have hs : (B.take j).foldl crcByte 0xFFFF < 65536 := foldl_crcByte_lt _ hpre _ (by decide)
  have hBj : B[j] < 256 := hb _ (List.getElem_mem _)
  intro h
  unfold modbusCRC16 at h
  rw [List.take_length, List.take_length] at h
  rw [e1] at h
  conv at h => rhs; rw [e2]
  rw [List.foldl_append, List.foldl_append, List.foldl_cons, List.foldl_cons] at h
  have h1 := foldl_crcByte_inj _ hpost _ _ (crcByte_lt _ _ hs hbb) (crcByte_lt _ _ hs hBj) h
  have h2 := crcByte_inj _ _ _ _ hs hs hbb hBj h1
  exact hne (Nat.xor_right_injective h2)

theorem xor_bit_ne (b k : Nat) : b ^^^ (1 <<< k) ≠ b := by
  intro h
  have h1 : b ^^^ (1 <<< k) = b ^^^ 0 := by rw [h, Nat.xor_zero]
  have h2 : 1 <<< k = 0 := Nat.xor_right_injective h1
  rw [Nat.shiftLeft_eq, Nat.one_mul] at h2
  exact absurd h2 (Nat.pos_iff_ne_zero.mp (Nat.pow_pos (by decide)))

theorem xor_bit_lt (b k : Nat) (hb : b < 256) (hk : k < 8) : b ^^^ (1 <<< k) < 256 := by
  apply Nat.xor_lt_two_pow (n := 8) hb
  rw [Nat.shiftLeft_eq, Nat.one_mul]
  exact Nat.pow_lt_pow_right (by decide) hk


/-- The CRC comparison on data bytes followed by two bytes `lo`, `hi`. -/
theorem crcFieldOk_append (B : List Nat) (lo hi : Nat) :
    crcFieldOk (B ++ [lo, hi]) = decide (lo ||| (hi <<< 8) = modbusCRC16 B B.length) := by
  have l : (B ++ [lo, hi]).length - 2 = B.length := by simp
  have g1 : (B ++ [lo, hi]).getD B.length 0 = lo := by
    rw [List.getD_append_right _ _ _ _ (le_refl _)]; simp
  have g2 : (B ++ [lo, hi]).getD (B.length + 1) 0 = hi := by
    rw [List.getD_append_right _ _ _ _ (by omega)]; simp
  simp only [crcFieldOk, l, g1, g2, modbusCRC16_append]

/-- C9. For every byte sequence `B`, the frame made of `B` followed by
`modbusCRC16(B)`, low byte first, passes the CRC comparison of the receive paths; and
`modbusCRC16(data, length)` is determined by the first `length` bytes alone. -/
theorem C9_crc_round_trip (B : List Nat) (hb : IsBytes B) :
    crcFieldOk (B ++ [modbusCRC16 B B.length &&& 0xFF,
        (modbusCRC16 B B.length >>> 8) &&& 0xFF]) = true
    ∧ ∀ (tail1 tail2 : List Nat),
        modbusCRC16 (B ++ tail1) B.length = modbusCRC16 (B ++ tail2) B.length := by
  refine ⟨?_, fun t1 t2 => by rw [modbusCRC16_append, modbusCRC16_append]⟩
  rw [crcFieldOk_append, recombine_crc _ (modbusCRC16_lt B B.length hb)]
  simp

set_option maxRecDepth 10000 in
/-- C9, on the ASCII bytes of "123456789", whose CRC is 0x4B37. -/
theorem C9_crc_round_trip_witness :
    crcFieldOk ([0x31, 0x32, 0x33, 0x34, 0x35, 0x36, 0x37, 0x38, 0x39]
      ++ [modbusCRC16 [0x31, 0x32, 0x33, 0x34, 0x35, 0x36, 0x37, 0x38, 0x39]
            [0x31, 0x32, 0x33, 0x34, 0x35, 0x36, 0x37, 0x38, 0x39].length &&& 0xFF,
          (modbusCRC16 [0x31, 0x32, 0x33, 0x34, 0x35, 0x36, 0x37, 0x38, 0x39]
            [0x31, 0x32, 0x33, 0x34, 0x35, 0x36, 0x37, 0x38, 0x39].length >>> 8) &&& 0xFF])
      = true :=
  (C9_crc_round_trip [0x31, 0x32, 0x33, 0x34, 0x35, 0x36, 0x37, 0x38, 0x39] (by decide)).1

/-- C10. For every byte sequence `B` and every bit position of the frame
`B ++ [crcLo, crcHi]`, in `B` or in the CRC field, the frame with that one bit
inverted fails the CRC comparison of the receive paths. -/
theorem C10_single_bit_flip_detected (B : List Nat) (hb : IsBytes B) (pos : Nat)
    (hpos : pos < 8 * (B.length + 2)) :
    crcFieldOk (flipBit (B ++ [modbusCRC16 B B.length &&& 0xFF,
        (modbusCRC16 B B.length >>> 8) &&& 0xFF]) pos) = false := by
  have hc : modbusCRC16 B B.length < 65536 := modbusCRC16_lt B B.length hb
  have hk : pos % 8 < 8 := Nat.mod_lt _ (by decide)
  have hlo : modbusCRC16 B B.length &&& 0xFF < 256 := by rw [and_ff_eq_mod]; omega
  have hhi : (modbusCRC16 B B.length >>> 8) &&& 0xFF < 256 := by rw [and_ff_eq_mod]; omega
  have hrec := recombine_crc _ hc
  rw [or_shl8_eq_add _ _ hlo] at hrec
  unfold flipBit
  rcases Nat.lt_trichotomy (pos / 8) B.length with hj | hj | hj
  · -- the bit is in a data byte
    have hbj : B[pos / 8] < 256 := hb _ (List.getElem_mem _)
    rw [List.getD_append _ _ _ _ hj, List.getD_eq_getElem _ _ hj, List.set_append_left _ _ hj,
      crcFieldOk_append, or_shl8_eq_add _ _ hlo, hrec]
    have hne := modbusCRC16_set_ne B hb (pos / 8) hj (B[pos / 8] ^^^ (1 <<< (pos % 8)))
      (xor_bit_lt _ _ hbj hk) (xor_bit_ne _ _)
    rw [List.length_set] at hne ⊢
    simpa using fun h => hne h.symm
  · -- the bit is in the low CRC byte
    rw [List.getD_append_right _ _ _ _ (by omega), List.set_append_right _ _ (by omega), hj]
    simp only [Nat.sub_self, List.getD_cons_zero, List.set_cons_zero]
    rw [crcFieldOk_append, or_shl8_eq_add _ _ (xor_bit_lt _ _ hlo hk)]
    have hne := xor_bit_ne (modbusCRC16 B B.length &&& 0xFF) (pos % 8)
    simp only [decide_eq_false_iff_not]
    omega
  · -- the bit is in the high CRC byte
    have hj2 : pos / 8 = B.length + 1 := by omega
    rw [List.getD_append_right _ _ _ _ (by omega), List.set_append_right _ _ (by omega), hj2]
    simp only [Nat.add_sub_cancel_left, List.getD_cons_succ, List.getD_cons_zero,
      List.set_cons_succ, List.set_cons_zero]
    rw [crcFieldOk_append, or_shl8_eq_add _ _ hlo]
    have hne := xor_bit_ne ((modbusCRC16 B B.length >>> 8) &&& 0xFF) (pos % 8)
    simp only [decide_eq_false_iff_not]
    omega

set_option maxRecDepth 10000 in
/-- C10, on the start request `01 06 00 00 00 01` with bit 3 of its last data byte
inverted. -/
theorem C10_single_bit_flip_detected_witness :
    crcFieldOk (flipBit ([1, 6, 0, 0, 0, 1]
      ++ [modbusCRC16 [1, 6, 0, 0, 0, 1] [1, 6, 0, 0, 0, 1].length &&& 0xFF,
          (modbusCRC16 [1, 6, 0, 0, 0, 1] [1, 6, 0, 0, 0, 1].length >>> 8) &&& 0xFF]) 43)
      = false :=
  C10_single_bit_flip_detected [1, 6, 0, 0, 0, 1] (by decide) 43 (by decide)



/-! ## The reference CRC -/

/-- XOR with a byte touches the low 8 bits only. -/
theorem xor_byte_low8 (c b : Nat) (hb : b < 256) :
    c ^^^ b = 256 * (c / 256) + ((c % 256) ^^^ b) := by
  have hx : (c % 2 ^ 8) ^^^ b < 2 ^ 8 :=
    Nat.xor_lt_two_pow (n := 8) (Nat.mod_lt _ (by decide)) hb
  show c ^^^ b = 2 ^ 8 * (c / 2 ^ 8) + ((c % 2 ^ 8) ^^^ b)
  apply Nat.eq_of_testBit_eq
  intro j
  rw [Nat.testBit_mul_pow_two_add _ hx j, Nat.testBit_xor]
  by_cases hj : j < 8
  · rw [if_pos hj, Nat.testBit_xor, Nat.testBit_mod_two_pow]
    simp [hj]
  · rw [if_neg hj]
    have hbj : b.testBit j = false :=
      Nat.testBit_lt_two_pow (Nat.lt_of_lt_of_le hb
        (Nat.pow_le_pow_right (by decide) (Nat.le_of_not_lt hj) : 2 ^ 8 ≤ 2 ^ j))
    rw [hbj, Bool.xor_false, ← Nat.shiftRight_eq_div_pow, Nat.testBit_shiftRight]
    congr 1
    omega

theorem crcShift_eq_reference (c : Nat) : crcShift c = referenceShift c := by
  unfold crcShift referenceShift
  rw [and_one_eq_mod, shr1_eq_div]
  by_cases h : c % 2 = 1
  · rw [if_pos h, if_pos (by omega)]
  · rw [if_neg h, if_neg (by omega)]

theorem crcByte_eq_reference (c b : Nat) (hb : b < 256) :
    crcByte c b = referenceAbsorb c b := by
  unfold crcByte referenceAbsorb
  rw [← xor_byte_low8 c b hb]
  simp only [Function.iterate_succ, Function.iterate_zero, Function.comp_apply, id_eq,
    crcShift_eq_reference]

theorem foldl_crcByte_eq_reference (bs : List Nat) (hb : IsBytes bs) :
    ∀ c, bs.foldl crcByte c = referenceFrom c bs := by
  induction bs with
  | nil => intro c; rfl
  | cons b bs ih =>
    intro c
    have h := ih (fun x hx => hb x (List.mem_cons_of_mem _ hx)) (crcByte c b)
    have e := crcByte_eq_reference c b (hb b (List.mem_cons_self _ _))
    calc (b :: bs).foldl crcByte c = bs.foldl crcByte (crcByte c b) := List.foldl_cons _ _
      _ = referenceFrom (crcByte c b) bs := h
      _ = referenceFrom (referenceAbsorb c b) bs := congrArg (fun x => referenceFrom x bs) e
      _ = referenceFrom c (b :: bs) := rfl

set_option maxRecDepth 10000 in
/-- C11. For every byte buffer and every length, `modbusCRC16(data, length)` is the
reference CRC-16/MODBUS of the first `length` bytes (start from 0xFFFF; XOR each byte
into the low 8 bits; 8 times shift right by one and XOR 0xA001 exactly when the bit
shifted out was 1); the empty input gives 0xFFFF and the ASCII bytes of "123456789"
give 0x4B37. -/
theorem C11_crc_equals_reference (data : List Nat) (hb : IsBytes data) (length : Nat) :
    modbusCRC16 data length = referenceCRC16 (data.take length)
    ∧ modbusCRC16 [] 0 = 0xFFFF
    ∧ modbusCRC16 [0x31, 0x32, 0x33, 0x34, 0x35, 0x36, 0x37, 0x38, 0x39] 9 = 0x4B37 := by
  refine ⟨foldl_crcByte_eq_reference _ (isBytes_take data length hb) _, by decide, by decide⟩

set_option maxRecDepth 10000 in
/-- C11, on the start request `01 06 00 00 00 01`, whose CRC is 0x0A48. -/
theorem C11_crc_equals_reference_witness :
    modbusCRC16 [1, 6, 0, 0, 0, 1] 6 = referenceCRC16 ([1, 6, 0, 0, 0, 1].take 6)
    ∧ referenceCRC16 ([1, 6, 0, 0, 0, 1].take 6) = 0x0A48 :=
  ⟨(C11_crc_equals_reference [1, 6, 0, 0, 0, 1] (by decide) 6).1, by decide⟩


/-! ## Request frames -/

/-- Reading bytes leaves the direction pin and the log of operations alone. -/
theorem rs485ReadBytes_line (cap len : Nat) (bus : Rs485) :
    (rs485ReadBytes cap len bus).2.rede = bus.rede
    ∧ (rs485ReadBytes cap len bus).2.ops = bus.ops := by
  unfold rs485ReadBytes
  split_ifs <;> exact ⟨rfl, rfl⟩

/-- The line after a read exchange for at least one register: receive mode, one request
on the wire. -/
theorem read_bus (a s q : Nat) (outRegs answer : List Nat) (bus : Rs485) (hq : q ≠ 0) :
    (modbusReadHoldingRegisters a s q outRegs answer bus).2.2.rede = false
    ∧ (modbusReadHoldingRegisters a s q outRegs answer bus).2.2.ops
        = bus.ops ++ [BusOp.setTx, BusOp.write (requestFrame a MB_FC_READ_HOLDING s q),
            BusOp.flush, BusOp.setRx] := by
  have k0 : (sendRequest (requestFrame a MB_FC_READ_HOLDING s q) answer bus).rede = false
      ∧ (sendRequest (requestFrame a MB_FC_READ_HOLDING s q) answer bus).ops
        = bus.ops ++ [BusOp.setTx, BusOp.write (requestFrame a MB_FC_READ_HOLDING s q),
            BusOp.flush, BusOp.setRx] := by
    simp [sendRequest, rs485SetTx, rs485SetRx]
  have k1 := rs485ReadBytes_line 3 3
    (sendRequest (requestFrame a MB_FC_READ_HOLDING s q) answer bus)
  rw [k0.1, k0.2] at k1
  unfold modbusReadHoldingRegisters
  simp only [if_neg hq]
  generalize rs485ReadBytes 3 3 _ = r1 at k1 ⊢
  obtain ⟨e1, b1⟩ := r1
  simp only at k1
  cases e1 with
  | timedOut => exact k1
  | overrun => exact k1
  | filled hdr =>
    simp only
    split_ifs with c1 c2 c3
    · exact k1
    · exact k1
    · exact k1
    · have k2 := rs485ReadBytes_line 64 (hdr.getD 2 0 + 2) b1
      rw [k1.1, k1.2] at k2
      generalize rs485ReadBytes 64 _ b1 = r2 at k2 ⊢
      obtain ⟨e2, b2⟩ := r2
      simp only at k2
      cases e2 with
      | timedOut => exact k2
      | overrun => exact k2
      | filled buf2 =>
        simp only
        split_ifs with c4
        · exact k2
        · cases decodeRegisters buf2 q 0 outRegs <;> exact k2

/-- C12. For every 8-bit address and 16-bit register and value, the request that
`modbusWriteSingleRegister` puts on the wire is the 8 bytes
`[a, 0x06, r>>8, r&0xFF, v>>8, v&0xFF, crc&0xFF, crc>>8]` with `crc` the
`modbusCRC16` of the first 6, and decoding bytes 2..5 as the code decodes an echo
(big-endian pairs) gives back `r` and `v`. -/
theorem C12_write_request_frame (a r v : Nat) (ha : a < 256) (hr : r < 65536) (hv : v < 65536)
    (answer : List Nat) (bus : Rs485) :
    (modbusWriteSingleRegister a r v answer bus).2.ops
      = bus.ops ++ [BusOp.setTx,
          BusOp.write [a, 0x06, r >>> 8, r &&& 0xFF, v >>> 8, v &&& 0xFF,
            modbusCRC16 [a, 0x06, r >>> 8, r &&& 0xFF, v >>> 8, v &&& 0xFF] 6 &&& 0xFF,
            modbusCRC16 [a, 0x06, r >>> 8, r &&& 0xFF, v >>> 8, v &&& 0xFF] 6 >>> 8],
          BusOp.flush, BusOp.setRx]
    ∧ ((r >>> 8) <<< 8) ||| (r &&& 0xFF) = r
    ∧ ((v >>> 8) <<< 8) ||| (v &&& 0xFF) = v := by
  have e1 : r / 256 % 256 = r / 256 := Nat.mod_eq_of_lt (by omega)
  have e2 : v / 256 % 256 = v / 256 := Nat.mod_eq_of_lt (by omega)
  have hb : IsBytes [a, 6, r / 256, r % 256, v / 256, v % 256] := by
    intro x hx
    simp only [List.mem_cons, List.mem_singleton, List.not_mem_nil, or_false] at hx
    rcases hx with rfl | rfl | rfl | rfl | rfl | rfl <;> omega
  have hc := modbusCRC16_lt _ 6 hb
  have e3 : modbusCRC16 [a, 6, r / 256, r % 256, v / 256, v % 256] 6 / 256 % 256
      = modbusCRC16 [a, 6, r / 256, r % 256, v / 256, v % 256] 6 / 256 :=
    Nat.mod_eq_of_lt (by omega)
  refine ⟨?_, ?_, ?_⟩
  · rw [(write_bus a r v answer bus).2, requestFrame_eq]
    simp only [MB_FC_WRITE_SINGLE_REG, and_ff_eq_mod, shr8_eq_div, e1, e2, e3]
  · rw [and_ff_eq_mod, shr8_eq_div, shl8_or_eq_add _ _ (by omega)]; omega
  · rw [and_ff_eq_mod, shr8_eq_div, shl8_or_eq_add _ _ (by omega)]; omega

set_option maxRecDepth 10000 in
/-- C12, at the start request: slave 1, register 0, value 1. -/
theorem C12_write_request_frame_witness :
    (modbusWriteSingleRegister 1 0 1 [] ⟨false, [], []⟩).2.ops
      = [BusOp.setTx, BusOp.write [1, 6, 0, 0, 0, 1, 0x48, 0x0A], BusOp.flush, BusOp.setRx] :=
  (C12_write_request_frame 1 0 1 (by decide) (by decide) (by decide) []
    ⟨false, [], []⟩).1.trans (by decide)

/-- C13. For every 8-bit address, 16-bit start register and 16-bit count of at least 1,
the request that `modbusReadHoldingRegisters` puts on the wire is the 8 bytes
`[a, 0x03, s>>8, s&0xFF, q>>8, q&0xFF, crc&0xFF, crc>>8]` with `crc` the
`modbusCRC16` of the first 6: fields high byte first, CRC low byte first. -/
theorem C13_read_request_frame (a s q : Nat) (ha : a < 256) (hs : s < 65536)
    (hq1 : 1 ≤ q) (hq : q < 65536) (outRegs answer : List Nat) (bus : Rs485) :
    (modbusReadHoldingRegisters a s q outRegs answer bus).2.2.ops
      = bus.ops ++ [BusOp.setTx,
          BusOp.write [a, 0x03, s >>> 8, s &&& 0xFF, q >>> 8, q &&& 0xFF,
            modbusCRC16 [a, 0x03, s >>> 8, s &&& 0xFF, q >>> 8, q &&& 0xFF] 6 &&& 0xFF,
            modbusCRC16 [a, 0x03, s >>> 8, s &&& 0xFF, q >>> 8, q &&& 0xFF] 6 >>> 8],
          BusOp.flush, BusOp.setRx] := by
  have e1 : s / 256 % 256 = s / 256 := Nat.mod_eq_of_lt (by omega)
  have e2 : q / 256 % 256 = q / 256 := Nat.mod_eq_of_lt (by omega)
  have hb : IsBytes [a, 3, s / 256, s % 256, q / 256, q % 256] := by
    intro x hx
    simp only [List.mem_cons, List.mem_singleton, List.not_mem_nil, or_false] at hx
    rcases hx with rfl | rfl | rfl | rfl | rfl | rfl <;> omega
  have hc := modbusCRC16_lt _ 6 hb
  have e3 : modbusCRC16 [a, 3, s / 256, s % 256, q / 256, q % 256] 6 / 256 % 256
      = modbusCRC16 [a, 3, s / 256, s % 256, q / 256, q % 256] 6 / 256 :=
    Nat.mod_eq_of_lt (by omega)
  rw [(read_bus a s q outRegs answer bus (by omega)).2, requestFrame_eq]
  simp only [MB_FC_READ_HOLDING, and_ff_eq_mod, shr8_eq_div, e1, e2, e3]

set_option maxRecDepth 10000 in
/-- C13, at the poll request: slave 1, start register 1, 6 registers. -/
theorem C13_read_request_frame_witness :
    (modbusReadHoldingRegisters 1 1 6 (List.replicate 6 0) [] ⟨false, [], []⟩).2.2.ops
      = [BusOp.setTx, BusOp.write [1, 3, 0, 1, 0, 6, 0x94, 0x08], BusOp.flush, BusOp.setRx] :=
  (C13_read_request_frame 1 1 6 (by decide) (by decide) (by decide) (by decide)
    (List.replicate 6 0) [] ⟨false, [], []⟩).trans (by decide)


/-! ## The meter reading -/

/-- The decoding loop stores 16-bit values. -/
theorem decodeRegisters_lt (buf2 : List Nat) (n : Nat) :
    ∀ (i : Nat) (regs out : List Nat), (∀ x ∈ regs, x < 65536) →
      decodeRegisters buf2 n i regs = some out → ∀ x ∈ out, x < 65536 := by
  induction n with
  | zero =>
    intro i regs out hr h
    simp only [decodeRegisters, Option.some.injEq] at h
    subst h
    exact hr
  | succ n ih =>
    intro i regs out hr h
    simp only [decodeRegisters] at h
    split at h
    · split_ifs at h with c
      refine ih (i + 1) _ out ?_ h
      intro x hx
      rcases List.mem_or_eq_of_mem_set hx with hx | rfl
      · exact hr x hx
      · exact Nat.mod_lt _ (by decide)
    · exact absurd h (by simp)

/-- A read exchange that returns success hands back what its decoding loop produced. -/
theorem read_ok_decoded (a s q : Nat) (outRegs answer : List Nat) (bus : Rs485)
    (h : (modbusReadHoldingRegisters a s q outRegs answer bus).1 = MbExit.ok) :
    ∃ buf2, decodeRegisters buf2 q 0 outRegs
      = some (modbusReadHoldingRegisters a s q outRegs answer bus).2.1 := by
  unfold modbusReadHoldingRegisters at h ⊢
  by_cases hq : q = 0
  · simp [hq] at h
  · simp only [if_neg hq] at h ⊢
    generalize rs485ReadBytes 3 3 _ = r1 at h ⊢
    obtain ⟨e1, b1⟩ := r1
    cases e1 with
    | timedOut => simp at h
    | overrun => simp at h
    | filled hdr =>
      simp only at h ⊢
      split_ifs at h ⊢ with c1 c2 c3
      generalize rs485ReadBytes 64 _ b1 = r2 at h ⊢
      obtain ⟨e2, b2⟩ := r2
      cases e2 with
      | timedOut => simp at h
      | overrun => simp at h
      | filled buf2 =>
        simp only at h ⊢
        split_ifs at h ⊢ with c4
        cases hdec : decodeRegisters buf2 q 0 outRegs with
        | none => simp [hdec] at h
        | some regs => exact ⟨buf2, by simp [hdec]⟩

theorem shl16_or_eq_add (hi lo : Nat) (h : lo < 65536) :
    (hi <<< 16) ||| lo = hi * 65536 + lo := by
  rw [Nat.shiftLeft_eq, Nat.mul_comm]
  exact (Nat.mul_add_lt_is_or (i := 16) h hi).symm

/-- The line after `meterRead`: receive mode, and the request for 6 registers from
register 1 of slave 1 on the wire. -/
theorem meterRead_bus (out : MeterData) (answer : List Nat) (bus : Rs485) :
    (meterRead out answer bus).2.2.rede = false
    ∧ (meterRead out answer bus).2.2.ops
        = bus.ops ++ [BusOp.setTx,
            BusOp.write (requestFrame MB_SLAVE_ADDR MB_FC_READ_HOLDING REG_STATUS_FLAGS 6),
            BusOp.flush, BusOp.setRx] := by
  have k := read_bus MB_SLAVE_ADDR REG_STATUS_FLAGS 6 (List.replicate 6 0) answer bus (by decide)
  unfold meterRead
  generalize modbusReadHoldingRegisters MB_SLAVE_ADDR REG_STATUS_FLAGS 6 (List.replicate 6 0)
    answer bus = r at k ⊢
  obtain ⟨e, regs, b⟩ := r
  cases e <;> exact k

set_option maxRecDepth 10000 in
/-- C14. The request of `meterRead` is the read of 6 holding registers from register 1
of slave 1 (`01 03 00 01 00 06` and its CRC), and whenever that read succeeds with the
words `w0 .. w5`, `meterRead` returns `true` with `statusFlags = w0`,
`sessionVolCl = w1*65536 + w2`, `totalVolCl = w3*65536 + w4` and `flowRateClm = w5`. -/
theorem C14_meterRead_decodes (out : MeterData) (answer : List Nat) (bus : Rs485) :
    (meterRead out answer bus).2.2.ops
      = bus.ops ++ [BusOp.setTx, BusOp.write [1, 3, 0, 1, 0, 6, 0x94, 0x08],
          BusOp.flush, BusOp.setRx]
    ∧ ((modbusReadHoldingRegisters 1 1 6 (List.replicate 6 0) answer bus).1 = MbExit.ok →
        (meterRead out answer bus).1 = true
        ∧ (meterRead out answer bus).2.1
          = { statusFlags :=
                (modbusReadHoldingRegisters 1 1 6 (List.replicate 6 0) answer bus).2.1.getD 0 0
              sessionVolCl :=
                (modbusReadHoldingRegisters 1 1 6 (List.replicate 6 0) answer bus).2.1.getD 1 0
                  * 65536
                + (modbusReadHoldingRegisters 1 1 6 (List.replicate 6 0) answer bus).2.1.getD 2 0
              totalVolCl :=
                (modbusReadHoldingRegisters 1 1 6 (List.replicate 6 0) answer bus).2.1.getD 3 0
                  * 65536
                + (modbusReadHoldingRegisters 1 1 6 (List.replicate 6 0) answer bus).2.1.getD 4 0
              flowRateClm :=
                (modbusReadHoldingRegisters 1 1 6 (List.replicate 6 0) answer bus).2.1.getD 5 0 })
    := by
  refine ⟨(meterRead_bus out answer bus).2.trans ?_, ?_⟩
  · have e : requestFrame MB_SLAVE_ADDR MB_FC_READ_HOLDING REG_STATUS_FLAGS 6
        = [1, 3, 0, 1, 0, 6, 0x94, 0x08] := by decide
    rw [e]
  · intro hok
    obtain ⟨buf2, hdec⟩ := read_ok_decoded 1 1 6 (List.replicate 6 0) answer bus hok
    have hlt := decodeRegisters_lt buf2 6 0 (List.replicate 6 0) _
      (fun x hx => by rw [List.eq_of_mem_replicate hx]; decide) hdec
    have hget : ∀ i, (modbusReadHoldingRegisters 1 1 6 (List.replicate 6 0) answer
        bus).2.1.getD i 0 < 65536 := by
      intro i
      rw [List.getD_eq_getElem?_getD]
      cases hi : (modbusReadHoldingRegisters 1 1 6 (List.replicate 6 0) answer bus).2.1[i]? with
      | none => simp
      | some x => exact hlt x (List.getElem?_mem hi)
    unfold meterRead
    simp only [MB_SLAVE_ADDR, REG_STATUS_FLAGS]
    generalize modbusReadHoldingRegisters 1 1 6 (List.replicate 6 0) answer bus = r
      at hok hget ⊢
    obtain ⟨e, regs, b⟩ := r
    simp only at hok hget
    subst hok
    simp only [true_and]
    have h1 := hget 1
    have h2 := hget 2
    have h3 := hget 3
    have h4 := hget 4
    rw [shl16_or_eq_add _ _ h2, shl16_or_eq_add _ _ h4,
      Nat.mod_eq_of_lt (by omega), Nat.mod_eq_of_lt (by omega)]

set_option maxRecDepth 10000 in
/-- C14, on the poll answer with status 2, session volume 520, total volume 520 and
flow rate 500. -/
theorem C14_meterRead_decodes_witness :
    (meterRead ⟨0, 0, 0, 0⟩ answerActive520 ⟨false, [], []⟩).2.1 = ⟨2, 520, 520, 500⟩ :=
  ((C14_meterRead_decodes ⟨0, 0, 0, 0⟩ answerActive520 ⟨false, [], []⟩).2 (by decide)).2.trans
    (by decide)


/-! ## The card handler -/

theorem find_range_none (p : Nat → Bool) (n : Nat) (h : ∀ i, i < n → p i = false) :
    (List.range n).find? p = none := by
  rw [List.find?_eq_none]
  intro x hx
  rw [List.mem_range] at hx
  simp [h x hx]

theorem find_range_first (p : Nat → Bool) (n i : Nat) (hi : i < n) (hp : p i = true)
    (hlt : ∀ j, j < i → p j = false) :
    (List.range n).find? p = some i := by
  induction n with
  | zero => exact absurd hi (Nat.not_lt_zero i)
  | succ n ih =>
    rw [List.range_succ, List.find?_append]
    by_cases hin : i < n
    · rw [ih hin]; rfl
    · have e : i = n := by omega
      subst e
      rw [find_range_none p i hlt]
      simp [hp]

/-- A card that matches no entry in use: `findDriverIndexByUid` returns -1. -/
theorem findDriverIndexByUid_none (config : AppConfig) (uidHex : String)
    (h : NotInDriverTable config uidHex) : findDriverIndexByUid config uidHex = -1 := by
  unfold findDriverIndexByUid
  rw [find_range_none _ _ (fun i hi => by simpa using h i hi)]

/-- A card in the table: `findDriverIndexByUid` returns its first entry. -/
theorem findDriverIndexByUid_first (config : AppConfig) (uidHex : String) (i : Nat)
    (h : FirstDriverEntry config uidHex i) : findDriverIndexByUid config uidHex = (i : Int) := by
  unfold findDriverIndexByUid
  rw [find_range_first _ _ i h.1 (by simpa using h.2.1) (fun j hj => by simpa using h.2.2 j hj)]

/-- The administrator card is served first, on every screen. -/
theorem rfid_admin (uidHex : String) (now : Nat) (sa seed : List Nat) (t : Terminal)
    (hadm : IsAdminCard t.config uidHex) :
    handleRfidInNormalMode (some uidHex) now sa seed t
      = showInfoMessage "Yonetici" "Admin kart okundu" "Ayarlar aciliyor" SCR_SETUP_MENU 1500
          now t := by
  unfold handleRfidInNormalMode
  simp [hadm.1, hadm.2]

/-- Another card on a screen other than idle and summary: nothing happens. -/
theorem rfid_other_screen (uidHex : String) (now : Nat) (sa seed : List Nat) (t : Terminal)
    (hadm : ¬ IsAdminCard t.config uidHex)
    (h1 : t.currentScreen ≠ SCR_IDLE) (h2 : t.currentScreen ≠ SCR_FUEL_SUMMARY) :
    handleRfidInNormalMode (some uidHex) now sa seed t = t := by
  unfold handleRfidInNormalMode IsAdminCard at *
  have : ¬ (t.config.adminCard.isSet = true ∧ uidHex = t.config.adminCard.uidHex) := hadm
  simp only [Bool.and_eq_true, decide_eq_true_eq, this, h1, h2, or_self, if_false]

/-- A card that is neither the administrator card nor in the driver table, on the idle
or the summary screen: the rejection message. -/
theorem rfid_unknown (uidHex : String) (now : Nat) (sa seed : List Nat) (t : Terminal)
    (hadm : ¬ IsAdminCard t.config uidHex)
    (hscr : t.currentScreen = SCR_IDLE ∨ t.currentScreen = SCR_FUEL_SUMMARY)
    (hno : NotInDriverTable t.config uidHex) :
    handleRfidInNormalMode (some uidHex) now sa seed t
      = showInfoMessage "Sofor Kart" "Kart tanimli degil" "" SCR_IDLE 1500 now t := by
  unfold handleRfidInNormalMode IsAdminCard at *
  have : ¬ (t.config.adminCard.isSet = true ∧ uidHex = t.config.adminCard.uidHex) := hadm
  simp only [Bool.and_eq_true, decide_eq_true_eq, this, hscr, if_false, if_true,
    findDriverIndexByUid_none t.config uidHex hno]
  rfl

/-- A driver card on the idle or the summary screen: identity and plate are stored, the
start write is made, and its exit decides between the session start and the
start-failure message. -/
theorem rfid_driver (uidHex : String) (i now : Nat) (sa seed : List Nat) (t : Terminal)
    (hadm : ¬ IsAdminCard t.config uidHex)
    (hscr : t.currentScreen = SCR_IDLE ∨ t.currentScreen = SCR_FUEL_SUMMARY)
    (hfirst : FirstDriverEntry t.config uidHex i) :
    handleRfidInNormalMode (some uidHex) now sa seed t
      = match meterStartSession sa t.bus with
        | (MbExit.ok, bus) =>
          match meterRead ⟨0, 0, 0, 0⟩ seed bus with
          | (true, md, bus2) =>
            { t with
              g_activeDriverUid := uidHex
              g_activeDriverPlate := (t.config.drivers.items.getD i ⟨"", ""⟩).plate
              bus := bus2
              g_sessionActive := true
              g_lastMeterPollMs := 0
              g_lastMeter := md
              g_lastSessionLiters := CFloat.div100 md.sessionVolCl
              currentScreen := SCR_FUELING
              drawn := t.drawn ++ [Drawn.fuelingScreen
                (t.config.drivers.items.getD i ⟨"", ""⟩).plate md] }
          | (false, _, bus2) =>
            { t with
              g_activeDriverUid := uidHex
              g_activeDriverPlate := (t.config.drivers.items.getD i ⟨"", ""⟩).plate
              bus := bus2
              g_sessionActive := true
              g_lastMeterPollMs := 0
              g_lastMeter := ⟨0, 0, 0, 0⟩
              g_lastSessionLiters := CFloat.zero
              currentScreen := SCR_FUELING
              drawn := t.drawn ++ [Drawn.fuelingScreen
                (t.config.drivers.items.getD i ⟨"", ""⟩).plate ⟨0, 0, 0, 0⟩] }
        | (_, bus) =>
          showInfoMessage "RS485" "Dolum baslatilamadi" "Baglanti hatasi" SCR_IDLE 1500 now
            { t with
              g_activeDriverUid := uidHex
              g_activeDriverPlate := (t.config.drivers.items.getD i ⟨"", ""⟩).plate
              bus := bus } := by
  unfold handleRfidInNormalMode IsAdminCard at *
  have : ¬ (t.config.adminCard.isSet = true ∧ uidHex = t.config.adminCard.uidHex) := hadm
  have hidx : ¬ ((i : Int) < 0) := by omega
  simp only [Bool.and_eq_true, decide_eq_true_eq, this, hscr, if_false, if_true,
    findDriverIndexByUid_first t.config uidHex i hfirst, hidx, Int.toNat_ofNat]
  rcases meterStartSession sa t.bus with ⟨e, b⟩
  cases e <;> simp only
  rcases meterRead ⟨0, 0, 0, 0⟩ seed b with ⟨ok, md, b2⟩
  cases ok <;> simp [drawFuelingScreen]


/-- A message that returns to the idle screen: with no card at the reader, the pass of
`loop()` that finds its time run out brings the idle screen back, and an earlier pass
changes nothing. -/
theorem message_returns_idle (inp : LoopInput) (t : Terminal)
    (hm : t.currentScreen = SCR_MESSAGE) (hr : t.infoMsg.returnScreen = SCR_IDLE)
    (hc : inp.card = none) :
    (msSince inp.now t.infoMsg.startMs ≥ t.infoMsg.timeoutMs →
      (loop inp t).currentScreen = SCR_IDLE)
    ∧ (msSince inp.now t.infoMsg.startMs < t.infoMsg.timeoutMs → loop inp t = t) := by
  unfold loop
  constructor
  · intro h
    simp [hm, hr, hc, h, drawIdleScreen, handleRfidInNormalMode]
  · intro h
    have h' : ¬ (msSince inp.now t.infoMsg.startMs ≥ t.infoMsg.timeoutMs) := by omega
    simp [hm, h']

set_option maxRecDepth 100000 in
/-- C15 as stated fails: the driver card is presented on the idle screen, the start
write times out, and the driver id and plate variables, empty before, hold the card's
id and plate afterwards. -/
theorem C15_start_failure_counterexample :
    (meterStartSession [] (idleTerminal scenarioConfig).bus).1 = MbExit.timeout
    ∧ (idleTerminal scenarioConfig).g_activeDriverUid = ""
    ∧ (idleTerminal scenarioConfig).g_activeDriverPlate = ""
    ∧ (handleRfidInNormalMode (some "04A1B2C3") 100 [] []
        (idleTerminal scenarioConfig)).g_activeDriverUid = "04A1B2C3"
    ∧ (handleRfidInNormalMode (some "04A1B2C3") 100 [] []
        (idleTerminal scenarioConfig)).g_activeDriverPlate = "34 ABC 123" := by
  decide

/-- C15, amended. If the start write issued for a driver card presented on the idle
screen fails (time-out, CRC, address/function or echo failure), the controller reports
the start failure and stays idle: the failure message is shown and gives way to the idle
screen after 1500 ms; the active flag, the last volume, the last meter reading and the
poll time stamp are as they were before the card was presented, while the driver id and
plate variables hold the id and plate of the presented card. -/
theorem C15_start_failure (uidHex : String) (i now : Nat) (sa seed : List Nat) (t : Terminal)
    (hidle : t.currentScreen = SCR_IDLE) (hadm : ¬ IsAdminCard t.config uidHex)
    (hfirst : FirstDriverEntry t.config uidHex i)
    (hfail : (meterStartSession sa t.bus).1 ≠ MbExit.ok) :
    (handleRfidInNormalMode (some uidHex) now sa seed t).drawn
      = t.drawn ++ [Drawn.infoMessage "RS485" "Dolum baslatilamadi" "Baglanti hatasi"]
    ∧ IsIdle (handleRfidInNormalMode (some uidHex) now sa seed t)
    ∧ (∀ inp : LoopInput, inp.card = none → msSince inp.now now ≥ 1500 →
        (loop inp (handleRfidInNormalMode (some uidHex) now sa seed t)).currentScreen
          = SCR_IDLE)
    ∧ (handleRfidInNormalMode (some uidHex) now sa seed t).g_sessionActive = t.g_sessionActive
    ∧ (handleRfidInNormalMode (some uidHex) now sa seed t).g_lastSessionLiters
        = t.g_lastSessionLiters
    ∧ (handleRfidInNormalMode (some uidHex) now sa seed t).g_lastMeter = t.g_lastMeter
    ∧ (handleRfidInNormalMode (some uidHex) now sa seed t).g_lastMeterPollMs
        = t.g_lastMeterPollMs
    ∧ (handleRfidInNormalMode (some uidHex) now sa seed t).g_activeDriverUid = uidHex
    ∧ (handleRfidInNormalMode (some uidHex) now sa seed t).g_activeDriverPlate
        = (t.config.drivers.items.getD i ⟨"", ""⟩).plate := by
  have e : handleRfidInNormalMode (some uidHex) now sa seed t
      = showInfoMessage "RS485" "Dolum baslatilamadi" "Baglanti hatasi" SCR_IDLE 1500 now
          { t with
            g_activeDriverUid := uidHex
            g_activeDriverPlate := (t.config.drivers.items.getD i ⟨"", ""⟩).plate
            bus := (meterStartSession sa t.bus).2 } := by
    rw [rfid_driver uidHex i now sa seed t hadm (Or.inl hidle) hfirst]
    rcases hm : meterStartSession sa t.bus with ⟨x, b⟩
    rw [hm] at hfail
    cases x <;> first | rfl | exact absurd rfl hfail
  rw [e]
  refine ⟨rfl, Or.inr ⟨rfl, rfl⟩, ?_, rfl, rfl, rfl, rfl, rfl, rfl⟩
  intro inp hc hdue
  exact (message_returns_idle inp _ rfl rfl hc).1 hdue

set_option maxRecDepth 100000 in
/-- C15 (amended), on the scenario of the specification with a start write that times
out. -/
theorem C15_start_failure_witness :
    IsIdle (handleRfidInNormalMode (some "04A1B2C3") 100 [] []
      (idleTerminal scenarioConfig)) :=
  (C15_start_failure "04A1B2C3" 0 100 [] [] (idleTerminal scenarioConfig) rfl (by decide)
    (by decide) (by decide)).2.1

set_option maxRecDepth 100000 in
/-- C16 as stated fails: the administrator card `AD000001` matches no entry of the
driver table, and presenting it on the idle screen is not reported as a rejection and
does not keep the controller idle: the administrator message is shown and gives way to
the set-up menu. -/
theorem C16_unknown_card_counterexample :
    NotInDriverTable scenarioConfig "AD000001"
    ∧ (handleRfidInNormalMode (some "AD000001") 100 [] []
        (idleTerminal scenarioConfig)).drawn
      = [Drawn.idleScreen, Drawn.infoMessage "Yonetici" "Admin kart okundu" "Ayarlar aciliyor"]
    ∧ ¬ IsIdle (handleRfidInNormalMode (some "AD000001") 100 [] []
        (idleTerminal scenarioConfig))
    ∧ (loop (pollPass 1600 [])
        (handleRfidInNormalMode (some "AD000001") 100 [] []
          (idleTerminal scenarioConfig))).currentScreen = SCR_SETUP_MENU := by
  decide

/-- C16, amended. For every card identifier that matches no entry of the driver table
and is not the administrator card, presenting it on the idle screen issues no write (the
line is untouched, nothing is transmitted), leaves the session fields unchanged, keeps
the controller idle (the rejection message is shown and gives way to the idle screen
after 1500 ms) and reports the rejection. -/
theorem C16_unknown_card_rejected (uidHex : String) (now : Nat) (sa seed : List Nat)
    (t : Terminal) (hidle : t.currentScreen = SCR_IDLE)
    (hadm : ¬ IsAdminCard t.config uidHex) (hno : NotInDriverTable t.config uidHex) :
    (handleRfidInNormalMode (some uidHex) now sa seed t).bus = t.bus
    ∧ (handleRfidInNormalMode (some uidHex) now sa seed t).g_sessionActive = t.g_sessionActive
    ∧ (handleRfidInNormalMode (some uidHex) now sa seed t).g_activeDriverUid
        = t.g_activeDriverUid
    ∧ (handleRfidInNormalMode (some uidHex) now sa seed t).g_activeDriverPlate
        = t.g_activeDriverPlate
    ∧ (handleRfidInNormalMode (some uidHex) now sa seed t).g_lastSessionLiters
        = t.g_lastSessionLiters
    ∧ (handleRfidInNormalMode (some uidHex) now sa seed t).g_lastMeter = t.g_lastMeter
    ∧ (handleRfidInNormalMode (some uidHex) now sa seed t).g_lastMeterPollMs
        = t.g_lastMeterPollMs
    ∧ IsIdle (handleRfidInNormalMode (some uidHex) now sa seed t)
    ∧ (∀ inp : LoopInput, inp.card = none → msSince inp.now now ≥ 1500 →
        (loop inp (handleRfidInNormalMode (some uidHex) now sa seed t)).currentScreen
          = SCR_IDLE)
    ∧ (handleRfidInNormalMode (some uidHex) now sa seed t).drawn
        = t.drawn ++ [Drawn.infoMessage "Sofor Kart" "Kart tanimli degil" ""] := by
  rw [rfid_unknown uidHex now sa seed t hadm (Or.inl hidle) hno]
  refine ⟨rfl, rfl, rfl, rfl, rfl, rfl, rfl, Or.inr ⟨rfl, rfl⟩, ?_, rfl⟩
  intro inp hc hdue
  exact (message_returns_idle inp _ rfl rfl hc).1 hdue

set_option maxRecDepth 100000 in
/-- C16 (amended), on the scenario of the specification with a card that is not in the
table. -/
theorem C16_unknown_card_rejected_witness :
    (handleRfidInNormalMode (some "DEADBEEF") 100 [] [] (idleTerminal scenarioConfig)).bus
      = (idleTerminal scenarioConfig).bus :=
  (C16_unknown_card_rejected "DEADBEEF" 100 [] [] (idleTerminal scenarioConfig) rfl
    (by decide) (by decide)).1


set_option maxRecDepth 100000 in
/-- C18 as stated fails: on the summary screen, after a session has been closed, the
driver card is presented again; a start write is issued and a new session replaces the
closed one. -/
theorem C18_session_creation_counterexample :
    (loop (pollPass 400 answerDone1175)
      (handleRfidInNormalMode (some "04A1B2C3") 100 [1, 6, 0, 0, 0, 1, 72, 10] answerActive0
        (idleTerminal scenarioConfig))).currentScreen = SCR_FUEL_SUMMARY
    ∧ startWrites (loop (pollPass 400 answerDone1175)
      (handleRfidInNormalMode (some "04A1B2C3") 100 [1, 6, 0, 0, 0, 1, 72, 10] answerActive0
        (idleTerminal scenarioConfig))).bus = 1
    ∧ startWrites (handleRfidInNormalMode (some "04A1B2C3") 1000 [1, 6, 0, 0, 0, 1, 72, 10]
        answerActive0
        (loop (pollPass 400 answerDone1175)
          (handleRfidInNormalMode (some "04A1B2C3") 100 [1, 6, 0, 0, 0, 1, 72, 10]
            answerActive0 (idleTerminal scenarioConfig)))).bus = 2
    ∧ (handleRfidInNormalMode (some "04A1B2C3") 1000 [1, 6, 0, 0, 0, 1, 72, 10]
        answerActive0
        (loop (pollPass 400 answerDone1175)
          (handleRfidInNormalMode (some "04A1B2C3") 100 [1, 6, 0, 0, 0, 1, 72, 10]
            answerActive0 (idleTerminal scenarioConfig)))).currentScreen = SCR_FUELING
    ∧ (handleRfidInNormalMode (some "04A1B2C3") 1000 [1, 6, 0, 0, 0, 1, 72, 10]
        answerActive0
        (loop (pollPass 400 answerDone1175)
          (handleRfidInNormalMode (some "04A1B2C3") 100 [1, 6, 0, 0, 0, 1, 72, 10]
            answerActive0 (idleTerminal scenarioConfig)))).g_sessionActive = true := by
  decide

/-- C18, amended. A session is created only when a card is presented while the idle
screen or the summary screen is up: on every other screen, the fueling screen among
them, presenting a card issues no exchange on the line and leaves the session fields
unchanged; on the summary screen a presented card is handled exactly as on the idle
screen. -/
theorem C18_session_creation (uidHex : String) (now : Nat) (sa seed : List Nat)
    (t : Terminal) :
    (t.currentScreen ≠ SCR_IDLE → t.currentScreen ≠ SCR_FUEL_SUMMARY →
      (handleRfidInNormalMode (some uidHex) now sa seed t).bus = t.bus
      ∧ (handleRfidInNormalMode (some uidHex) now sa seed t).g_sessionActive
          = t.g_sessionActive
      ∧ (handleRfidInNormalMode (some uidHex) now sa seed t).g_activeDriverUid
          = t.g_activeDriverUid
      ∧ (handleRfidInNormalMode (some uidHex) now sa seed t).g_activeDriverPlate
          = t.g_activeDriverPlate
      ∧ (handleRfidInNormalMode (some uidHex) now sa seed t).g_lastSessionLiters
          = t.g_lastSessionLiters
      ∧ (handleRfidInNormalMode (some uidHex) now sa seed t).g_lastMeter = t.g_lastMeter
      ∧ (handleRfidInNormalMode (some uidHex) now sa seed t).g_lastMeterPollMs
          = t.g_lastMeterPollMs)
    ∧ (t.currentScreen = SCR_FUELING → ¬ IsAdminCard t.config uidHex →
      handleRfidInNormalMode (some uidHex) now sa seed t = t)
    ∧ (t.currentScreen = SCR_FUEL_SUMMARY →
      handleRfidInNormalMode (some uidHex) now sa seed t
        = handleRfidInNormalMode (some uidHex) now sa seed
            { t with currentScreen := SCR_IDLE }) := by
  refine ⟨?_, ?_, ?_⟩
  · intro h1 h2
    by_cases hadm : IsAdminCard t.config uidHex
    · rw [rfid_admin uidHex now sa seed t hadm]
      exact ⟨rfl, rfl, rfl, rfl, rfl, rfl, rfl⟩
    · rw [rfid_other_screen uidHex now sa seed t hadm h1 h2]
      exact ⟨rfl, rfl, rfl, rfl, rfl, rfl, rfl⟩
  · intro hf hadm
    exact rfid_other_screen uidHex now sa seed t hadm (by rw [hf]; decide) (by rw [hf]; decide)
  · intro hs
    unfold handleRfidInNormalMode
    simp only [hs, or_true, true_or, if_true]
    split_ifs with c1 c2
    · rfl
    · rfl
    · rcases meterStartSession sa t.bus with ⟨x, b⟩
      cases x <;> simp only [showInfoMessage]
      rcases meterRead ⟨0, 0, 0, 0⟩ seed b with ⟨ok, md, b2⟩
      cases ok <;> rfl

set_option maxRecDepth 100000 in
/-- C18 (amended): the driver card presented during a session changes nothing. -/
theorem C18_session_creation_witness :
    handleRfidInNormalMode (some "04A1B2C3") 500 [1, 6, 0, 0, 0, 1, 72, 10] answerActive0
      (handleRfidInNormalMode (some "04A1B2C3") 100 [1, 6, 0, 0, 0, 1, 72, 10] answerActive0
        (idleTerminal scenarioConfig))
    = handleRfidInNormalMode (some "04A1B2C3") 100 [1, 6, 0, 0, 0, 1, 72, 10] answerActive0
        (idleTerminal scenarioConfig) :=
  (C18_session_creation "04A1B2C3" 500 [1, 6, 0, 0, 0, 1, 72, 10] answerActive0
    (handleRfidInNormalMode (some "04A1B2C3") 100 [1, 6, 0, 0, 0, 1, 72, 10] answerActive0
      (idleTerminal scenarioConfig))).2.1 (by decide) (by decide)


/-! ## Failed polls and the frozen volume -/

/-- The poll handler with a read that is due: the time stamp is taken and the read is
made. -/
theorem poll_due_bus (now closeMs : Nat) (answer : List Nat) (t : Terminal)
    (hs : t.currentScreen = SCR_FUELING)
    (hdue : msSince now t.g_lastMeterPollMs ≥ METER_POLL_INTERVAL_MS) :
    (handleMeterPolling now closeMs answer t).bus = (meterRead ⟨0, 0, 0, 0⟩ answer t.bus).2.2
    ∧ (handleMeterPolling now closeMs answer t).g_lastMeterPollMs = now := by
  have hd : ¬ (msSince now t.g_lastMeterPollMs < METER_POLL_INTERVAL_MS) := by omega
  unfold handleMeterPolling
  simp only [hs, ne_eq, not_true_eq_false, if_false, hd]
  rcases meterRead ⟨0, 0, 0, 0⟩ answer t.bus with ⟨ok, md, b⟩
  cases ok
  · exact ⟨rfl, rfl⟩
  · simp only [drawFuelingScreen, drawFuelSummaryScreen]
    split_ifs <;> exact ⟨rfl, rfl⟩

/-- C19. If the register read of a due poll fails on the fueling screen, the session is
not torn down: the state after the pass is the state before it with only the poll time
stamp advanced and the line having carried the request (fueling screen, active flag,
driver id and plate, last `MeterData` and last volume unchanged); no read is made before
the next poll is due, and the pass at which it is due makes the read again. -/
theorem C19_failed_poll_keeps_session (now closeMs : Nat) (answer : List Nat) (t : Terminal)
    (hs : t.currentScreen = SCR_FUELING)
    (hdue : msSince now t.g_lastMeterPollMs ≥ METER_POLL_INTERVAL_MS)
    (hfail : (meterRead ⟨0, 0, 0, 0⟩ answer t.bus).1 = false) :
    handleMeterPolling now closeMs answer t
      = { t with g_lastMeterPollMs := now, bus := (meterRead ⟨0, 0, 0, 0⟩ answer t.bus).2.2 }
    ∧ (∀ now2 closeMs2 answer2, msSince now2 now < METER_POLL_INTERVAL_MS →
        handleMeterPolling now2 closeMs2 answer2 (handleMeterPolling now closeMs answer t)
          = handleMeterPolling now closeMs answer t)
    ∧ (∀ now2 closeMs2 answer2, msSince now2 now ≥ METER_POLL_INTERVAL_MS →
        (handleMeterPolling now2 closeMs2 answer2
            (handleMeterPolling now closeMs answer t)).bus.ops
          = (handleMeterPolling now closeMs answer t).bus.ops
            ++ [BusOp.setTx,
                BusOp.write (requestFrame MB_SLAVE_ADDR MB_FC_READ_HOLDING REG_STATUS_FLAGS 6),
                BusOp.flush, BusOp.setRx]) := by
  have hd : ¬ (msSince now t.g_lastMeterPollMs < METER_POLL_INTERVAL_MS) := by omega
  have e : handleMeterPolling now closeMs answer t
      = { t with g_lastMeterPollMs := now,
                 bus := (meterRead ⟨0, 0, 0, 0⟩ answer t.bus).2.2 } := by
    unfold handleMeterPolling
    simp only [hs, ne_eq, not_true_eq_false, if_false, hd]
    rcases hm : meterRead ⟨0, 0, 0, 0⟩ answer t.bus with ⟨ok, md, b⟩
    rw [hm] at hfail
    simp only at hfail
    subst hfail
    rfl
  refine ⟨e, ?_, ?_⟩
  · intro now2 closeMs2 answer2 h2
    rw [e]
    unfold handleMeterPolling
    simp only [hs, ne_eq, not_true_eq_false, if_false, h2, if_true]
  · intro now2 closeMs2 answer2 h2
    have k := (poll_due_bus now2 closeMs2 answer2 (handleMeterPolling now closeMs answer t)
      (by rw [e]; exact hs) (by rw [e]; exact h2)).1
    rw [k]
    exact (meterRead_bus _ _ _).2

set_option maxRecDepth 100000 in
/-- C19, on the scenario of the specification with a poll at 400 ms that gets no
answer. -/
theorem C19_failed_poll_keeps_session_witness :
    handleMeterPolling 400 440 []
      (handleRfidInNormalMode (some "04A1B2C3") 100 [1, 6, 0, 0, 0, 1, 72, 10] answerActive0
        (idleTerminal scenarioConfig))
    = { (handleRfidInNormalMode (some "04A1B2C3") 100 [1, 6, 0, 0, 0, 1, 72, 10]
          answerActive0 (idleTerminal scenarioConfig)) with
        g_lastMeterPollMs := 400
        bus := (meterRead ⟨0, 0, 0, 0⟩ []
          (handleRfidInNormalMode (some "04A1B2C3") 100 [1, 6, 0, 0, 0, 1, 72, 10]
            answerActive0 (idleTerminal scenarioConfig)).bus).2.2 } :=
  (C19_failed_poll_keeps_session 400 440 []
    (handleRfidInNormalMode (some "04A1B2C3") 100 [1, 6, 0, 0, 0, 1, 72, 10] answerActive0
      (idleTerminal scenarioConfig)) (by decide) (by decide) (by decide)).1

theorem crcShift_even (x : Nat) : crcShift (2 * x) = x := by
  unfold crcShift
  rw [and_one_eq_mod, shr1_eq_div]
  have h : 2 * x % 2 = 0 := by omega
  simp [h]

theorem crcByte_low_byte (c : Nat) : crcByte c (c % 256) = c / 256 := by
  unfold crcByte
  rw [xor_byte_low8 c (c % 256) (Nat.mod_lt _ (by norm_num)), Nat.xor_self, Nat.add_zero]
  have e : 256 * (c / 256) = 2 * (2 * (2 * (2 * (2 * (2 * (2 * (2 * (c / 256)))))))) := by
    ring
  rw [e]
  simp only [crcShift_even]

theorem crcByte_self (h : Nat) : crcByte h h = 0 := by
  unfold crcByte
  rw [Nat.xor_self]
  decide

theorem crc_residue (B : List Nat) (c : Nat) (hc : c = modbusCRC16 B B.length) :
    modbusCRC16 (B ++ [c % 256, c / 256]) (B.length + 2) = 0 := by
  have hlen : B.length + 2 = (B ++ [c % 256, c / 256]).length := by simp
  unfold modbusCRC16 at hc ⊢
  rw [hlen, List.take_length, List.foldl_append]
  rw [List.take_length] at hc
  rw [← hc]
  simp only [List.foldl_cons, List.foldl_nil]
  rw [crcByte_low_byte, crcByte_self]

/-- C28: for every byte sequence `B` with `c = modbusCRC16(B)`, the CRC of `B` followed
by `c & 0xFF` and `c >> 8` is zero; the same holds for the two bytes as the request
builders store them, `c & 0xFF` and `(c >> 8) & 0xFF`. -/
theorem C28_crc_residue_zero (B : List Nat) (hB : IsBytes B) :
    modbusCRC16 (B ++ [modbusCRC16 B B.length &&& 0xFF, modbusCRC16 B B.length >>> 8])
        (B.length + 2) = 0
    ∧ modbusCRC16
        (B ++ [modbusCRC16 B B.length &&& 0xFF, (modbusCRC16 B B.length >>> 8) &&& 0xFF])
        (B.length + 2) = 0 := by
  have hlt : modbusCRC16 B B.length < 65536 := modbusCRC16_lt B B.length hB
  have h := crc_residue B (modbusCRC16 B B.length) rfl
  have e : modbusCRC16 B B.length / 256 % 256 = modbusCRC16 B B.length / 256 :=
    Nat.mod_eq_of_lt (by omega)
  simp only [and_ff_eq_mod, shr8_eq_div, e]
  exact ⟨h, h⟩

set_option maxRecDepth 10000 in
/-- Witness for C28: the six bytes `01 03 00 01 00 06` of the poll request, whose CRC is
`0x0894`. -/
theorem C28_crc_residue_zero_witness :
    IsBytes [1, 3, 0, 1, 0, 6]
    ∧ modbusCRC16 [1, 3, 0, 1, 0, 6] 6 = 0x0894
    ∧ (modbusCRC16 ([1, 3, 0, 1, 0, 6] ++ [modbusCRC16 [1, 3, 0, 1, 0, 6]
          [1, 3, 0, 1, 0, 6].length &&& 0xFF,
          modbusCRC16 [1, 3, 0, 1, 0, 6] [1, 3, 0, 1, 0, 6].length >>> 8])
        ([1, 3, 0, 1, 0, 6].length + 2) = 0
      ∧ modbusCRC16 ([1, 3, 0, 1, 0, 6] ++ [modbusCRC16 [1, 3, 0, 1, 0, 6]
          [1, 3, 0, 1, 0, 6].length &&& 0xFF,
          (modbusCRC16 [1, 3, 0, 1, 0, 6] [1, 3, 0, 1, 0, 6].length >>> 8) &&& 0xFF])
        ([1, 3, 0, 1, 0, 6].length + 2) = 0) :=
  ⟨by decide, by decide, C28_crc_residue_zero [1, 3, 0, 1, 0, 6] (by decide)⟩

/-! ## Timers: the summary window and the poll interval -/

/-- The value `now - start` of the C code is the difference modulo `2^32`. -/
theorem msSince_spec (now start : Nat) :
    msSince now start < 2 ^ 32
    ∧ (msSince now start + start) % 2 ^ 32 = now % 2 ^ 32 := by
  unfold msSince
  norm_num
  omega

theorem msSince_of_le (now start : Nat) (h1 : start ≤ now) (h2 : now < 2 ^ 32) :
    msSince now start = now - start := by
  unfold msSince
  norm_num at h2 ⊢
  omega

theorem msSince_wrapped (now start : Nat) (h1 : now < start) (h2 : start < 2 ^ 32) :
    msSince now start = now + 2 ^ 32 - start := by
  unfold msSince
  norm_num at h2 ⊢
  omega

theorem rfid_no_card (now : Nat) (sa seed : List Nat) (t : Terminal) :
    handleRfidInNormalMode none now sa seed t = t := rfl

theorem loop_summary_no_card (inp : LoopInput) (t : Terminal)
    (hs : t.currentScreen = SCR_FUEL_SUMMARY) (hc : inp.card = none) :
    loop inp t = handleTouchOnFuelSummary inp.now t := by
  unfold loop
  simp only [hs, hc, rfid_no_card]
  split_ifs <;> rfl

/-- C22: in the summary state, the handler run at time `now` puts up the idle screen if
and only if `now - g_fuelSummaryStartMs`, computed modulo `2^32`, is at least 3000;
before that it changes nothing.  The same holds of a whole pass of `loop()` with no card
at the reader.  The handler reads no touch input. -/
theorem C22_summary_window (now : Nat) (t : Terminal)
    (hs : t.currentScreen = SCR_FUEL_SUMMARY) :
    ((handleTouchOnFuelSummary now t).currentScreen = SCR_IDLE
        ↔ msSince now t.g_fuelSummaryStartMs ≥ 3000)
    ∧ (msSince now t.g_fuelSummaryStartMs < 3000 → handleTouchOnFuelSummary now t = t)
    ∧ (∀ inp : LoopInput, inp.card = none → inp.now = now →
        (((loop inp t).currentScreen = SCR_IDLE ↔ msSince now t.g_fuelSummaryStartMs ≥ 3000)
        ∧ (msSince now t.g_fuelSummaryStartMs < 3000 → loop inp t = t)))
    ∧ msSince now t.g_fuelSummaryStartMs < 2 ^ 32
    ∧ (msSince now t.g_fuelSummaryStartMs + t.g_fuelSummaryStartMs) % 2 ^ 32
        = now % 2 ^ 32 := by
  have key : ((handleTouchOnFuelSummary now t).currentScreen = SCR_IDLE
        ↔ msSince now t.g_fuelSummaryStartMs ≥ 3000)
      ∧ (msSince now t.g_fuelSummaryStartMs < 3000 → handleTouchOnFuelSummary now t = t) := by
    unfold handleTouchOnFuelSummary FUEL_SUMMARY_DISPLAY_MS
    by_cases h : msSince now t.g_fuelSummaryStartMs ≥ 3000
    · rw [if_pos h]
      exact ⟨⟨fun _ => h, fun _ => rfl⟩, fun h2 => absurd h (by omega)⟩
    · rw [if_neg h]
      refine ⟨⟨fun h2 => ?_, fun h2 => absurd h2 h⟩, fun _ => rfl⟩
      rw [hs] at h2
      exact absurd h2 (by decide)
  refine ⟨key.1, key.2, ?_, (msSince_spec _ _).1, (msSince_spec _ _).2⟩
  intro inp hc hn
  rw [loop_summary_no_card inp t hs hc, hn]
  exact key

set_option maxRecDepth 100000 in
/-- Witness for C22: the summary screen came up at 440 ms; at 3439 ms it stays, at
3440 ms the idle screen comes up. -/
theorem C22_summary_window_witness :
    (loop (pollPass 400 answerDone1175) (loop (cardPass answerActive0)
      (idleTerminal scenarioConfig))).g_fuelSummaryStartMs = 440
    ∧ (handleTouchOnFuelSummary 3439 (loop (pollPass 400 answerDone1175)
        (loop (cardPass answerActive0) (idleTerminal scenarioConfig)))).currentScreen
        = SCR_FUEL_SUMMARY
    ∧ (handleTouchOnFuelSummary 3440 (loop (pollPass 400 answerDone1175)
        (loop (cardPass answerActive0) (idleTerminal scenarioConfig)))).currentScreen
        = SCR_IDLE :=
  ⟨by decide, by decide,
    (C22_summary_window 3440 (loop (pollPass 400 answerDone1175)
      (loop (cardPass answerActive0) (idleTerminal scenarioConfig))) (by decide)).1.2
      (by decide)⟩

set_option maxRecDepth 10000 in
/-- C26: the poll handler does nothing at all unless the fueling screen is up and
`now - g_lastMeterPollMs`, computed modulo `2^32`, is at least 300.  When both hold, the
line carries exactly one more request, the read of six registers from register 1 of
slave 1, and `g_lastMeterPollMs` becomes `now`. -/
theorem C26_poll_dispatch (now closeMs : Nat) (answer : List Nat) (t : Terminal) :
    (t.currentScreen ≠ SCR_FUELING ∨ msSince now t.g_lastMeterPollMs < 300 →
      handleMeterPolling now closeMs answer t = t)
    ∧ (t.currentScreen = SCR_FUELING → msSince now t.g_lastMeterPollMs ≥ 300 →
      (handleMeterPolling now closeMs answer t).bus.ops
        = t.bus.ops ++ [BusOp.setTx,
            BusOp.write (requestFrame MB_SLAVE_ADDR MB_FC_READ_HOLDING REG_STATUS_FLAGS 6),
            BusOp.flush, BusOp.setRx]
      ∧ (handleMeterPolling now closeMs answer t).bus.rede = false
      ∧ (handleMeterPolling now closeMs answer t).g_lastMeterPollMs = now)
    ∧ msSince now t.g_lastMeterPollMs < 2 ^ 32
    ∧ (msSince now t.g_lastMeterPollMs + t.g_lastMeterPollMs) % 2 ^ 32 = now % 2 ^ 32
    ∧ requestFrame MB_SLAVE_ADDR MB_FC_READ_HOLDING REG_STATUS_FLAGS 6
        = [1, 3, 0, 1, 0, 6, 148, 8] := by
  refine ⟨?_, ?_, (msSince_spec _ _).1, (msSince_spec _ _).2, by decide⟩
  · intro h
    unfold handleMeterPolling METER_POLL_INTERVAL_MS
    rcases h with h | h
    · rw [if_pos h]
    · rw [if_pos h]
      split_ifs <;> rfl
  · intro hs hdue
    have k := poll_due_bus now closeMs answer t hs hdue
    have m := meterRead_bus ⟨0, 0, 0, 0⟩ answer t.bus
    rw [k.1]
    exact ⟨m.2, m.1, k.2⟩

set_option maxRecDepth 100000 in
/-- Witness for C26 across the wrap of the millisecond counter: the last poll was at
`2^32 - 100`; at 199 ms after the wrap (299 ms later) the handler does nothing, at 200 ms
(300 ms later) it puts one read on the line and takes the time stamp. -/
theorem C26_poll_dispatch_witness :
    (loop (pollPass 4294967196 answerActive0) (loop (cardPass answerActive0)
      (idleTerminal scenarioConfig))).g_lastMeterPollMs = 2 ^ 32 - 100
    ∧ handleMeterPolling 199 239 answerActive520
        (loop (pollPass 4294967196 answerActive0) (loop (cardPass answerActive0)
          (idleTerminal scenarioConfig)))
      = loop (pollPass 4294967196 answerActive0) (loop (cardPass answerActive0)
          (idleTerminal scenarioConfig))
    ∧ (handleMeterPolling 200 240 answerActive520
        (loop (pollPass 4294967196 answerActive0) (loop (cardPass answerActive0)
          (idleTerminal scenarioConfig)))).g_lastMeterPollMs = 200 :=
  ⟨by decide,
    (C26_poll_dispatch 199 239 answerActive520
      (loop (pollPass 4294967196 answerActive0) (loop (cardPass answerActive0)
        (idleTerminal scenarioConfig)))).1 (Or.inr (by decide)),
    ((C26_poll_dispatch 200 240 answerActive520
      (loop (pollPass 4294967196 answerActive0) (loop (cardPass answerActive0)
        (idleTerminal scenarioConfig)))).2.1 (by decide) (by decide)).2.2⟩

/-! ## Return to the idle screen -/

set_option maxRecDepth 100000 in
/-- C21 as stated fails: a session of the registered driver is closed by the poll at
400 ms; the pass at 3500 ms puts the idle screen up, and the stored driver id and plate
are still those of the closed session. -/
theorem C21_identity_cleared_counterexample :
    (loop (pollPass 400 answerDone1175) (loop (cardPass answerActive0)
      (idleTerminal scenarioConfig))).currentScreen = SCR_FUEL_SUMMARY
    ∧ (loop (pollPass 3500 []) (loop (pollPass 400 answerDone1175)
        (loop (cardPass answerActive0) (idleTerminal scenarioConfig)))).currentScreen
        = SCR_IDLE
    ∧ (loop (pollPass 3500 []) (loop (pollPass 400 answerDone1175)
        (loop (cardPass answerActive0) (idleTerminal scenarioConfig)))).g_activeDriverUid
        = "04A1B2C3"
    ∧ (loop (pollPass 3500 []) (loop (pollPass 400 answerDone1175)
        (loop (cardPass answerActive0) (idleTerminal scenarioConfig)))).g_activeDriverPlate
        = "34 ABC 123" := by
  decide

/-- C21, amended: when the display window of the summary has run out, the handler puts
up the idle screen and changes nothing else; whether or not it has run out, the stored
driver id and plate, the last volume, the last meter reading, the session flag and the
line are what they were.  The same holds of a pass of `loop()` with no card at the
reader. -/
theorem C21_summary_return_keeps_identity (now : Nat) (t : Terminal) :
    (handleTouchOnFuelSummary now t).g_activeDriverUid = t.g_activeDriverUid
    ∧ (handleTouchOnFuelSummary now t).g_activeDriverPlate = t.g_activeDriverPlate
    ∧ (handleTouchOnFuelSummary now t).g_lastSessionLiters = t.g_lastSessionLiters
    ∧ (handleTouchOnFuelSummary now t).g_lastMeter = t.g_lastMeter
    ∧ (handleTouchOnFuelSummary now t).g_sessionActive = t.g_sessionActive
    ∧ (handleTouchOnFuelSummary now t).bus = t.bus
    ∧ (msSince now t.g_fuelSummaryStartMs ≥ FUEL_SUMMARY_DISPLAY_MS →
        handleTouchOnFuelSummary now t
          = { t with currentScreen := SCR_IDLE, drawn := t.drawn ++ [Drawn.idleScreen] })
    ∧ (∀ inp : LoopInput, t.currentScreen = SCR_FUEL_SUMMARY → inp.card = none →
        inp.now = now →
        (loop inp t).g_activeDriverUid = t.g_activeDriverUid
        ∧ (loop inp t).g_activeDriverPlate = t.g_activeDriverPlate) := by
  have key : (handleTouchOnFuelSummary now t).g_activeDriverUid = t.g_activeDriverUid
      ∧ (handleTouchOnFuelSummary now t).g_activeDriverPlate = t.g_activeDriverPlate := by
    unfold handleTouchOnFuelSummary
    split_ifs <;> exact ⟨rfl, rfl⟩
  refine ⟨key.1, key.2, ?_, ?_, ?_, ?_, ?_, ?_⟩
  · unfold handleTouchOnFuelSummary; split_ifs <;> rfl
  · unfold handleTouchOnFuelSummary; split_ifs <;> rfl
  · unfold handleTouchOnFuelSummary; split_ifs <;> rfl
  · unfold handleTouchOnFuelSummary; split_ifs <;> rfl
  · intro h
    unfold handleTouchOnFuelSummary
    rw [if_pos h]
    rfl
  · intro inp hs hc hn
    rw [loop_summary_no_card inp t hs hc, hn]
    exact key

set_option maxRecDepth 100000 in
/-- Witness for C21 (amended): the return to the idle screen at 3500 ms in the
scenario. -/
theorem C21_summary_return_keeps_identity_witness :
    msSince 3500 (loop (pollPass 400 answerDone1175) (loop (cardPass answerActive0)
      (idleTerminal scenarioConfig))).g_fuelSummaryStartMs ≥ FUEL_SUMMARY_DISPLAY_MS
    ∧ (handleTouchOnFuelSummary 3500 (loop (pollPass 400 answerDone1175)
        (loop (cardPass answerActive0) (idleTerminal scenarioConfig)))).g_activeDriverPlate
      = (loop (pollPass 400 answerDone1175) (loop (cardPass answerActive0)
        (idleTerminal scenarioConfig))).g_activeDriverPlate :=
  ⟨by decide,
    (C21_summary_return_keeps_identity 3500 (loop (pollPass 400 answerDone1175)
      (loop (cardPass answerActive0) (idleTerminal scenarioConfig)))).2.1⟩

/-! ## Buffers of the read path -/

/-- A read of no more bytes than the buffer holds never leaves the buffer: it fills
exactly `len` elements or times out. -/
theorem rs485ReadBytes_fits (cap len : Nat) (bus : Rs485) (h : len ≤ cap) :
    (rs485ReadBytes cap len bus).1 = ReadEnd.timedOut
    ∨ ∃ buf, (rs485ReadBytes cap len bus).1 = ReadEnd.filled buf ∧ buf.length = len := by
  unfold rs485ReadBytes
  by_cases c : len ≤ bus.rxBuf.length
  · rw [if_pos c, if_pos h]
    exact Or.inr ⟨_, rfl, by simp [c]⟩
  · rw [if_neg c, if_pos (by omega)]
    exact Or.inl rfl

/-- The decoding loop stays inside a buffer that holds the register bytes and an array
that has room. -/
theorem decodeRegisters_isSome (buf2 : List Nat) (n : Nat) :
    ∀ (i : Nat) (regs : List Nat), 2 * (i + n) ≤ buf2.length → i + n ≤ regs.length →
      (decodeRegisters buf2 n i regs).isSome = true := by
  induction n with
  | zero => intro i regs _ _; rfl
  | succ n ih =>
    intro i regs h1 h2
    have g0 : 2 * i < buf2.length := by omega
    have g1 : 2 * i + 1 < buf2.length := by omega
    have hi : i < regs.length := by omega
    simp only [decodeRegisters, List.get?_eq_getElem?, List.getElem?_eq_getElem g0,
      List.getElem?_eq_getElem g1, if_pos hi]
    exact ih (i + 1) _ (by omega) (by rw [List.length_set]; omega)

/-- The write exchange never leaves its eight-byte buffer. -/
theorem write_defined (a r v : Nat) (answer : List Nat) (bus : Rs485) :
    (modbusWriteSingleRegister a r v answer bus).1 ≠ MbExit.undefinedBehaviour := by
  have h := rs485ReadBytes_fits 8 8
    (sendRequest (requestFrame a MB_FC_WRITE_SINGLE_REG r v) answer bus) (le_refl _)
  unfold modbusWriteSingleRegister
  simp only
  generalize rs485ReadBytes 8 8
    (sendRequest (requestFrame a MB_FC_WRITE_SINGLE_REG r v) answer bus) = r1 at h ⊢
  obtain ⟨e, b⟩ := r1
  rcases h with h | ⟨buf, h, _⟩
  · simp only at h
    subst h
    simp
  · simp only at h
    subst h
    simp only
    split_ifs <;> simp

/-- The read exchange for 1 to 31 registers into an array with room for them stays
inside every buffer. -/
theorem read_defined (a s q : Nat) (outRegs answer : List Nat) (bus : Rs485)
    (hq1 : 1 ≤ q) (hq31 : q ≤ 31) (hcap : q ≤ outRegs.length) :
    (modbusReadHoldingRegisters a s q outRegs answer bus).1 ≠ MbExit.undefinedBehaviour := by
  have hq : q ≠ 0 := by omega
  have h := rs485ReadBytes_fits 3 3
    (sendRequest (requestFrame a MB_FC_READ_HOLDING s q) answer bus) (le_refl _)
  unfold modbusReadHoldingRegisters
  rw [if_neg hq]
  simp only
  generalize rs485ReadBytes 3 3
    (sendRequest (requestFrame a MB_FC_READ_HOLDING s q) answer bus) = r1 at h ⊢
  obtain ⟨e, b⟩ := r1
  rcases h with h | ⟨hdr, h, _⟩
  · simp only at h
    subst h
    simp
  · simp only at h
    subst h
    simp only
    split_ifs with c1 c2 c3
    · simp
    · simp
    · simp
    · have hbc : hdr.getD 2 0 = 2 * q := by
        have := not_not.mp c3
        omega
      have h2 := rs485ReadBytes_fits 64 (hdr.getD 2 0 + 2) b (by omega)
      generalize rs485ReadBytes 64 (hdr.getD 2 0 + 2) b = r2 at h2 ⊢
      obtain ⟨e2, b2⟩ := r2
      rcases h2 with h2 | ⟨buf2, h2, hl⟩
      · simp only at h2
        subst h2
        simp
      · simp only at h2
        subst h2
        simp only
        split_ifs with c4
        · simp
        · have hs := decodeRegisters_isSome buf2 q 0 outRegs (by omega) (by omega)
          generalize decodeRegisters buf2 q 0 outRegs = d at hs ⊢
          cases d with
          | none => simp at hs
          | some regs => simp

theorem requestFrame_length (a fc x y : Nat) : (requestFrame a fc x y).length = 8 := by
  simp [requestFrame]

/-- C25: with the direction line in receive mode at the call, every return of
`modbusWriteSingleRegister` and of `modbusReadHoldingRegisters` leaves it in receive
mode.  The line was switched to transmit once, for the write and the flush of the eight
request bytes, and switched back before the first byte of the answer is awaited; a read
of zero registers does not touch the line.  The write exchange always returns. -/
theorem C25_line_back_in_receive (a r v s q : Nat) (outRegs answer : List Nat) (bus : Rs485)
    (hrx : bus.rede = false) :
    (modbusWriteSingleRegister a r v answer bus).1 ≠ MbExit.undefinedBehaviour
    ∧ (modbusWriteSingleRegister a r v answer bus).2.rede = false
    ∧ (modbusWriteSingleRegister a r v answer bus).2.ops
        = bus.ops ++ [BusOp.setTx, BusOp.write (requestFrame a MB_FC_WRITE_SINGLE_REG r v),
            BusOp.flush, BusOp.setRx]
    ∧ (requestFrame a MB_FC_WRITE_SINGLE_REG r v).length = 8
    ∧ ((modbusReadHoldingRegisters a s q outRegs answer bus).1 ≠ MbExit.undefinedBehaviour →
        (modbusReadHoldingRegisters a s q outRegs answer bus).2.2.rede = false
        ∧ (modbusReadHoldingRegisters a s q outRegs answer bus).2.2.ops
            = if q = 0 then bus.ops
              else bus.ops ++ [BusOp.setTx,
                BusOp.write (requestFrame a MB_FC_READ_HOLDING s q),
                BusOp.flush, BusOp.setRx])
    ∧ (requestFrame a MB_FC_READ_HOLDING s q).length = 8 := by
  refine ⟨write_defined a r v answer bus, (write_bus a r v answer bus).1,
    (write_bus a r v answer bus).2, requestFrame_length _ _ _ _, ?_,
    requestFrame_length _ _ _ _⟩
  intro _
  by_cases hq : q = 0
  · subst hq
    simp [modbusReadHoldingRegisters, hrx]
  · rw [if_neg hq]
    exact read_bus a s q outRegs answer bus hq

set_option maxRecDepth 10000 in
/-- Witness for C25: a start write that is never answered, on the line as `initRs485`
leaves it. -/
theorem C25_line_back_in_receive_witness :
    initRs485.rede = false
    ∧ (modbusWriteSingleRegister 1 0 1 [] initRs485).1 = MbExit.timeout
    ∧ (modbusWriteSingleRegister 1 0 1 [] initRs485).2.rede = false :=
  ⟨by decide, by decide,
    (C25_line_back_in_receive 1 0 1 1 6 (List.replicate 6 0) [] initRs485 (by decide)).2.1⟩

/-- C24: the claim fails at 32 registers.  Whenever the header of the answer to a read
of 32 registers is accepted (address, function code 0x03, byte count 64) and at least 65
further bytes arrive, the 66 bytes the function asks for are stored into the 64-element
`buf2`: the store at index 64 is outside the buffer. -/
theorem C24_overrun_at_32_registers (a s : Nat) (outRegs answer : List Nat) (bus : Rs485)
    (hlen : 3 + 65 ≤ answer.length) (h0 : answer.getD 0 0 % 256 = a)
    (h1 : answer.getD 1 0 % 256 = MB_FC_READ_HOLDING) (h2 : answer.getD 2 0 % 256 = 64) :
    (modbusReadHoldingRegisters a s 32 outRegs answer bus).1 = MbExit.undefinedBehaviour := by
  match answer, hlen, h0, h1, h2 with
  | b0 :: b1 :: b2 :: rest, hlen, h0, h1, h2 =>
    simp only [List.getD_cons_zero, List.getD_cons_succ] at h0 h1 h2
    simp only [List.length_cons] at hlen
    have hr : 65 ≤ rest.length := by omega
    have c1 : ¬ (rest.length ≤ 64) := by omega
    simp [modbusReadHoldingRegisters, sendRequest, rs485SetTx, rs485SetRx, rs485ReadBytes,
      h0, h1, h2, c1]

set_option maxRecDepth 100000 in
/-- Witness for C24: the answer `01 03 40` followed by 64 data bytes and 2 CRC bytes, all
zero, to `modbusReadHoldingRegisters(1, 0, 32, regs)`. -/
theorem C24_overrun_at_32_registers_witness :
    (modbusReadHoldingRegisters 1 0 32 (List.replicate 32 0)
      ([1, 3, 64] ++ List.replicate 66 0) initRs485).1 = MbExit.undefinedBehaviour :=
  C24_overrun_at_32_registers 1 0 (List.replicate 32 0) ([1, 3, 64] ++ List.replicate 66 0)
    initRs485 (by decide) (by decide) (by decide) (by decide)

/-- C29: for 1 to 31 registers read into an array with room for them, and every answer,
the function stays inside its buffers: the `byteCount + 2` bytes asked for after an
accepted header are at most 64 and are never stored past `buf2[63]`, the reassembled
frame has at most 67 bytes, the CRC bytes at positions `byteCount` and `byteCount + 1`
and the bytes `2i`, `2i+1` of every register lie inside what was stored, and the decoding
loop ends inside `buf2` and the array. -/
theorem C29_reads_in_bounds (a s q : Nat) (outRegs answer : List Nat) (bus : Rs485)
    (hq1 : 1 ≤ q) (hq31 : q ≤ 31) (hcap : q ≤ outRegs.length) :
    (modbusReadHoldingRegisters a s q outRegs answer bus).1 ≠ MbExit.undefinedBehaviour
    ∧ (q * 2) % 65536 + 2 ≤ 64
    ∧ 3 + ((q * 2) % 65536 + 2) ≤ 3 + 64
    ∧ (∀ b : Rs485, (rs485ReadBytes 64 ((q * 2) % 65536 + 2) b).1 ≠ ReadEnd.overrun)
    ∧ (∀ (b : Rs485) (buf2 : List Nat),
        (rs485ReadBytes 64 ((q * 2) % 65536 + 2) b).1 = ReadEnd.filled buf2 →
        buf2.length = q * 2 + 2
        ∧ q * 2 + 2 - 2 < buf2.length
        ∧ q * 2 + 2 - 1 < buf2.length
        ∧ (∀ i, i < q → 2 * i < q * 2 ∧ 2 * i + 1 < q * 2)
        ∧ (decodeRegisters buf2 q 0 outRegs).isSome = true) := by
  have e : (q * 2) % 65536 = q * 2 := by omega
  refine ⟨read_defined a s q outRegs answer bus hq1 hq31 hcap, by omega, by omega, ?_, ?_⟩
  · intro b
    rcases rs485ReadBytes_fits 64 ((q * 2) % 65536 + 2) b (by omega) with h | ⟨buf, h, _⟩
    · rw [h]; simp
    · rw [h]; simp
  · intro b buf2 hf
    rcases rs485ReadBytes_fits 64 ((q * 2) % 65536 + 2) b (by omega) with h | ⟨buf, h, hl⟩
    · rw [h] at hf; exact absurd hf (by simp)
    · rw [h] at hf
      have hb : buf = buf2 := by simpa using hf
      subst hb
      rw [e] at hl
      exact ⟨hl, by omega, by omega, fun i hi => ⟨by omega, by omega⟩,
        decodeRegisters_isSome buf q 0 outRegs (by omega) (by omega)⟩

set_option maxRecDepth 100000 in
/-- Witness for C29: the read of six registers `meterRead` issues, with the poll answer
of the scenario. -/
theorem C29_reads_in_bounds_witness :
    (modbusReadHoldingRegisters MB_SLAVE_ADDR REG_STATUS_FLAGS 6 (List.replicate 6 0)
      answerActive520 initRs485).1 = MbExit.ok
    ∧ (modbusReadHoldingRegisters MB_SLAVE_ADDR REG_STATUS_FLAGS 6 (List.replicate 6 0)
      answerActive520 initRs485).1 ≠ MbExit.undefinedBehaviour :=
  ⟨by decide,
    (C29_reads_in_bounds MB_SLAVE_ADDR REG_STATUS_FLAGS 6 (List.replicate 6 0)
      answerActive520 initRs485 (by decide) (by decide) (by decide)).1⟩

/-! ## The session flag on the fueling screen -/

/-- The poll handler keeps "fueling screen implies session flag" and leaves the message
record alone. -/
theorem poll_keeps_flag (now closeMs : Nat) (answer : List Nat) (t : Terminal)
    (h : t.currentScreen = SCR_FUELING → t.g_sessionActive = true) :
    ((handleMeterPolling now closeMs answer t).currentScreen = SCR_FUELING →
      (handleMeterPolling now closeMs answer t).g_sessionActive = true)
    ∧ (handleMeterPolling now closeMs answer t).infoMsg = t.infoMsg := by
  unfold handleMeterPolling
  by_cases hs : t.currentScreen = SCR_FUELING
  · have ha := h hs
    rw [if_neg (not_not.mpr hs)]
    by_cases hdue : msSince now t.g_lastMeterPollMs < METER_POLL_INTERVAL_MS
    · rw [if_pos hdue]
      exact ⟨fun _ => ha, rfl⟩
    · rw [if_neg hdue]
      simp only
      rcases meterRead ⟨0, 0, 0, 0⟩ answer t.bus with ⟨ok, md, bus⟩
      cases ok
      · exact ⟨fun _ => ha, rfl⟩
      · by_cases hbit : md.statusFlags &&& STATUS_SESSION_ACTIVE_BIT = 0
        · simp [hbit, ha, drawFuelingScreen, drawFuelSummaryScreen]
        · simp [hbit, ha, drawFuelingScreen]
  · rw [if_pos hs]
    exact ⟨h, rfl⟩

/-- The card handler keeps "fueling screen implies session flag", and a message it puts
up does not return to the fueling screen. -/
theorem rfid_keeps_flag (card : Option String) (now : Nat) (sa seed : List Nat)
    (t : Terminal) (h : t.currentScreen = SCR_FUELING → t.g_sessionActive = true)
    (hm : t.infoMsg.returnScreen ≠ SCR_FUELING) :
    ((handleRfidInNormalMode card now sa seed t).currentScreen = SCR_FUELING →
      (handleRfidInNormalMode card now sa seed t).g_sessionActive = true)
    ∧ (handleRfidInNormalMode card now sa seed t).infoMsg.returnScreen ≠ SCR_FUELING := by
  cases card with
  | none => exact ⟨h, hm⟩
  | some uidHex =>
    unfold handleRfidInNormalMode
    simp only
    split_ifs with c1 c2 c3
    · simp [showInfoMessage]
    · simp [showInfoMessage]
    · rcases meterStartSession sa t.bus with ⟨x, b⟩
      cases x with
      | ok =>
        simp only
        rcases meterRead ⟨0, 0, 0, 0⟩ seed b with ⟨ok, md, b2⟩
        cases ok <;> exact ⟨fun _ => rfl, hm⟩
      | _ => simp [showInfoMessage]
    · exact ⟨h, hm⟩

/-- One pass of `loop()` keeps "fueling screen implies session flag", and no message
returns to the fueling screen. -/
theorem loop_keeps_flag (inp : LoopInput) (t : Terminal)
    (h : t.currentScreen = SCR_FUELING → t.g_sessionActive = true)
    (hm : t.infoMsg.returnScreen ≠ SCR_FUELING) :
    ((loop inp t).currentScreen = SCR_FUELING → (loop inp t).g_sessionActive = true)
    ∧ (loop inp t).infoMsg.returnScreen ≠ SCR_FUELING := by
  have step : ∀ t1 : Terminal,
      ((t1.currentScreen = SCR_FUELING → t1.g_sessionActive = true)
        ∧ t1.infoMsg.returnScreen ≠ SCR_FUELING) →
      (((if t1.currentScreen = SCR_IDLE ∨ t1.currentScreen = SCR_FUELING
            ∨ t1.currentScreen = SCR_FUEL_SUMMARY then
          handleRfidInNormalMode inp.card inp.rfidMs inp.startAnswer inp.seedAnswer t1
        else t1).currentScreen = SCR_FUELING →
        (if t1.currentScreen = SCR_IDLE ∨ t1.currentScreen = SCR_FUELING
            ∨ t1.currentScreen = SCR_FUEL_SUMMARY then
          handleRfidInNormalMode inp.card inp.rfidMs inp.startAnswer inp.seedAnswer t1
        else t1).g_sessionActive = true)
      ∧ (if t1.currentScreen = SCR_IDLE ∨ t1.currentScreen = SCR_FUELING
            ∨ t1.currentScreen = SCR_FUEL_SUMMARY then
          handleRfidInNormalMode inp.card inp.rfidMs inp.startAnswer inp.seedAnswer t1
        else t1).infoMsg.returnScreen ≠ SCR_FUELING) := by
    intro t1 h1
    split_ifs
    · exact rfid_keeps_flag _ _ _ _ t1 h1.1 h1.2
    · exact h1
  unfold loop
  apply step
  cases hs : t.currentScreen with
  | SCR_FUELING =>
    simp only
    exact ⟨(poll_keeps_flag _ _ _ t h).1, by rw [(poll_keeps_flag _ _ _ t h).2]; exact hm⟩
  | SCR_FUEL_SUMMARY =>
    simp only
    unfold handleTouchOnFuelSummary
    split_ifs
    · exact ⟨fun hc => absurd hc (by simp [drawIdleScreen]), hm⟩
    · exact ⟨h, hm⟩
  | SCR_MESSAGE =>
    simp only
    split_ifs <;> simp_all [drawIdleScreen, drawFuelSummaryScreen]
  | _ => exact ⟨h, hm⟩

/-- In every reachable state, the fueling screen is up only with the session flag set,
and the message on display does not return to the fueling screen. -/
theorem reachable_flag (t : Terminal) (hr : Reachable t) :
    (t.currentScreen = SCR_FUELING → t.g_sessionActive = true)
    ∧ t.infoMsg.returnScreen ≠ SCR_FUELING := by
  induction hr with
  | bootIdle config =>
    exact ⟨fun hc => absurd hc (by simp [idleTerminal]), by simp [idleTerminal]⟩
  | bootSetup config =>
    exact ⟨fun hc => absurd hc (by simp [setupMenuTerminal]),
      by simp [setupMenuTerminal, idleTerminal]⟩
  | pass inp t _ ih => exact loop_keeps_flag inp t ih.1 ih.2
  | touch t t' _ hstep _ => exact ⟨fun hc => absurd hc hstep.2.1, hstep.2.2⟩

/-- C27: in every state the terminal can reach (from either outcome of `setup()`, by
passes of `loop()` with any time, card and meter answers, and by anything the set-up
screens do), the fueling screen is up only with `g_sessionActive` true.  Hence on the
fueling screen of a reachable state a poll that is due, succeeds and reports the
session-active bit clear closes the session: the summary screen comes up, one closed
event is produced and the flag is cleared, whatever earlier polls reported. -/
theorem C27_flag_true_while_fueling (t : Terminal) (hr : Reachable t)
    (hs : t.currentScreen = SCR_FUELING) :
    t.g_sessionActive = true
    ∧ ∀ p : LoopInput, pollReports t p = some false →
        (handleMeterPolling p.now p.closeMs p.pollAnswer t).currentScreen = SCR_FUEL_SUMMARY
        ∧ closedEvents (handleMeterPolling p.now p.closeMs p.pollAnswer t)
            = closedEvents t + 1 := by
  have ha := (reachable_flag t hr).1 hs
  exact ⟨ha, fun p hp =>
    (handleMeterPolling_fueling p.now p.closeMs p.pollAnswer t p rfl rfl hs ha).1 hp⟩

set_option maxRecDepth 100000 in
/-- Witness for C27: the state after the driver card started a session from the idle
screen and two polls found the bit set. -/
theorem C27_flag_true_while_fueling_witness :
    (loop (pollPass 700 answerActive520) (loop (pollPass 400 answerActive0)
      (loop (cardPass answerActive0) (idleTerminal scenarioConfig)))).currentScreen
      = SCR_FUELING
    ∧ (loop (pollPass 700 answerActive520) (loop (pollPass 400 answerActive0)
      (loop (cardPass answerActive0) (idleTerminal scenarioConfig)))).g_sessionActive
      = true :=
  ⟨by decide,
    (C27_flag_true_while_fueling
      (loop (pollPass 700 answerActive520) (loop (pollPass 400 answerActive0)
        (loop (cardPass answerActive0) (idleTerminal scenarioConfig))))
      (Reachable.pass _ _ (Reachable.pass _ _ (Reachable.pass _ _
        (Reachable.bootIdle scenarioConfig))))
      (by decide)).1⟩

/-! ## The driver table -/

theorem find_range_some (p : Nat → Bool) (n i : Nat)
    (h : (List.range n).find? p = some i) :
    i < n ∧ p i = true ∧ ∀ j, j < i → p j = false := by
  induction n with
  | zero => simp at h
  | succ n ih =>
    rw [List.range_succ, List.find?_append] at h
    cases hf : (List.range n).find? p with
    | some k =>
      rw [hf] at h
      have e : k = i := by simpa using h
      subst e
      obtain ⟨a, b, c⟩ := ih hf
      exact ⟨by omega, b, c⟩
    | none =>
      rw [hf] at h
      have hnone : ∀ j, j < n → p j = false := by
        intro j hj
        have := List.find?_eq_none.mp hf j (List.mem_range.mpr hj)
        simpa using this
      by_cases hp : p n = true
      · have e : n = i := by simpa [hp] using h
        subst e
        exact ⟨by omega, hp, hnone⟩
      · simp [hp] at h

theorem find_range_none_elim (p : Nat → Bool) (n : Nat)
    (h : (List.range n).find? p = none) : ∀ j, j < n → p j = false := by
  intro j hj
  have := List.find?_eq_none.mp h j (List.mem_range.mpr hj)
  simpa using this

/-- The array after `items[idx] = d`: element `idx` is `d`, the others are what they
were. -/
theorem setItem_getD (items : List DriverCard) (idx : Nat) (d : DriverCard) (j : Nat) :
    (setItem items idx d).getD j ⟨"", ""⟩
      = if j = idx then d else items.getD j ⟨"", ""⟩ := by
  unfold setItem
  by_cases h : idx < items.length
  · rw [if_pos h, List.getD_eq_getElem?_getD, List.getD_eq_getElem?_getD]
    by_cases e : j = idx
    · subst e
      rw [if_pos rfl, List.getElem?_set_self h]
      rfl
    · rw [if_neg e, List.getElem?_set_ne (fun x => e x.symm)]
  · rw [if_neg h, List.getD_eq_getElem?_getD, List.getD_eq_getElem?_getD]
    by_cases e : j = idx
    · subst e
      rw [if_pos rfl, List.getElem?_append_right (by simp; omega)]
      simp
      have : j - (items.length + (j - items.length)) = 0 := by omega
      rw [this]
      rfl
    · rw [if_neg e]
      by_cases c1 : j < items.length
      · rw [List.append_assoc, List.getElem?_append_left c1]
      · rw [List.getElem?_eq_none (Nat.le_of_not_lt c1)]
        by_cases c2 : j < idx
        · rw [List.getElem?_append_left (by simp; omega),
            List.getElem?_append_right (by omega)]
          simp only [List.getElem?_replicate]
          split_ifs <;> rfl
        · rw [List.getElem?_eq_none (by simp; omega)]

/-- C30: on a table of at most `MAX_DRIVERS` = 20 entries in use, for every card id `u`
and plate `p`: if `configAddOrUpdateDriver(u, p)` returns `true`, then afterwards
`findDriverIndexByUid(u)` returns an index `i` of an entry in use with
`items[i].plate = p`, and the count is at most 20; it returns `false` exactly when `u`
matches no entry in use and the count is 20, and then the configuration is unchanged. -/
theorem C30_add_or_update_driver (config : AppConfig) (u p : String)
    (hcount : config.drivers.count ≤ MAX_DRIVERS) :
    ((configAddOrUpdateDriver config u p).1 = true →
      ∃ i : Nat, findDriverIndexByUid (configAddOrUpdateDriver config u p).2 u = (i : Int)
        ∧ i < (configAddOrUpdateDriver config u p).2.drivers.count
        ∧ ((configAddOrUpdateDriver config u p).2.drivers.items.getD i ⟨"", ""⟩).plate = p
        ∧ (configAddOrUpdateDriver config u p).2.drivers.count ≤ MAX_DRIVERS)
    ∧ ((configAddOrUpdateDriver config u p).1 = false
        ↔ NotInDriverTable config u ∧ config.drivers.count = MAX_DRIVERS)
    ∧ ((configAddOrUpdateDriver config u p).1 = false →
        (configAddOrUpdateDriver config u p).2 = config) := by
  unfold configAddOrUpdateDriver
  cases hf : (List.range config.drivers.count).find?
      (fun i => decide ((config.drivers.items.getD i ⟨"", ""⟩).uidHex = u)) with
  | some i =>
    obtain ⟨hi, hu, hlt⟩ := find_range_some _ _ _ hf
    have hu2 : (config.drivers.items.getD i ⟨"", ""⟩).uidHex = u := by simpa using hu
    have hlt2 : ∀ j, j < i → (config.drivers.items.getD j ⟨"", ""⟩).uidHex ≠ u :=
      fun j hj => by simpa using hlt j hj
    simp only
    refine ⟨fun _ => ⟨i, ?_, hi, ?_, hcount⟩, ?_, fun h => absurd h (by simp)⟩
    · apply findDriverIndexByUid_first
      refine ⟨hi, ?_, ?_⟩
      · simp only [setItem_getD, if_true]
        exact hu2
      · intro j hj
        simp only [setItem_getD, if_neg (Nat.ne_of_lt hj)]
        exact hlt2 j hj
    · simp only [setItem_getD, if_true]
    · constructor
      · intro h; exact absurd h (by simp)
      · intro h; exact absurd hu2 (h.1 i hi)
  | none =>
    have hn : NotInDriverTable config u := fun j hj => by
      simpa using find_range_none_elim _ _ hf j hj
    simp only
    by_cases hfull : config.drivers.count ≥ MAX_DRIVERS
    · rw [if_pos hfull]
      exact ⟨fun h => absurd h (by simp), ⟨fun _ => ⟨hn, by omega⟩, fun _ => rfl⟩, fun _ => rfl⟩
    · rw [if_neg hfull]
      refine ⟨fun _ => ⟨config.drivers.count, ?_, ?_, ?_, ?_⟩, ?_, fun h => absurd h (by simp)⟩
      · apply findDriverIndexByUid_first
        refine ⟨Nat.lt_succ_self _, ?_, ?_⟩
        · simp only [setItem_getD, if_true]
        · intro j hj
          simp only [setItem_getD, if_neg (Nat.ne_of_lt hj)]
          exact hn j hj
      · exact Nat.lt_succ_self _
      · simp only [setItem_getD, if_true]
      · show config.drivers.count + 1 ≤ MAX_DRIVERS
        omega
      · constructor
        · intro h; exact absurd h (by simp)
        · intro h; exact absurd h.2 (by omega)

set_option maxRecDepth 100000 in
/-- Witness for C30: on the table of the scenario, the plate of the registered card is
replaced and a new card is appended as entry 1; on a table with twenty entries in use a
new card is refused. -/
theorem C30_add_or_update_driver_witness :
    (configAddOrUpdateDriver scenarioConfig "04A1B2C3" "06 XYZ 789").2.drivers
      = { items := [{ uidHex := "04A1B2C3", plate := "06 XYZ 789" }], count := 1 }
    ∧ (configAddOrUpdateDriver scenarioConfig "0BADCAFE" "06 XYZ 789").2.drivers
      = { items := [{ uidHex := "04A1B2C3", plate := "34 ABC 123" },
                    { uidHex := "0BADCAFE", plate := "06 XYZ 789" }], count := 2 }
    ∧ (configAddOrUpdateDriver
        { adminCard := scenarioConfig.adminCard,
          drivers := { items := List.replicate 20 ⟨"04A1B2C3", "34 ABC 123"⟩, count := 20 } }
        "0BADCAFE" "06 XYZ 789").1 = false
    ∧ ∃ i : Nat,
        findDriverIndexByUid (configAddOrUpdateDriver scenarioConfig "0BADCAFE" "06 XYZ 789").2
          "0BADCAFE" = (i : Int)
        ∧ i < (configAddOrUpdateDriver scenarioConfig "0BADCAFE" "06 XYZ 789").2.drivers.count
        ∧ ((configAddOrUpdateDriver scenarioConfig "0BADCAFE" "06 XYZ 789").2.drivers.items.getD
            i ⟨"", ""⟩).plate = "06 XYZ 789"
        ∧ (configAddOrUpdateDriver scenarioConfig "0BADCAFE" "06 XYZ 789").2.drivers.count
            ≤ MAX_DRIVERS :=
  ⟨by decide, by decide, by decide,
    (C30_add_or_update_driver scenarioConfig "0BADCAFE" "06 XYZ 789" (by decide)).1
      (by decide)⟩
end FuelTerminal
